import Mathlib

/-!
# pvz-service: reception / product lifecycle

A shallow embedding of the Go packages `internal/domain/models`,
`internal/domain/errors`, `internal/repository/errors`,
`internal/repository/postgresql` and `internal/service`.

* The PostgreSQL database is a value of `Store`: the three tables `pvzs`,
  `receptions` and `products` as lists of rows.  A repository method takes the
  store and returns its Go results together with the store it leaves behind; a
  transaction that is rolled back leaves the store it started from.
* Whatever a call meets in the database besides the stored rows is a `DbRun`:
  `fail n` says that the `n`-th round trip of the call (begin, statement,
  commit) fails for a reason the rows do not decide (lost connection, cancelled
  context, value too long for its column), `pick n` is the engine's free choice
  among rows that `ORDER BY ... LIMIT 1` ranks equal, or among the rows a
  `RETURNING` clause yields.
* The key constraints of the schema (`CreateTestDB` in
  `internal/pkg/testhelpers/postgres.go`) are checked by the inserts.
* `uuid.New()` and `time.Now()` are arguments of the service methods.
-/

namespace PvzService

/-- The Go type `uuid.UUID`; identifiers are only compared for equality. -/
abbrev UUID := Nat

/-- The Go type `time.Time`, an instant on the time line. -/
abbrev Time := Int

/-! ## Errors -/

namespace databaseerrors

/-- The error variables of `internal/repository/errors/database.go`. -/
inductive Var
  | unexpected
  | uniqueViolation
  | noRows
deriving DecidableEq, Repr

end databaseerrors

namespace domainerrors

/-- The error variables of `internal/domain/errors/*.go`. -/
inductive Var
  | noProductsInReception
  | invalidProductType
  | userNotModerator
  | invalidCity
  | pvzAlreadyExists
  | invalidPage
  | invalidLimit
  | invalidDateRange
  | invalidStartDate
  | pvzNotFound
  | noOpenReceptions
  | openReceptionExists
  | userExists
  | invalidCredentials
  | userNotFound
  | invalidRole
  | notEnoughRights
  | passwordTooLong
  | unexpected
deriving DecidableEq, Repr

end domainerrors

/-- A non-nil Go `error`: one of the package-level variables, or a value built
by `fmt.Errorf("%w: ...", inner, ...)` around another error. -/
inductive GoError
  | database (v : databaseerrors.Var)
  | domain (v : domainerrors.Var)
  | wrap (inner : GoError) (text : String)
deriving DecidableEq, Repr

namespace errors

/-- The Go function `errors.Is`: `target` is `err` or is found by unwrapping it. -/
def Is : GoError → GoError → Bool
  | .wrap inner text, target =>
      decide (GoError.wrap inner text = target) || Is inner target
  | err, target => decide (err = target)

end errors

namespace GoError

/-- The method `Error()`: the text given to `errors.New`, and for a wrapped error
the text of the inner error, a colon and the formatted operand. -/
def Error : GoError → String
  | .database .unexpected => "unexpected database error"
  | .database .uniqueViolation => "unique field violation"
  | .database .noRows => "no rows found"
  | .domain .noProductsInReception => "no products in this reception"
  | .domain .invalidProductType => "invalid product type"
  | .domain .userNotModerator => "user is not moderator"
  | .domain .invalidCity => "invalid city provided"
  | .domain .pvzAlreadyExists => "pvz already exists"
  | .domain .invalidPage => "invalid page provided"
  | .domain .invalidLimit => "invalid limit provided"
  | .domain .invalidDateRange => "invalid date range provided"
  | .domain .invalidStartDate => "invalid start date provided"
  | .domain .pvzNotFound => "pvz not found"
  | .domain .noOpenReceptions => "no open receptions in this pvz"
  | .domain .openReceptionExists => "open reception already exists for this pvz"
  | .domain .userExists => "user already exists"
  | .domain .invalidCredentials => "invalid credentials"
  | .domain .userNotFound => "user not found"
  | .domain .invalidRole => "invalid role"
  | .domain .notEnoughRights => "not enough rights with role"
  | .domain .passwordTooLong => "password too long, max length is"
  | .domain .unexpected => "unexpected error"
  | .wrap inner text => inner.Error ++ ": " ++ text

end GoError

namespace databaseerrors

abbrev ErrUnexpected : GoError := .database .unexpected
abbrev ErrUniqueViolation : GoError := .database .uniqueViolation
abbrev ErrNoRows : GoError := .database .noRows

end databaseerrors

namespace domainerrors

abbrev ErrNoProductsInReception : GoError := .domain .noProductsInReception
abbrev ErrInvalidProductType : GoError := .domain .invalidProductType
abbrev ErrUserNotModerator : GoError := .domain .userNotModerator
abbrev ErrInvalidCity : GoError := .domain .invalidCity
abbrev ErrPVZAlreadyExists : GoError := .domain .pvzAlreadyExists
abbrev ErrInvalidPage : GoError := .domain .invalidPage
abbrev ErrInvalidLimit : GoError := .domain .invalidLimit
abbrev ErrInvalidDateRange : GoError := .domain .invalidDateRange
abbrev ErrInvalidStartDate : GoError := .domain .invalidStartDate
abbrev ErrPVZNotFound : GoError := .domain .pvzNotFound
abbrev ErrNoOpenReceptions : GoError := .domain .noOpenReceptions
abbrev ErrOpenReceptionExists : GoError := .domain .openReceptionExists
abbrev ErrUserExists : GoError := .domain .userExists
abbrev ErrInvalidCredentials : GoError := .domain .invalidCredentials
abbrev ErrUserNotFound : GoError := .domain .userNotFound
abbrev ErrInvalidRole : GoError := .domain .invalidRole
abbrev ErrNotEnoughRights : GoError := .domain .notEnoughRights
abbrev ErrPasswordTooLong : GoError := .domain .passwordTooLong

/-- Modelled from the spec: the variable `domainerrors.ErrUnexpected`, which the
services return and whose declaring file is not among the sources; the spec
calls it the single generic "unexpected error" kind. -/
abbrev ErrUnexpected : GoError := .domain .unexpected

end domainerrors

/-! ## Domain models (`internal/domain/models`) -/

namespace models

abbrev ReceptionStatus := String
abbrev ProductType := String
abbrev CityType := String
abbrev RoleType := String

def ReceptionStatusInProgress : ReceptionStatus := "in_progress"
def ReceptionStatusClose : ReceptionStatus := "close"

def ProductTypeElectronics : ProductType := "электроника"
def ProductTypeClothes : ProductType := "одежда"
def ProductTypeShoes : ProductType := "обувь"

def CityTypeMoscow : CityType := "Москва"
def CityTypeSPB : CityType := "Санкт-Петербург"
def CityTypeKazan : CityType := "Казань"

def RoleEmployee : RoleType := "employee"
def RoleModerator : RoleType := "moderator"

structure Reception where
  ID : UUID
  DateTime : Time
  PVZID : UUID
  Status : ReceptionStatus
deriving DecidableEq, Repr

/-- The struct `models.Product`; the Go field `Type` is spelled `Type_`. -/
structure Product where
  ID : UUID
  DateTime : Time
  Type_ : ProductType
  ReceptionID : UUID
deriving DecidableEq, Repr

/-- The struct `models.AddProduct`; the Go field `Type` is spelled `Type_`. -/
structure AddProduct where
  ID : UUID
  DateTime : Time
  Type_ : ProductType
  PVZID : UUID
deriving DecidableEq, Repr

structure PVZ where
  ID : UUID
  RegistrationDate : Time
  City : CityType
deriving DecidableEq, Repr

/-- The struct `models.ReceptionWithProducts`; the slice `Products` is `none` when
nil and `some l` when it is non-nil with the elements `l`. -/
structure ReceptionWithProducts where
  Reception : Reception
  Products : Option (List Product)
deriving DecidableEq, Repr

/-- The struct `models.PVZWithReceptions`; the slice `Receptions` is `none` when
nil and `some l` when it is non-nil with the elements `l`. -/
structure PVZWithReceptions where
  PVZ : PVZ
  Receptions : Option (List ReceptionWithProducts)
deriving DecidableEq, Repr

/-- The struct `models.User`. -/
structure User where
  ID : UUID
  Email : String
  PasswordHash : String
  Role : RoleType
deriving DecidableEq, Repr

/-- The struct `models.PVZFilter`; a nil date pointer is `none`. -/
structure PVZFilter where
  StartDate : Option Time
  EndDate : Option Time
  Page : Int
  PageSize : Int
deriving DecidableEq, Repr

namespace ProductType

/-- The method `ProductType.Valid`. -/
def Valid (p : ProductType) : Bool :=
  p == ProductTypeElectronics || p == ProductTypeClothes || p == ProductTypeShoes

end ProductType

namespace CityType

/-- The method `CityType.Valid`. -/
def Valid (m : CityType) : Bool :=
  m == CityTypeMoscow || m == CityTypeSPB || m == CityTypeKazan

end CityType

namespace RoleType

/-- The method `RoleType.Valid`. -/
def Valid (r : RoleType) : Bool :=
  r == RoleEmployee || r == RoleModerator

end RoleType

namespace PVZFilter

/-- The method `PVZFilter.Valid`; `now` is the value of `time.Now()` at the
second date check.  The result is the returned error, `none` for nil. -/
def Valid (f : PVZFilter) (now : Time) : Option GoError :=
  if f.Page < 1 then some domainerrors.ErrInvalidPage
  else if f.PageSize < 1 then some domainerrors.ErrInvalidLimit
  else if (match f.StartDate, f.EndDate with
      | some s, some e => decide (e < s)
      | _, _ => false) then some domainerrors.ErrInvalidDateRange
  else if (match f.StartDate with
      | some s => decide (now < s)
      | none => false) then some domainerrors.ErrInvalidStartDate
  else none

end PVZFilter

end models

/-! ## The database -/

namespace postgresqlrepo

/-- The struct `pvzRow`, a row of table `pvzs`. -/
structure pvzRow where
  ID : UUID
  RegistrationDate : Time
  City : String
deriving DecidableEq, Repr

/-- The struct `receptionRow`, a row of table `receptions`. -/
structure receptionRow where
  ID : UUID
  DateTime : Time
  PVZID : UUID
  Status : String
deriving DecidableEq, Repr

/-- The struct `productRow`, a row of table `products`; the Go field `Type` is
spelled `Type_`. -/
structure productRow where
  ID : UUID
  DateTime : Time
  Type_ : String
  ReceptionID : UUID
deriving DecidableEq, Repr

/-- The contents of the database: the tables the repositories read and write. -/
structure Store where
  pvzs : List pvzRow
  receptions : List receptionRow
  products : List productRow
deriving DecidableEq, Repr

/-- What one repository call meets in the database besides the stored rows. -/
structure DbRun where
  fail : Nat → Bool
  pick : Nat → Nat

/-- A run in which no round trip fails; `pick` stays free. -/
def DbRun.healthy (pick : Nat → Nat) : DbRun :=
  ⟨fun _ => false, pick⟩

/-- The database right after `CreateTestDB`: three empty tables. -/
def Store.empty : Store :=
  ⟨[], [], []⟩

/-- The rows a query `... ORDER BY key DESC LIMIT 1` may return: those whose key
no other row exceeds. -/
def topRows {α : Type} (key : α → Time) (rows : List α) : List α :=
  rows.filter (fun r => rows.all (fun q => decide (key q ≤ key r)))

/-- The row returned by `... ORDER BY key DESC LIMIT 1`: one of the top rows, the
engine choosing by `pick`; `none` when there is no row at all. -/
def orderByDescLimit1 {α : Type} (key : α → Time) (pick : Nat) (rows : List α) : Option α :=
  (topRows key rows)[pick % (topRows key rows).length]?

/-- The statement `INSERT INTO pvzs`: refused when the primary key is taken. -/
def insertPVZ (s : Store) (row : pvzRow) : Option Store :=
  if s.pvzs.any (fun p => p.ID == row.ID) then none
  else some { s with pvzs := s.pvzs ++ [row] }

/-- The statement `INSERT INTO receptions`: refused when the primary key is
taken or `pvz_id` references no pickup point. -/
def insertReception (s : Store) (row : receptionRow) : Option Store :=
  if s.receptions.any (fun r => r.ID == row.ID) then none
  else if !(s.pvzs.any (fun p => p.ID == row.PVZID)) then none
  else some { s with receptions := s.receptions ++ [row] }

/-- The statement `INSERT INTO products`: refused when the primary key is taken
or `reception_id` references no reception. -/
def insertProduct (s : Store) (row : productRow) : Option Store :=
  if s.products.any (fun p => p.ID == row.ID) then none
  else if !(s.receptions.any (fun r => r.ID == row.ReceptionID)) then none
  else some { s with products := s.products ++ [row] }

/-- The condition `pvz_id = $1 AND status = 'in_progress'`. -/
def isOpenFor (pvzID : UUID) (r : receptionRow) : Bool :=
  r.PVZID == pvzID && r.Status == "in_progress"

/-- The assignment `SET status = 'close'`. -/
def setClose (r : receptionRow) : receptionRow :=
  { r with Status := "close" }

/-- The statement `UPDATE receptions SET status = 'close' WHERE pvz_id = $1 AND
status = 'in_progress'` applied to one row. -/
def closeFor (pvzID : UUID) (r : receptionRow) : receptionRow :=
  if isOpenFor pvzID r then setClose r else r

/-! ### `reception.go` -/

namespace postgresqlReceptionRepository

def toModel (row : receptionRow) : models.Reception :=
  { ID := row.ID, DateTime := row.DateTime, PVZID := row.PVZID, Status := row.Status }

def toRow (reception : models.Reception) : receptionRow :=
  { ID := reception.ID, DateTime := reception.DateTime, PVZID := reception.PVZID,
    Status := reception.Status }

/-- The method `CreateIfNoOpen`.  Round trips: 0 begin, 1 pickup-point check,
2 open-reception check, 3 insert, 4 commit.  Returns the error (`none` for nil)
and the store after the call. -/
def CreateIfNoOpen (run : DbRun) (s : Store) (reception : models.Reception) :
    Option GoError × Store :=
  if run.fail 0 then (some databaseerrors.ErrUnexpected, s)
  else if run.fail 1 then (some databaseerrors.ErrUnexpected, s)
  else
    let pvzExists := s.pvzs.any (fun p => p.ID == reception.PVZID)
    if !pvzExists then (some databaseerrors.ErrNoRows, s)
    else if run.fail 2 then (some databaseerrors.ErrUnexpected, s)
    else
      let openReceptionExists := s.receptions.any (isOpenFor reception.PVZID)
      if openReceptionExists then (some domainerrors.ErrOpenReceptionExists, s)
      else if run.fail 3 then (some databaseerrors.ErrUnexpected, s)
      else
        match insertReception s (toRow reception) with
        | none => (some databaseerrors.ErrUnexpected, s)
        | some s1 =>
          if run.fail 4 then (some databaseerrors.ErrUnexpected, s)
          else (none, s1)

/-- The method `CloseLast`: one `UPDATE ... RETURNING` outside any transaction
(round trip 0).  Every row that meets the condition is updated; `GetContext`
scans one of the returned rows and reports `sql.ErrNoRows` when there is none. -/
def CloseLast (run : DbRun) (s : Store) (pvzID : UUID) :
    (Option models.Reception × Option GoError) × Store :=
  if run.fail 0 then ((none, some databaseerrors.ErrUnexpected), s)
  else
    let returned := (s.receptions.filter (isOpenFor pvzID)).map setClose
    match returned[run.pick 0 % returned.length]? with
    | none => ((none, some domainerrors.ErrNoOpenReceptions), s)
    | some row =>
      ((some (toModel row), none), { s with receptions := s.receptions.map (closeFor pvzID) })

end postgresqlReceptionRepository

/-! ### `product.go` -/

namespace postgresqlProductRepository

def toModel (row : productRow) : models.Product :=
  { ID := row.ID, DateTime := row.DateTime, Type_ := row.Type_, ReceptionID := row.ReceptionID }

/-- The row `productRow{...}` that `Create` builds from its argument and the
scanned reception identifier. -/
def newRow (product : models.AddProduct) (receptionID : UUID) : productRow :=
  { ID := product.ID, DateTime := product.DateTime, Type_ := product.Type_,
    ReceptionID := receptionID }

/-- The helper `getOpenReceptionID`, issued as round trip `n` of the calling
method: the scanned id, or the error. -/
def getOpenReceptionID (run : DbRun) (n : Nat) (s : Store) (pvzID : UUID) : Except GoError UUID :=
  if run.fail n then .error databaseerrors.ErrUnexpected
  else
    match orderByDescLimit1 receptionRow.DateTime (run.pick n)
        (s.receptions.filter (isOpenFor pvzID)) with
    | none => .error domainerrors.ErrNoOpenReceptions
    | some r => .ok r.ID

/-- The method `Create`.  Round trips: 0 begin, 1 `getOpenReceptionID`, 2 insert,
3 commit. -/
def Create (run : DbRun) (s : Store) (product : models.AddProduct) :
    (Option models.Product × Option GoError) × Store :=
  if run.fail 0 then ((none, some databaseerrors.ErrUnexpected), s)
  else
    match getOpenReceptionID run 1 s product.PVZID with
    | .error err => ((none, some err), s)
    | .ok receptionID =>
      let row := newRow product receptionID
      if run.fail 2 then ((none, some databaseerrors.ErrUnexpected), s)
      else
        match insertProduct s row with
        | none => ((none, some databaseerrors.ErrUnexpected), s)
        | some s1 =>
          if run.fail 3 then ((none, some databaseerrors.ErrUnexpected), s)
          else ((some (toModel row), none), s1)

/-- The rows left in `products` by
`DELETE FROM products WHERE id = (SELECT id FROM products WHERE reception_id = $1
ORDER BY date_time DESC LIMIT 1)`; an empty subquery deletes nothing. -/
def deleteLastRows (pick : Nat) (products : List productRow) (receptionID : UUID) :
    List productRow :=
  match orderByDescLimit1 productRow.DateTime pick
      (products.filter (fun p => p.ReceptionID == receptionID)) with
  | none => products
  | some last => products.filter (fun p => !(p.ID == last.ID))

/-- The method `DeleteLast`.  Round trips: 0 begin, 1 `getOpenReceptionID`,
2 delete, 3 `RowsAffected`, 4 commit. -/
def DeleteLast (run : DbRun) (s : Store) (pvzID : UUID) : Option GoError × Store :=
  if run.fail 0 then (some databaseerrors.ErrUnexpected, s)
  else
    match getOpenReceptionID run 1 s pvzID with
    | .error err => (some err, s)
    | .ok receptionID =>
      if run.fail 2 then (some databaseerrors.ErrUnexpected, s)
      else
        let kept := deleteLastRows (run.pick 2) s.products receptionID
        let rowsAffected := s.products.length - kept.length
        if run.fail 3 then (some databaseerrors.ErrUnexpected, s)
        else if rowsAffected == 0 then (some domainerrors.ErrNoProductsInReception, s)
        else if run.fail 4 then (some databaseerrors.ErrUnexpected, s)
        else (none, { s with products := kept })

end postgresqlProductRepository

/-! ### `pvz.go` -/

namespace postgresqlPVZRepository

def toRow (pvz : models.PVZ) : pvzRow :=
  { ID := pvz.ID, RegistrationDate := pvz.RegistrationDate, City := pvz.City }

/-- The method `Create`: one `INSERT` (round trip 0); a refused primary key is
PostgreSQL error 23505, any other failure is unexpected. -/
def Create (run : DbRun) (s : Store) (pvz : models.PVZ) : Option GoError × Store :=
  if run.fail 0 then (some databaseerrors.ErrUnexpected, s)
  else
    match insertPVZ s (toRow pvz) with
    | none => (some databaseerrors.ErrUniqueViolation, s)
    | some s1 => (none, s1)

end postgresqlPVZRepository

end postgresqlrepo

/-! ## Repository interfaces (`internal/domain/repositories`)

A method reads and writes the state `σ` behind the interface: the database for
the PostgreSQL repositories, anything else for a test double.  A nil pointer,
nil slice or nil error is `none`. -/

namespace repositories

structure IReceptionRepo (σ : Type) where
  CreateIfNoOpen : σ → models.Reception → Option GoError × σ
  CloseLast : σ → UUID → (Option models.Reception × Option GoError) × σ

structure IProductRepo (σ : Type) where
  Create : σ → models.AddProduct → (Option models.Product × Option GoError) × σ
  DeleteLast : σ → UUID → Option GoError × σ

structure IUserRepo (σ : Type) where
  Create : σ → models.User → Option GoError × σ
  GetByEmail : σ → String → (Option models.User × Option GoError) × σ

structure IPVZRepo (σ : Type) where
  Create : σ → models.PVZ → Option GoError × σ
  GetAll : σ → (Option (List models.PVZ) × Option GoError) × σ
  List : σ → models.PVZFilter → (Option (List models.PVZWithReceptions) × Option GoError) × σ

end repositories

namespace postgresqlrepo

/-- The constructor `NewPostgresqlReceptionRepository`, for a call that meets `run`. -/
def NewPostgresqlReceptionRepository (run : DbRun) : repositories.IReceptionRepo Store :=
  { CreateIfNoOpen := postgresqlReceptionRepository.CreateIfNoOpen run
    CloseLast := postgresqlReceptionRepository.CloseLast run }

/-- The constructor `NewPostgresqlProductRepository`, for a call that meets `run`. -/
def NewPostgresqlProductRepository (run : DbRun) : repositories.IProductRepo Store :=
  { Create := postgresqlProductRepository.Create run
    DeleteLast := postgresqlProductRepository.DeleteLast run }

end postgresqlrepo

/-! ## Metrics (`internal/pkg/metrics`) -/

namespace metrics

/-- The three business counters; `Inc` adds one. -/
structure Counters where
  PVZCreated : Nat
  ReceptionsCreated : Nat
  ProductsAdded : Nat
deriving DecidableEq, Repr

end metrics

/-! ## Services (`internal/service`) -/

namespace service

open models

namespace receptionServiceImpl

/-- The method `CloseLastReception`. -/
def CloseLastReception {σ : Type} (repo : repositories.IReceptionRepo σ)
    (userRole : String) (pvzID : UUID) (st : σ) :
    (Option Reception × Option GoError) × σ :=
  if userRole != RoleEmployee then ((none, some domainerrors.ErrNotEnoughRights), st)
  else
    match repo.CloseLast st pvzID with
    | ((_, some err), st1) =>
      if errors.Is err databaseerrors.ErrUnexpected then
        ((none, some domainerrors.ErrUnexpected), st1)
      else ((none, some err), st1)
    | ((reception, none), st1) => ((reception, none), st1)

/-- The method `CreateReceptionIfNoOpen`; `newID` is the value of `uuid.New()`,
`now` that of `time.Now()`. -/
def CreateReceptionIfNoOpen {σ : Type} (repo : repositories.IReceptionRepo σ)
    (newID : UUID) (now : Time) (userRole : String) (pvzID : UUID)
    (st : σ) (m : metrics.Counters) :
    (Option Reception × Option GoError) × σ × metrics.Counters :=
  if userRole != RoleEmployee then ((none, some domainerrors.ErrNotEnoughRights), st, m)
  else
    let reception : Reception :=
      { ID := newID, DateTime := now, PVZID := pvzID, Status := ReceptionStatusInProgress }
    match repo.CreateIfNoOpen st reception with
    | (some err, st1) =>
      if errors.Is err databaseerrors.ErrUnexpected then
        ((none, some domainerrors.ErrUnexpected), st1, m)
      else if errors.Is err databaseerrors.ErrNoRows then
        ((none, some domainerrors.ErrPVZNotFound), st1, m)
      else ((none, some err), st1, m)
    | (none, st1) =>
      ((some reception, none), st1, { m with ReceptionsCreated := m.ReceptionsCreated + 1 })

end receptionServiceImpl

namespace productServiceImpl

/-- The method `AddProduct`; `newID` is the value of `uuid.New()`, `now` that of
`time.Now()`. -/
def AddProduct {σ : Type} (repo : repositories.IProductRepo σ)
    (newID : UUID) (now : Time) (userRole : String) (productType : String) (pvzID : UUID)
    (st : σ) (m : metrics.Counters) :
    (Option Product × Option GoError) × σ × metrics.Counters :=
  if userRole != RoleEmployee then ((none, some domainerrors.ErrNotEnoughRights), st, m)
  else if !(ProductType.Valid productType) then
    ((none, some (GoError.wrap domainerrors.ErrInvalidProductType productType)), st, m)
  else
    let addProduct : models.AddProduct :=
      { ID := newID, DateTime := now, Type_ := productType, PVZID := pvzID }
    match repo.Create st addProduct with
    | ((_, some err), st1) =>
      if errors.Is err databaseerrors.ErrUnexpected then
        ((none, some domainerrors.ErrUnexpected), st1, m)
      else ((none, some err), st1, m)
    | ((product, none), st1) =>
      ((product, none), st1, { m with ProductsAdded := m.ProductsAdded + 1 })

/-- The method `DeleteLastProduct`. -/
def DeleteLastProduct {σ : Type} (repo : repositories.IProductRepo σ)
    (userRole : String) (pvzID : UUID) (st : σ) : Option GoError × σ :=
  if userRole != RoleEmployee then (some domainerrors.ErrNotEnoughRights, st)
  else
    match repo.DeleteLast st pvzID with
    | (some err, st1) =>
      if errors.Is err databaseerrors.ErrUnexpected then (some domainerrors.ErrUnexpected, st1)
      else (some err, st1)
    | (none, st1) => (none, st1)

end productServiceImpl

namespace pvzServiceImpl

/-- The method `CreatePVZ`; `newID` is the value of `uuid.New()`, `now` that of
`time.Now()`; a nil `pvzID` or `registerDate` is `none`. -/
def CreatePVZ {σ : Type} (pvzRepo : repositories.IPVZRepo σ)
    (newID : UUID) (now : Time) (userRole city : String)
    (pvzID : Option UUID) (registerDate : Option Time)
    (st : σ) (m : metrics.Counters) :
    (Option PVZ × Option GoError) × σ × metrics.Counters :=
  if userRole == RoleEmployee then ((none, some domainerrors.ErrUserNotModerator), st, m)
  else if !(CityType.Valid city) then ((none, some domainerrors.ErrInvalidCity), st, m)
  else
    let pvz : PVZ :=
      { ID := match pvzID with
          | none => newID
          | some id => id
        RegistrationDate := match registerDate with
          | none => now
          | some d => d
        City := city }
    match pvzRepo.Create st pvz with
    | (some err, st1) =>
      if errors.Is err databaseerrors.ErrUniqueViolation then
        ((none, some domainerrors.ErrPVZAlreadyExists), st1, m)
      else if errors.Is err databaseerrors.ErrUnexpected then
        ((none, some domainerrors.ErrUnexpected), st1, m)
      else ((some pvz, none), st1, { m with PVZCreated := m.PVZCreated + 1 })
    | (none, st1) => ((some pvz, none), st1, { m with PVZCreated := m.PVZCreated + 1 })

/-- The method `ListPVZs`; `now` is the value of `time.Now()` inside
`filter.Valid`; a nil pointer argument is `none`. -/
def ListPVZs {σ : Type} (pvzRepo : repositories.IPVZRepo σ) (now : Time)
    (userRole : String) (startDate endDate : Option Time) (pageNumber limit : Option Int)
    (st : σ) : (Option (List PVZWithReceptions) × Option GoError) × σ :=
  if userRole != RoleEmployee && userRole != RoleModerator then
    ((none, some (GoError.wrap domainerrors.ErrInvalidRole userRole)), st)
  else
    let filter : PVZFilter :=
      { StartDate := startDate
        EndDate := endDate
        Page := match pageNumber with
          | none => 1
          | some n => n
        PageSize := match limit with
          | none => 10
          | some n => n }
    match filter.Valid now with
    | some err => ((none, some err), st)
    | none =>
      match pvzRepo.List st filter with
      | ((result, some err), st1) =>
        if errors.Is err databaseerrors.ErrUnexpected then
          ((none, some domainerrors.ErrUnexpected), st1)
        else ((result, none), st1)
      | ((result, none), st1) => ((result, none), st1)

/-- The method `GetAllPVZs`. -/
def GetAllPVZs {σ : Type} (pvzRepo : repositories.IPVZRepo σ) (st : σ) :
    (Option (List PVZ) × Option GoError) × σ :=
  match pvzRepo.GetAll st with
  | ((pvzs, some err), st1) =>
    if errors.Is err databaseerrors.ErrUnexpected then
      ((none, some domainerrors.ErrUnexpected), st1)
    else ((pvzs, none), st1)
  | ((pvzs, none), st1) => ((pvzs, none), st1)

end pvzServiceImpl

namespace authServiceImpl

/-- The constant `auth.MaxPasswordLength`. -/
def MaxPasswordLength : Nat := 72

/-- The method `RegisterUser`; `hashPassword` is `auth.HashPassword` (bcrypt, an
outside library), `newID` the value of `uuid.New()`; `len(password)` counts
bytes. -/
def RegisterUser {σ : Type} (userRepo : repositories.IUserRepo σ)
    (hashPassword : String → String × Option GoError) (newID : UUID)
    (email password role : String) (st : σ) : (Option User × Option GoError) × σ :=
  if !(RoleType.Valid role) then
    ((none, some (GoError.wrap domainerrors.ErrInvalidRole role)), st)
  else if password.utf8ByteSize > MaxPasswordLength then
    ((none, some (GoError.wrap domainerrors.ErrPasswordTooLong (toString MaxPasswordLength))), st)
  else
    match hashPassword password with
    | (_, some err) => ((none, some (GoError.wrap domainerrors.ErrUnexpected err.Error)), st)
    | (passwordHash, none) =>
      let user : User := ⟨newID, email, passwordHash, role⟩
      match userRepo.Create st user with
      | (some err, st1) =>
        if errors.Is err databaseerrors.ErrUniqueViolation then
          ((none, some domainerrors.ErrUserExists), st1)
        else if errors.Is err databaseerrors.ErrUnexpected then
          ((none, some (GoError.wrap domainerrors.ErrUnexpected err.Error)), st1)
        else ((some user, none), st1)
      | (none, st1) => ((some user, none), st1)

end authServiceImpl

end service

/-! ## Invariants and the engine's operations -/

namespace postgresqlrepo

/-- The receptions of pickup point `p` stored with status `in_progress`. -/
def openReceptions (s : Store) (p : UUID) : List receptionRow :=
  s.receptions.filter (isOpenFor p)

/-- The products owned by the reception with identifier `r`. -/
def productsOf (s : Store) (r : UUID) : List productRow :=
  s.products.filter (fun q => q.ReceptionID == r)

/-- Invariant I1: no pickup point has two receptions with status `in_progress`. -/
def I1 (s : Store) : Prop :=
  ∀ p : UUID, (openReceptions s p).length ≤ 1

/-- The primary keys of the schema: within a table no identifier occurs twice. -/
def Store.keysUnique (s : Store) : Prop :=
  (s.pvzs.map pvzRow.ID).Nodup ∧ (s.receptions.map receptionRow.ID).Nodup ∧
    (s.products.map productRow.ID).Nodup

instance (s : Store) : Decidable s.keysUnique := by
  unfold Store.keysUnique
  infer_instance

/-- One call of a mutating repository method, with its arguments. -/
inductive Op
  | receptionCreateIfNoOpen (reception : models.Reception)
  | receptionCloseLast (pvzID : UUID)
  | productCreate (product : models.AddProduct)
  | productDeleteLast (pvzID : UUID)
  | pvzCreate (pvz : models.PVZ)

/-- The store left by one call, whatever the call returned. -/
def Op.apply (run : DbRun) (s : Store) : Op → Store
  | .receptionCreateIfNoOpen reception =>
    (postgresqlReceptionRepository.CreateIfNoOpen run s reception).2
  | .receptionCloseLast pvzID => (postgresqlReceptionRepository.CloseLast run s pvzID).2
  | .productCreate product => (postgresqlProductRepository.Create run s product).2
  | .productDeleteLast pvzID => (postgresqlProductRepository.DeleteLast run s pvzID).2
  | .pvzCreate pvz => (postgresqlPVZRepository.Create run s pvz).2

/-- The store left by a sequence of calls, each with its own run. -/
def runOps : List (DbRun × Op) → Store → Store
  | [], s => s
  | (run, op) :: rest, s => runOps rest (op.apply run s)

end postgresqlrepo

/-! ## The aggregate listing (`pvz.go`)

The order in which a Go `range` walks a map, and the order in which the database
engine places rows that its `ORDER BY` ranks equal, are free; both are given by a
function `choice` through `shuffle`. -/

namespace postgresqlrepo

/-- An arrangement of a list: `choice k` says where the item with `k` items behind
it goes among those already placed.  The constant 0 keeps the list as it is. -/
def shuffle {α : Type} (choice : Nat → Nat) : List α → List α
  | [] => []
  | a :: t => (shuffle choice t).insertIdx (choice t.length % (t.length + 1)) a

/-- The rows in the order of `ORDER BY ... DESC`: `before a b` says that the sort
key allows `a` to come before `b`; rows of equal rank stand as the engine chose. -/
def orderByDesc {α : Type} (before : α → α → Bool) (ties : Nat → Nat) (rows : List α) :
    List α :=
  (shuffle ties rows).insertionSort (fun a b => before a b = true)

/-- Arithmetic of the Go type `int` (64 bits, two's complement): the value that the
machine keeps of the integer `x`. -/
def wrapInt64 (x : Int) : Int :=
  (x + 2 ^ 63) % 2 ^ 64 - 2 ^ 63

/-- The struct `listedPVZRow`, one row of the listing query; a nil pointer is
`none`; the Go field `ID` is the pickup-point id. -/
structure listedPVZRow where
  ID : UUID
  RegistrationDate : Time
  City : String
  ReceptionID : Option UUID
  ReceptionDate : Option Time
  ReceptionStatus : Option String
  ProductID : Option UUID
  ProductDate : Option Time
  ProductType : Option String
deriving DecidableEq, Repr

/-- The result row of the listing query for pickup point `p` joined with the
reception `r` and the product `pr`; an absent join partner gives null columns. -/
def selectColumns (p : pvzRow) (r : Option receptionRow) (pr : Option productRow) :
    listedPVZRow :=
  { ID := p.ID
    RegistrationDate := p.RegistrationDate
    City := p.City
    ReceptionID := r.map receptionRow.ID
    ReceptionDate := r.map receptionRow.DateTime
    ReceptionStatus := r.map receptionRow.Status
    ProductID := pr.map productRow.ID
    ProductDate := pr.map productRow.DateTime
    ProductType := pr.map productRow.Type_ }

/-- The partners that `INNER JOIN` gives to one row: the matching rows. -/
def innerJoin {β : Type} (matching : List β) : List (Option β) :=
  matching.map some

/-- The partners that `LEFT JOIN` gives to one row: the matching rows, or a single
null partner when there is none. -/
def leftJoin {β : Type} (matching : List β) : List (Option β) :=
  if matching.isEmpty then [none] else matching.map some

/-- The common table `paginated_pvz`:
`SELECT id FROM pvzs ORDER BY registration_date DESC LIMIT $1 OFFSET $2`. -/
def paginatedPVZ (ties : Nat → Nat) (s : Store) (limit offset : Nat) : List UUID :=
  (((orderByDesc (fun a b => decide (b.RegistrationDate ≤ a.RegistrationDate)) ties
    s.pvzs).drop offset).take limit).map pvzRow.ID

/-- The condition `(r.date_time >= $3 OR $3 IS NULL) AND (r.date_time <= $4 OR $4 IS
NULL)`; a comparison with a null `r.date_time` is not true. -/
def dateCondition (startDate endDate : Option Time) (row : listedPVZRow) : Bool :=
  (match startDate with
    | none => true
    | some a => match row.ReceptionDate with
      | none => false
      | some d => decide (a ≤ d)) &&
  (match endDate with
    | none => true
    | some b => match row.ReceptionDate with
      | none => false
      | some d => decide (d ≤ b))

/-- The joins and the `WHERE` clause of the listing query over the pickup points
`page` of `paginated_pvz`: with a date bound `dated` the receptions are joined by
`INNER JOIN` and filtered by date, without one by `LEFT JOIN`; the products are
always joined by `LEFT JOIN`. -/
def joinedRows (s : Store) (page : List UUID) (startDate endDate : Option Time) :
    List listedPVZRow :=
  let dated := startDate.isSome || endDate.isSome
  let joined := page.flatMap fun id =>
    (s.pvzs.filter (fun p => p.ID == id)).flatMap fun p =>
      let rs := s.receptions.filter (fun r => r.PVZID == p.ID)
      (if dated then innerJoin rs else leftJoin rs).flatMap fun r =>
        match r with
        | none => [selectColumns p none none]
        | some r =>
          (leftJoin (s.products.filter (fun pr => pr.ReceptionID == r.ID))).map
            (fun pr => selectColumns p (some r) pr)
  if dated then joined.filter (dateCondition startDate endDate) else joined

/-- The sort key `p.registration_date DESC, r.date_time DESC`; with `DESC` a null
date comes first. -/
def listedBefore (a b : listedPVZRow) : Bool :=
  decide (b.RegistrationDate < a.RegistrationDate) ||
  (decide (a.RegistrationDate = b.RegistrationDate) &&
    (match a.ReceptionDate, b.ReceptionDate with
      | none, _ => true
      | some _, none => false
      | some x, some y => decide (y ≤ x)))

/-- The rows that the listing query returns, in the order of its `ORDER BY`;
`ties` arranges the pickup points of equal registration date, `ties2` the result
rows of equal rank. -/
def listQuery (ties ties2 : Nat → Nat) (s : Store) (limit offset : Nat)
    (startDate endDate : Option Time) : List listedPVZRow :=
  orderByDesc listedBefore ties2
    (joinedRows s (paginatedPVZ ties s limit offset) startDate endDate)

namespace postgresqlPVZRepository

/-- The two Go maps of `listedToModel` while the rows are consumed, their entries
in the order of insertion.  A pointer `*models.ReceptionWithProducts` held in the
`Receptions` of a pickup point is the key of its entry in `receptionMap`. -/
structure listedMaps where
  pvzMap : List (UUID × models.PVZ × List UUID)
  receptionMap : List (UUID × models.ReceptionWithProducts)
deriving DecidableEq, Repr

/-- The statement `pvzMap[row.ID].Receptions = append(pvzMap[row.ID].Receptions, ptr)`
applied to one entry. -/
def appendReception (pvzID rid : UUID) (e : UUID × models.PVZ × List UUID) :
    UUID × models.PVZ × List UUID :=
  if e.1 == pvzID then (e.1, e.2.1, e.2.2 ++ [rid]) else e

/-- The statement `receptionMap[rid].Products = append(receptionMap[rid].Products,
product)` applied to one entry. -/
def appendProduct (rid : UUID) (product : models.Product)
    (e : UUID × models.ReceptionWithProducts) : UUID × models.ReceptionWithProducts :=
  if e.1 == rid then (e.1, { e.2 with Products := some (e.2.Products.getD [] ++ [product]) })
  else e

/-- The first `if` of the loop body of `listedToModel`: a pickup point not yet in
`pvzMap` is entered with an empty, non-nil `Receptions`. -/
def enterPVZ (m : listedMaps) (row : listedPVZRow) : listedMaps :=
  if m.pvzMap.any (fun e => e.1 == row.ID) then m
  else { m with pvzMap := m.pvzMap ++
    [(row.ID, ⟨row.ID, row.RegistrationDate, row.City⟩, [])] }

/-- The inner `if` on `receptionMap`: a reception not yet in the map is entered
with empty, non-nil `Products` and appended to the `Receptions` of the row's
pickup point; dereferencing a nil date or status panics (`none`). -/
def enterReception (m : listedMaps) (row : listedPVZRow) (rid : UUID) : Option listedMaps :=
  if m.receptionMap.any (fun e => e.1 == rid) then some m
  else
    match row.ReceptionDate, row.ReceptionStatus with
    | some date, some status =>
      some { pvzMap := m.pvzMap.map (appendReception row.ID rid)
             receptionMap := m.receptionMap ++
              [(rid, ⟨⟨rid, date, row.ID, status⟩, some []⟩)] }
    | _, _ => none

/-- The `if row.ProductID != nil` of the loop body; dereferencing a nil date or
type panics (`none`). -/
def enterProduct (m : listedMaps) (row : listedPVZRow) (rid : UUID) : Option listedMaps :=
  match row.ProductID with
  | none => some m
  | some pid =>
    match row.ProductDate, row.ProductType with
    | some date, some type =>
      some { m with receptionMap := m.receptionMap.map (appendProduct rid ⟨pid, date, type, rid⟩) }
    | _, _ => none

/-- The loop body of `listedToModel` for one row; `none` is a panic. -/
def listedRow (m : listedMaps) (row : listedPVZRow) : Option listedMaps :=
  match row.ReceptionID with
  | none => some (enterPVZ m row)
  | some rid =>
    match enterReception (enterPVZ m row) row rid with
    | none => none
    | some m2 => enterProduct m2 row rid

/-- The value behind a pointer held in `Receptions`. -/
def deref (m : listedMaps) (rid : UUID) : Option models.ReceptionWithProducts :=
  (m.receptionMap.find? (fun e => e.1 == rid)).map (fun e => e.2)

/-- The pickup point with its receptions that an entry of `pvzMap` points to. -/
def assemble (m : listedMaps) (e : UUID × models.PVZ × List UUID) : models.PVZWithReceptions :=
  ⟨e.2.1, some (e.2.2.filterMap (deref m))⟩

/-- The method `listedToModel`: the rows are consumed in order, then the result is
filled by a `range` over `pvzMap`, which walks the map in the order `mapOrder`;
`none` is a panic, the result slice itself is never nil. -/
def listedToModel (mapOrder : Nat → Nat) (rows : List listedPVZRow) :
    Option (List models.PVZWithReceptions) :=
  match rows.foldlM listedRow ⟨[], []⟩ with
  | none => none
  | some m => some ((shuffle mapOrder m.pvzMap).map (assemble m))

/-- The method `GetAll`: `SELECT id, registration_date, city FROM pvzs` (round
trip 0) in the engine's order `ties`; round trip 1 is a failing `StructScan`; when
the row stream breaks (round trip 2) the loop ends after `pick 2` rows and
`rows.Err()` is not consulted. -/
def GetAll (run : DbRun) (ties : Nat → Nat) (s : Store) :
    (Option (List models.PVZ) × Option GoError) × Store :=
  if run.fail 0 then ((none, some databaseerrors.ErrUnexpected), s)
  else
    let rows := shuffle ties s.pvzs
    let scanned := if run.fail 2 then rows.take (run.pick 2) else rows
    if run.fail 1 then ((none, some databaseerrors.ErrUnexpected), s)
    else ((some (scanned.map (fun row => ⟨row.ID, row.RegistrationDate, row.City⟩)), none), s)

/-- The method `List`.  The arguments of the query are `filter.PageSize` and
`(filter.Page - 1) * filter.PageSize` in the arithmetic of `int`; PostgreSQL refuses
a negative `LIMIT` or `OFFSET`.  Round trip 0 is the query, round trip 1 a failing
`StructScan`; when the row stream breaks (round trip 2) the loop ends after
`pick 2` rows and `rows.Err()` is not consulted.  A panic of `listedToModel` is an
unexpected failure here. -/
def List (run : DbRun) (ties ties2 mapOrder : Nat → Nat) (s : Store)
    (filter : models.PVZFilter) :
    (Option (List models.PVZWithReceptions) × Option GoError) × Store :=
  let limit := filter.PageSize
  let offset := wrapInt64 ((filter.Page - 1) * filter.PageSize)
  if run.fail 0 then ((none, some databaseerrors.ErrUnexpected), s)
  else if limit < 0 || offset < 0 then ((none, some databaseerrors.ErrUnexpected), s)
  else
    let rows := listQuery ties ties2 s limit.toNat offset.toNat filter.StartDate filter.EndDate
    let rawRows := if run.fail 2 then rows.take (run.pick 2) else rows
    if run.fail 1 then ((none, some databaseerrors.ErrUnexpected), s)
    else
      match listedToModel mapOrder rawRows with
      | none => ((none, some databaseerrors.ErrUnexpected), s)
      | some result => ((some result, none), s)

end postgresqlPVZRepository

/-- The constructor `NewPostgresqlPVZRepository`, for a call that meets `run`, the
row orders `ties` and `ties2` and the map order `mapOrder`. -/
def NewPostgresqlPVZRepository (run : DbRun) (ties ties2 mapOrder : Nat → Nat) :
    repositories.IPVZRepo Store :=
  { Create := postgresqlPVZRepository.Create run
    GetAll := postgresqlPVZRepository.GetAll run ties
    List := postgresqlPVZRepository.List run ties ties2 mapOrder }

end postgresqlrepo

/-! ## Concurrent calls of `CreateIfNoOpen`

`BeginTxx(ctx, nil)` opens a transaction at the default isolation level of
PostgreSQL, READ COMMITTED: every statement sees the rows committed before it
starts and the rows its own transaction wrote.  The store holds the committed
rows; a call under way takes its round trips one by one, and round trips of other
calls may come in between. -/

namespace postgresqlrepo

/-- A call of `CreateIfNoOpen` under way: what it meets, its argument, the number
of its next round trip (0 begin, 1 pickup-point check, 2 open-reception check,
3 insert, 4 commit), and what it returned once it is over (`some none` is nil). -/
structure CreateIfNoOpenCall where
  run : DbRun
  reception : models.Reception
  next : Nat
  returned : Option (Option GoError)

/-- A call that has not made a round trip yet. -/
def CreateIfNoOpenCall.start (run : DbRun) (reception : models.Reception) :
    CreateIfNoOpenCall :=
  ⟨run, reception, 0, none⟩

/-- The next round trip of a call of `CreateIfNoOpen`, against the committed rows
`s`.  The inserted row is written at round trip 3 and becomes a committed row at
round trip 4; an insert whose key another call committed in between is refused,
which shows at the commit here. -/
def CreateIfNoOpenCall.step (s : Store) (c : CreateIfNoOpenCall) :
    Store × CreateIfNoOpenCall :=
  match c.returned with
  | some _ => (s, c)
  | none =>
    if c.run.fail c.next then
      (s, { c with returned := some (some databaseerrors.ErrUnexpected) })
    else
      match c.next with
      | 0 => (s, { c with next := 1 })
      | 1 =>
        if !(s.pvzs.any (fun p => p.ID == c.reception.PVZID)) then
          (s, { c with returned := some (some databaseerrors.ErrNoRows) })
        else (s, { c with next := 2 })
      | 2 =>
        if s.receptions.any (isOpenFor c.reception.PVZID) then
          (s, { c with returned := some (some domainerrors.ErrOpenReceptionExists) })
        else (s, { c with next := 3 })
      | 3 =>
        match insertReception s (postgresqlReceptionRepository.toRow c.reception) with
        | none => (s, { c with returned := some (some databaseerrors.ErrUnexpected) })
        | some _ => (s, { c with next := 4 })
      | _ =>
        match insertReception s (postgresqlReceptionRepository.toRow c.reception) with
        | none => (s, { c with returned := some (some databaseerrors.ErrUnexpected) })
        | some s1 => (s1, { c with returned := some none })

/-- The call number `i` makes its next round trip. -/
def stepAt (i : Nat) (s : Store) (calls : List CreateIfNoOpenCall) :
    Store × List CreateIfNoOpenCall :=
  match calls[i]? with
  | none => (s, calls)
  | some c => ((c.step s).1, calls.set i (c.step s).2)

/-- The calls `calls` run concurrently; `schedule` names, round trip by round
trip, the call whose turn it is. -/
def runSchedule : List Nat → Store → List CreateIfNoOpenCall →
    Store × List CreateIfNoOpenCall
  | [], s, calls => (s, calls)
  | i :: rest, s, calls => runSchedule rest (stepAt i s calls).1 (stepAt i s calls).2

end postgresqlrepo

/-! ## Notions used to state the properties of the listing -/

namespace postgresqlrepo

/-- The rows that carry a key and are the first in the list to carry it, in the
order of the list. -/
def firstBy {α κ : Type} [DecidableEq κ] (key : α → Option κ) : List α → List α
  | [] => []
  | a :: t =>
    match key a with
    | none => firstBy key t
    | some k => a :: (firstBy key t).filter (fun b => !(key b == some k))

/-- The distinct values of a list in the order of their first appearance. -/
def firstSeen {κ : Type} [DecidableEq κ] (l : List κ) : List κ :=
  firstBy some l

/-- A row as `StructScan` fills it from the listing query: the date and status of
a reception are present whenever its id is, and so are the date and type of a
product. -/
def listedPVZRow.scanned (row : listedPVZRow) : Bool :=
  (row.ReceptionID.isNone || (row.ReceptionDate.isSome && row.ReceptionStatus.isSome)) &&
  (row.ProductID.isNone || (row.ProductDate.isSome && row.ProductType.isSome))

/-- The pickup point that `listedToModel` builds from a row. -/
def listedPVZRow.pvz (row : listedPVZRow) : models.PVZ :=
  ⟨row.ID, row.RegistrationDate, row.City⟩

/-- The reception that `listedToModel` builds from a row, if the row has one. -/
def listedPVZRow.reception (row : listedPVZRow) : Option models.Reception :=
  match row.ReceptionID, row.ReceptionDate, row.ReceptionStatus with
  | some rid, some date, some status => some ⟨rid, date, row.ID, status⟩
  | _, _, _ => none

/-- What the two maps of `listedToModel` hold once the rows `rows` are consumed:
the pickup points and the receptions of the first occurrences of their ids, each
under its id as key; every reception is owned by an entered pickup point; and the
`Receptions` of a pickup point are the keys, in the order of entry, of the
receptions whose `PVZID` it is. -/
structure listedInv (rows : List listedPVZRow) (m : postgresqlPVZRepository.listedMaps) :
    Prop where
  pvzKeys : ∀ e ∈ m.pvzMap, e.1 = e.2.1.ID
  pvzs : m.pvzMap.map (fun e => e.2.1) =
    (firstBy (fun r => some r.ID) rows).map listedPVZRow.pvz
  recKeys : ∀ x ∈ m.receptionMap, x.1 = x.2.Reception.ID
  recs : m.receptionMap.map (fun x => x.2.Reception) =
    (firstBy listedPVZRow.ReceptionID rows).filterMap listedPVZRow.reception
  recIds : m.receptionMap.map (fun x => x.1) =
    (firstBy listedPVZRow.ReceptionID rows).filterMap listedPVZRow.ReceptionID
  owners : ∀ x ∈ m.receptionMap, ∃ e ∈ m.pvzMap, e.1 = x.2.Reception.PVZID
  ptrs : ∀ e ∈ m.pvzMap, e.2.2 =
    (m.receptionMap.filter (fun x => x.2.Reception.PVZID == e.1)).map (fun x => x.1)

/-- The pickup point that a call is addressed to; the creation of a pickup point
is addressed to none. -/
def Op.pvzID : Op → Option UUID
  | .receptionCreateIfNoOpen reception => some reception.PVZID
  | .receptionCloseLast pvzID => some pvzID
  | .productCreate product => some product.PVZID
  | .productDeleteLast pvzID => some pvzID
  | .pvzCreate _ => none

/-- The receptions that belong to pickup point `Q`. -/
def receptionsAt (s : Store) (Q : UUID) : List receptionRow :=
  s.receptions.filter (fun r => r.PVZID == Q)

/-- The products that belong to pickup point `Q`: those owned by a reception of
`Q`. -/
def productsAt (s : Store) (Q : UUID) : List productRow :=
  s.products.filter (fun p => s.receptions.any (fun r => r.ID == p.ReceptionID && r.PVZID == Q))

/-- The product that `listedToModel` builds from a row, if the row has a reception
and a product. -/
def listedPVZRow.product (row : listedPVZRow) : Option models.Product :=
  match row.ReceptionID, row.ProductID, row.ProductDate, row.ProductType with
  | some rid, some pid, some date, some type => some ⟨pid, date, type, rid⟩
  | _, _, _, _ => none

/-- A date lies within the bounds of a filter; an absent bound does not restrict. -/
def inRange (startDate endDate : Option Time) (d : Time) : Prop :=
  (∀ a, startDate = some a → a ≤ d) ∧ (∀ b, endDate = some b → d ≤ b)

end postgresqlrepo

/-! ## Sample data -/

namespace postgresqlrepo

/-- Every round trip of the call works. -/
def DbRun.ok (run : DbRun) : Prop :=
  ∀ n : Nat, run.fail n = false

/-- A run without failures in which the engine always takes the first candidate. -/
def sampleRun : DbRun :=
  DbRun.healthy (fun _ => 0)

/-- Two pickup points: 1 has a closed reception 10 with one product and an open
reception 11 with three products, two of them of equal date; 2 has no reception. -/
def sampleStore : Store :=
  { pvzs := [⟨1, 0, "Москва"⟩, ⟨2, 1, "Казань"⟩]
    receptions := [⟨10, 5, 1, "close"⟩, ⟨11, 8, 1, "in_progress"⟩]
    products := [⟨100, 6, "обувь", 10⟩, ⟨101, 9, "одежда", 11⟩, ⟨102, 12, "обувь", 11⟩,
      ⟨103, 12, "электроника", 11⟩] }

/-- The sample store after pickup point 1 closed its reception. -/
def sampleClosedStore : Store :=
  { sampleStore with receptions := [⟨10, 5, 1, "close"⟩, ⟨11, 8, 1, "close"⟩] }

/-- A working run in which the engine always takes the second candidate. -/
def sampleRunSecond : DbRun :=
  DbRun.healthy (fun _ => 1)

/-- Five pickup points registered at the times 1 to 5, no receptions. -/
def sampleFiveStore : Store :=
  { pvzs := [⟨1, 1, "Москва"⟩, ⟨2, 2, "Казань"⟩, ⟨3, 3, "Москва"⟩, ⟨4, 4, "Казань"⟩,
      ⟨5, 5, "Москва"⟩]
    receptions := []
    products := [] }

/-- Rows as the listing query returns them for the sample store: pickup point 2,
registered last and without receptions, then pickup point 1 with its reception 11
and two of its products, then its older reception 10. -/
def sampleListedRows : List listedPVZRow :=
  [⟨2, 1, "Казань", none, none, none, none, none, none⟩,
   ⟨1, 0, "Москва", some 11, some 8, some "in_progress", some 101, some 9, some "одежда"⟩,
   ⟨1, 0, "Москва", some 11, some 8, some "in_progress", some 102, some 12, some "обувь"⟩,
   ⟨1, 0, "Москва", some 10, some 5, some "close", some 100, some 6, some "обувь"⟩]

/-- A filter with a lower date bound only: receptions from time 6 on, first page
of ten. -/
def sampleDatedFilter : models.PVZFilter :=
  ⟨some 6, none, 1, 10⟩

/-- A filter without date bounds whose page number is 2 ^ 62 + 1, with four pickup
points to the page. -/
def sampleFarPageFilter : models.PVZFilter :=
  ⟨none, none, 4611686018427387905, 4⟩

/-- Two calls of `CreateIfNoOpen` for pickup point 1, with the receptions 20 and
21, both on a working connection. -/
def sampleCalls : List CreateIfNoOpenCall :=
  [CreateIfNoOpenCall.start sampleRun ⟨20, 6, 1, "in_progress"⟩,
   CreateIfNoOpenCall.start sampleRun ⟨21, 7, 1, "in_progress"⟩]

/-- A filter with the lower date bound 6 and pages of one pickup point; the first
page. -/
def sampleNarrowFilter : models.PVZFilter :=
  ⟨some 6, none, 1, 1⟩

/-- Pickup point 1 with two receptions in_progress, as two concurrent calls of
`CreateIfNoOpen` leave it: the older reception 30 owns product 300, the newer
reception 31 owns none. -/
def sampleTwoOpenStore : Store :=
  { pvzs := [⟨1, 0, "Москва"⟩]
    receptions := [⟨30, 1, 1, "in_progress"⟩, ⟨31, 5, 1, "in_progress"⟩]
    products := [⟨300, 2, "обувь", 30⟩] }

/-- Pickup point 1 with two receptions in_progress: the older reception 30 owns
no product, the newer reception 31 owns product 310. -/
def sampleTwoOpenNewerStore : Store :=
  { pvzs := [⟨1, 0, "Москва"⟩]
    receptions := [⟨30, 1, 1, "in_progress"⟩, ⟨31, 5, 1, "in_progress"⟩]
    products := [⟨310, 6, "обувь", 31⟩] }

/-- Pickup point 1 with two receptions in_progress of equal date and no product. -/
def sampleTwoOpenTiedStore : Store :=
  { pvzs := [⟨1, 0, "Москва"⟩]
    receptions := [⟨30, 5, 1, "in_progress"⟩, ⟨31, 5, 1, "in_progress"⟩]
    products := [] }

/-- The sample store with the open reception 11 emptied. -/
def sampleEmptyReceptionStore : Store :=
  { sampleStore with products := [⟨100, 6, "обувь", 10⟩] }

end postgresqlrepo

namespace service

/-- A test double in the manner of `mock_repositories.MockIPVZRepo`: its state is
the list of pickup points handed to `Create` so far, and `Create` returns `err`. -/
def recordingPVZRepo (err : Option GoError) : repositories.IPVZRepo (List models.PVZ) :=
  { Create := fun log pvz => (err, log ++ [pvz])
    GetAll := fun log => ((none, none), log)
    List := fun log _ => ((none, none), log) }

/-- A test double in the manner of `mock_repositories.MockIReceptionRepo`: its
state is the list of pickup-point ids it was called for so far; `CloseLast`
answers `(reception, err)` and `CreateIfNoOpen` answers `err`. -/
def recordingReceptionRepo (reception : Option models.Reception) (err : Option GoError) :
    repositories.IReceptionRepo (List UUID) :=
  { CreateIfNoOpen := fun log r => (err, log ++ [r.PVZID])
    CloseLast := fun log pvzID => ((reception, err), log ++ [pvzID]) }

/-- A test double in the manner of `mock_repositories.MockIProductRepo`: its state
is the list of pickup-point ids it was called for so far; `Create` answers
`(product, err)` and `DeleteLast` answers `err`. -/
def recordingProductRepo (product : Option models.Product) (err : Option GoError) :
    repositories.IProductRepo (List UUID) :=
  { Create := fun log p => ((product, err), log ++ [p.PVZID])
    DeleteLast := fun log pvzID => (err, log ++ [pvzID]) }

/-- The counters at process start. -/
def zeroCounters : metrics.Counters :=
  ⟨0, 0, 0⟩

/-- A test double whose every method fails with `err`; its state is the list of
pickup points handed to `Create` so far. -/
def failingPVZRepo (err : GoError) : repositories.IPVZRepo (List models.PVZ) :=
  { Create := fun log pvz => (some err, log ++ [pvz])
    GetAll := fun log => ((none, some err), log)
    List := fun log _ => ((none, some err), log) }

/-- A test double for the user repository whose every method fails with `err`; its
state is the list of users handed to `Create` so far. -/
def failingUserRepo (err : GoError) : repositories.IUserRepo (List models.User) :=
  { Create := fun log user => (some err, log ++ [user])
    GetByEmail := fun log _ => ((none, some err), log) }

/-- A stand-in for `auth.HashPassword` that never fails. -/
def sampleHash (plain : String) : String × Option GoError :=
  ("hash of " ++ plain, none)

end service

/-! ## Lemmas on the database primitives -/

namespace postgresqlrepo

theorem topRows_subset {α : Type} (key : α → Time) (rows : List α) :
    ∀ r ∈ topRows key rows, r ∈ rows := by
  intro r hr
  exact (List.mem_filter.mp hr).1

theorem topRows_max {α : Type} (key : α → Time) (rows : List α) :
    ∀ r ∈ topRows key rows, ∀ q ∈ rows, key q ≤ key r := by
  intro r hr q hq
  have h := (List.mem_filter.mp hr).2
  rw [List.all_eq_true] at h
  simpa using h q hq

theorem topRows_ne_nil {α : Type} (key : α → Time) (rows : List α) (h : rows ≠ []) :
    topRows key rows ≠ [] := by
  induction rows with
  | nil => exact absurd rfl h
  | cons a t ih =>
    by_cases ht : t = []
    · subst ht
      simp [topRows]
    · obtain ⟨m, hm⟩ := List.exists_mem_of_ne_nil _ (ih ht)
      have hmt : m ∈ t := topRows_subset key t m hm
      have hmax : ∀ q ∈ t, key q ≤ key m := topRows_max key t m hm
      by_cases hc : key a ≤ key m
      · have : m ∈ topRows key (a :: t) := by
          refine List.mem_filter.mpr ⟨List.mem_cons_of_mem _ hmt, ?_⟩
          rw [List.all_eq_true]
          intro q hq
          rcases List.mem_cons.mp hq with rfl | hq
          · simpa using hc
          · simpa using hmax q hq
        exact List.ne_nil_of_mem this
      · have hlt : key m < key a := lt_of_not_le hc
        have : a ∈ topRows key (a :: t) := by
          refine List.mem_filter.mpr ⟨List.mem_cons_self _ _, ?_⟩
          rw [List.all_eq_true]
          intro q hq
          rcases List.mem_cons.mp hq with rfl | hq
          · simp
          · have := hmax q hq
            simpa using le_trans this (le_of_lt hlt)
        exact List.ne_nil_of_mem this

/-- The query `ORDER BY key DESC LIMIT 1` finds no row exactly on an empty input. -/
theorem orderByDescLimit1_eq_none {α : Type} (key : α → Time) (pick : Nat) (rows : List α) :
    orderByDescLimit1 key pick rows = none ↔ rows = [] := by
  constructor
  · intro h
    by_contra hne
    have hpos : 0 < (topRows key rows).length :=
      List.length_pos.mpr (topRows_ne_nil key rows hne)
    have hlt : pick % (topRows key rows).length < (topRows key rows).length :=
      Nat.mod_lt _ hpos
    unfold orderByDescLimit1 at h
    rw [List.getElem?_eq_none_iff] at h
    omega
  · intro h
    subst h
    simp [orderByDescLimit1, topRows]

/-- A row returned by `ORDER BY key DESC LIMIT 1` is one of the input rows and no
input row has a larger key. -/
theorem orderByDescLimit1_some {α : Type} (key : α → Time) (pick : Nat) (rows : List α)
    (r : α) (h : orderByDescLimit1 key pick rows = some r) :
    r ∈ rows ∧ ∀ q ∈ rows, key q ≤ key r := by
  unfold orderByDescLimit1 at h
  have hm : r ∈ topRows key rows := List.getElem?_mem h
  exact ⟨topRows_subset key rows r hm, topRows_max key rows r hm⟩

/-! ## What each repository call can do to the store -/

open postgresqlReceptionRepository in
/-- The method `CreateIfNoOpen` either returns an error and leaves the store as it
was, or returns nil after appending the row of its argument; the latter only
when the pickup point is stored, has no open reception and the key is free. -/
theorem CreateIfNoOpen_outcome (run : DbRun) (s : Store) (reception : models.Reception) :
    (∃ e, CreateIfNoOpen run s reception = (some e, s)) ∨
    (CreateIfNoOpen run s reception =
        (none, { s with receptions := s.receptions ++ [toRow reception] }) ∧
      s.receptions.any (isOpenFor reception.PVZID) = false ∧
      s.receptions.any (fun r => r.ID == reception.ID) = false ∧
      s.pvzs.any (fun p => p.ID == reception.PVZID) = true) := by
  unfold CreateIfNoOpen
  by_cases h0 : run.fail 0 = true
  · left; exact ⟨databaseerrors.ErrUnexpected, by simp [h0]⟩
  by_cases h1 : run.fail 1 = true
  · left; exact ⟨databaseerrors.ErrUnexpected, by simp [h0, h1]⟩
  by_cases hp : s.pvzs.any (fun p => p.ID == reception.PVZID) = true
  swap
  · left; exact ⟨databaseerrors.ErrNoRows, by simp [h0, h1, hp]⟩
  by_cases h2 : run.fail 2 = true
  · left; exact ⟨databaseerrors.ErrUnexpected, by simp [h0, h1, hp, h2]⟩
  by_cases ho : s.receptions.any (isOpenFor reception.PVZID) = true
  · left; exact ⟨domainerrors.ErrOpenReceptionExists, by simp [h0, h1, hp, h2, ho]⟩
  by_cases h3 : run.fail 3 = true
  · left; exact ⟨databaseerrors.ErrUnexpected, by simp [h0, h1, hp, h2, ho, h3]⟩
  by_cases hk : s.receptions.any (fun r => r.ID == reception.ID) = true
  · left
    refine ⟨databaseerrors.ErrUnexpected, ?_⟩
    have hi : insertReception s (toRow reception) = none := by
      unfold insertReception
      rw [if_pos (by simpa [toRow] using hk)]
    simp [h0, h1, hp, h2, ho, h3, hi]
  have hi : insertReception s (toRow reception) =
      some { s with receptions := s.receptions ++ [toRow reception] } := by
    unfold insertReception
    rw [if_neg (by simpa [toRow] using hk), if_neg (by simpa [toRow] using hp)]
  by_cases h4 : run.fail 4 = true
  · left; exact ⟨databaseerrors.ErrUnexpected, by simp [h0, h1, hp, h2, ho, h3, hi, h4]⟩
  right
  refine ⟨by simp [h0, h1, hp, h2, ho, h3, hi, h4], by simpa using ho, by simpa using hk, hp⟩

open postgresqlReceptionRepository in
/-- The method `CloseLast` either returns an error and leaves the store as it was,
or returns one of the rows it closed and leaves every open reception of the
pickup point closed. -/
theorem CloseLast_outcome (run : DbRun) (s : Store) (pvzID : UUID) :
    (∃ e, CloseLast run s pvzID = ((none, some e), s)) ∨
    (∃ row, CloseLast run s pvzID =
        ((some (toModel (setClose row)), none),
          { s with receptions := s.receptions.map (closeFor pvzID) }) ∧
      row ∈ s.receptions ∧ isOpenFor pvzID row = true) := by
  unfold CloseLast
  by_cases h0 : run.fail 0 = true
  · left; exact ⟨databaseerrors.ErrUnexpected, by simp [h0]⟩
  simp only [h0, Bool.false_eq_true, if_false]
  cases hg : ((s.receptions.filter (isOpenFor pvzID)).map setClose)[run.pick 0 %
      ((s.receptions.filter (isOpenFor pvzID)).map setClose).length]? with
  | none => left; exact ⟨domainerrors.ErrNoOpenReceptions, rfl⟩
  | some row =>
    right
    have hm := List.getElem?_mem hg
    obtain ⟨r, hr, rfl⟩ := List.mem_map.mp hm
    have hr2 := List.mem_filter.mp hr
    exact ⟨r, rfl, hr2.1, hr2.2⟩

open postgresqlReceptionRepository in
/-- With a working connection `CloseLast` fails exactly when the pickup point has
no open reception. -/
theorem CloseLast_none (run : DbRun) (s : Store) (pvzID : UUID)
    (h0 : run.fail 0 = false) (hno : openReceptions s pvzID = []) :
    CloseLast run s pvzID = ((none, some domainerrors.ErrNoOpenReceptions), s) := by
  unfold openReceptions at hno
  simp [CloseLast, h0, hno]

open postgresqlProductRepository in
/-- A successful `getOpenReceptionID` scans the identifier of an open reception of
the pickup point, one that no other open reception of it postdates. -/
theorem getOpenReceptionID_ok (run : DbRun) (n : Nat) (s : Store) (pvzID id : UUID)
    (h : getOpenReceptionID run n s pvzID = .ok id) :
    ∃ r ∈ s.receptions, isOpenFor pvzID r = true ∧ r.ID = id ∧
      ∀ q ∈ openReceptions s pvzID, q.DateTime ≤ r.DateTime := by
  unfold getOpenReceptionID at h
  by_cases hf : run.fail n = true
  · simp [hf] at h
  simp only [hf, Bool.false_eq_true, if_false] at h
  cases hq : orderByDescLimit1 receptionRow.DateTime (run.pick n)
      (s.receptions.filter (isOpenFor pvzID)) with
  | none => simp [hq] at h
  | some r =>
    simp only [hq, Except.ok.injEq] at h
    obtain ⟨hm, hmax⟩ := orderByDescLimit1_some _ _ _ _ hq
    have hm2 := List.mem_filter.mp hm
    exact ⟨r, hm2.1, hm2.2, h, hmax⟩

open postgresqlProductRepository in
/-- A failed `getOpenReceptionID` reports a failed round trip or the absence of an
open reception. -/
theorem getOpenReceptionID_error (run : DbRun) (n : Nat) (s : Store) (pvzID : UUID)
    (e : GoError) (h : getOpenReceptionID run n s pvzID = .error e) :
    (run.fail n = true ∧ e = databaseerrors.ErrUnexpected) ∨
    (run.fail n = false ∧ e = domainerrors.ErrNoOpenReceptions ∧
      openReceptions s pvzID = []) := by
  unfold getOpenReceptionID at h
  by_cases hf : run.fail n = true
  · left
    simp only [hf, if_true, Except.error.injEq] at h
    exact ⟨hf, h.symm⟩
  right
  simp only [hf, Bool.false_eq_true, if_false] at h
  cases hq : orderByDescLimit1 receptionRow.DateTime (run.pick n)
      (s.receptions.filter (isOpenFor pvzID)) with
  | none =>
    simp only [hq, Except.error.injEq] at h
    exact ⟨by simpa using hf, h.symm, (orderByDescLimit1_eq_none _ _ _).mp hq⟩
  | some r => simp [hq] at h

open postgresqlProductRepository in
/-- With a working round trip and no open reception `getOpenReceptionID` reports
`ErrNoOpenReceptions`. -/
theorem getOpenReceptionID_none (run : DbRun) (n : Nat) (s : Store) (pvzID : UUID)
    (hf : run.fail n = false) (hno : openReceptions s pvzID = []) :
    getOpenReceptionID run n s pvzID = .error domainerrors.ErrNoOpenReceptions := by
  unfold openReceptions at hno
  have hq := (orderByDescLimit1_eq_none receptionRow.DateTime (run.pick n) _).mpr hno
  simp [getOpenReceptionID, hf, hq]

open postgresqlProductRepository in
/-- With a working round trip and an open reception `getOpenReceptionID` succeeds. -/
theorem getOpenReceptionID_some (run : DbRun) (n : Nat) (s : Store) (pvzID : UUID)
    (hf : run.fail n = false) (hne : openReceptions s pvzID ≠ []) :
    ∃ id, getOpenReceptionID run n s pvzID = .ok id := by
  unfold openReceptions at hne
  cases hq : orderByDescLimit1 receptionRow.DateTime (run.pick n)
      (s.receptions.filter (isOpenFor pvzID)) with
  | none => exact absurd ((orderByDescLimit1_eq_none _ _ _).mp hq) hne
  | some r => exact ⟨r.ID, by simp [getOpenReceptionID, hf, hq]⟩

open postgresqlProductRepository in
/-- The method `Create` either returns an error and leaves the store as it was, or
returns the product after appending its row, owned by the reception that
`getOpenReceptionID` scanned; the latter only when the key is free. -/
theorem Create_outcome (run : DbRun) (s : Store) (product : models.AddProduct) :
    (∃ e, Create run s product = ((none, some e), s)) ∨
    (∃ id, getOpenReceptionID run 1 s product.PVZID = .ok id ∧
      Create run s product =
        ((some (toModel (newRow product id)), none),
          { s with products := s.products ++ [newRow product id] }) ∧
      s.products.any (fun q => q.ID == product.ID) = false) := by
  unfold Create
  by_cases h0 : run.fail 0 = true
  · left; exact ⟨databaseerrors.ErrUnexpected, by simp [h0]⟩
  simp only [h0, Bool.false_eq_true, if_false]
  cases hg : getOpenReceptionID run 1 s product.PVZID with
  | error e => left; exact ⟨e, rfl⟩
  | ok id =>
    by_cases h2 : run.fail 2 = true
    · left; exact ⟨databaseerrors.ErrUnexpected, by simp [h2]⟩
    obtain ⟨r, hr, -, hid, -⟩ := getOpenReceptionID_ok run 1 s product.PVZID id hg
    by_cases hk : s.products.any (fun q => q.ID == product.ID) = true
    · left
      refine ⟨databaseerrors.ErrUnexpected, ?_⟩
      have hi : insertProduct s (newRow product id) = none := by
        unfold insertProduct
        rw [if_pos (by simpa [newRow] using hk)]
      simp [h2, hi]
    have hfk : s.receptions.any (fun q => q.ID == id) = true := by
      rw [List.any_eq_true]
      exact ⟨r, hr, by simpa using hid⟩
    have hi : insertProduct s (newRow product id) =
        some { s with products := s.products ++ [newRow product id] } := by
      unfold insertProduct
      rw [if_neg (by simpa [newRow] using hk), if_neg (by simpa [newRow] using hfk)]
    by_cases h3 : run.fail 3 = true
    · left; exact ⟨databaseerrors.ErrUnexpected, by simp [h2, hi, h3]⟩
    right
    exact ⟨id, rfl, by simp [h2, hi, h3], by simpa using hk⟩

open postgresqlProductRepository in
/-- The method `DeleteLast` either returns an error and leaves the store as it
was, or returns nil after the `DELETE` removed at least one row. -/
theorem DeleteLast_outcome (run : DbRun) (s : Store) (pvzID : UUID) :
    (∃ e, DeleteLast run s pvzID = (some e, s)) ∨
    (∃ id, getOpenReceptionID run 1 s pvzID = .ok id ∧
      DeleteLast run s pvzID =
        (none, { s with products := deleteLastRows (run.pick 2) s.products id }) ∧
      (deleteLastRows (run.pick 2) s.products id).length < s.products.length) := by
  unfold DeleteLast
  by_cases h0 : run.fail 0 = true
  · left; exact ⟨databaseerrors.ErrUnexpected, by simp [h0]⟩
  simp only [h0, Bool.false_eq_true, if_false]
  cases hg : getOpenReceptionID run 1 s pvzID with
  | error e => left; exact ⟨e, rfl⟩
  | ok id =>
    by_cases h2 : run.fail 2 = true
    · left; exact ⟨databaseerrors.ErrUnexpected, by simp [h2]⟩
    by_cases h3 : run.fail 3 = true
    · left; exact ⟨databaseerrors.ErrUnexpected, by simp [h2, h3]⟩
    by_cases hz : s.products.length - (deleteLastRows (run.pick 2) s.products id).length = 0
    · left; exact ⟨domainerrors.ErrNoProductsInReception, by simp [h2, h3, hz]⟩
    by_cases h4 : run.fail 4 = true
    · left; exact ⟨databaseerrors.ErrUnexpected, by simp [h2, h3, hz, h4]⟩
    right
    exact ⟨id, rfl, by simp [h2, h3, hz, h4], by omega⟩

open postgresqlPVZRepository in
/-- The method `Create` of the pickup-point repository either returns an error and
leaves the store as it was, or appends the row of its argument under a free key. -/
theorem PVZCreate_outcome (run : DbRun) (s : Store) (pvz : models.PVZ) :
    (∃ e, Create run s pvz = (some e, s)) ∨
    (Create run s pvz = (none, { s with pvzs := s.pvzs ++ [toRow pvz] }) ∧
      s.pvzs.any (fun q => q.ID == pvz.ID) = false) := by
  unfold Create
  by_cases h0 : run.fail 0 = true
  · left; exact ⟨databaseerrors.ErrUnexpected, by simp [h0]⟩
  by_cases hk : s.pvzs.any (fun q => q.ID == pvz.ID) = true
  · left
    refine ⟨databaseerrors.ErrUniqueViolation, ?_⟩
    have hi : insertPVZ s (toRow pvz) = none := by
      unfold insertPVZ
      rw [if_pos (by simpa [toRow] using hk)]
    simp [h0, hi]
  right
  have hi : insertPVZ s (toRow pvz) = some { s with pvzs := s.pvzs ++ [toRow pvz] } := by
    unfold insertPVZ
    rw [if_neg (by simpa [toRow] using hk)]
  exact ⟨by simp [h0, hi], by simpa using hk⟩

/-! ## Invariant I1 -/

/-- A row that is open after the update of `CloseLast` was open before it and
belongs to another pickup point. -/
theorem isOpenFor_closeFor (p pvzID : UUID) (r : receptionRow)
    (h : isOpenFor p (closeFor pvzID r) = true) :
    isOpenFor p r = true ∧ isOpenFor pvzID r = false := by
  unfold closeFor at h
  by_cases hc : isOpenFor pvzID r = true
  · rw [if_pos hc] at h
    simp [isOpenFor, setClose] at h
  · rw [if_neg hc] at h
    exact ⟨h, by simpa using hc⟩

/-- The update of `CloseLast` opens nothing. -/
theorem openReceptions_close_le (rs : List receptionRow) (pvzID p : UUID) :
    ((rs.map (closeFor pvzID)).filter (isOpenFor p)).length ≤
      (rs.filter (isOpenFor p)).length := by
  rw [← List.countP_eq_length_filter, ← List.countP_eq_length_filter, List.countP_map]
  apply List.countP_mono_left
  intro r _ h
  exact (isOpenFor_closeFor p pvzID r h).1

/-- The update of `CloseLast` leaves the pickup point without an open reception. -/
theorem openReceptions_close_self (rs : List receptionRow) (pvzID : UUID) :
    (rs.map (closeFor pvzID)).filter (isOpenFor pvzID) = [] := by
  rw [List.filter_eq_nil_iff]
  intro r hr
  obtain ⟨q, -, rfl⟩ := List.mem_map.mp hr
  intro h
  have := isOpenFor_closeFor pvzID pvzID q h
  rw [this.1] at this
  exact absurd this.2 (by simp)

/-- One call of any mutating repository method keeps invariant I1. -/
theorem I1_apply (run : DbRun) (op : Op) (s : Store) (h : I1 s) : I1 (op.apply run s) := by
  intro p
  cases op with
  | receptionCreateIfNoOpen reception =>
    rcases CreateIfNoOpen_outcome run s reception with ⟨e, he⟩ | ⟨he, hno, -, -⟩
    · simp only [Op.apply, he]
      exact h p
    · simp only [Op.apply, he, openReceptions, List.filter_append]
      by_cases hp : isOpenFor p (postgresqlReceptionRepository.toRow reception) = true
      · have hpv : reception.PVZID = p := by
          simp [isOpenFor, postgresqlReceptionRepository.toRow] at hp
          exact hp.1
        subst hpv
        have hnil : s.receptions.filter (isOpenFor reception.PVZID) = [] := by
          rw [List.filter_eq_nil_iff]
          intro r hr hopen
          rw [List.any_eq_false] at hno
          exact hno r hr hopen
        simp [hnil, List.filter_cons, hp]
      · have := h p
        simp only [openReceptions] at this
        simpa [List.filter_cons, hp] using this
  | receptionCloseLast pvzID =>
    rcases CloseLast_outcome run s pvzID with ⟨e, he⟩ | ⟨row, he, -, -⟩
    · simp only [Op.apply, he]
      exact h p
    · simp only [Op.apply, he, openReceptions]
      exact le_trans (openReceptions_close_le s.receptions pvzID p) (h p)
  | productCreate product =>
    rcases Create_outcome run s product with ⟨e, he⟩ | ⟨id, -, he, -⟩
    · simp only [Op.apply, he]
      exact h p
    · simp only [Op.apply, he, openReceptions]
      exact h p
  | productDeleteLast pvzID =>
    rcases DeleteLast_outcome run s pvzID with ⟨e, he⟩ | ⟨id, -, he, -⟩
    · simp only [Op.apply, he]
      exact h p
    · simp only [Op.apply, he, openReceptions]
      exact h p
  | pvzCreate pvz =>
    rcases PVZCreate_outcome run s pvz with ⟨e, he⟩ | ⟨he, -⟩
    · simp only [Op.apply, he]
      exact h p
    · simp only [Op.apply, he, openReceptions]
      exact h p

/-- Any sequence of calls keeps invariant I1. -/
theorem I1_runOps (ops : List (DbRun × Op)) : ∀ s : Store, I1 s → I1 (runOps ops s) := by
  induction ops with
  | nil => intro s h; exact h
  | cons a rest ih =>
    intro s h
    obtain ⟨run, op⟩ := a
    exact ih _ (I1_apply run op s h)

theorem I1_empty : I1 Store.empty := by
  intro p
  simp [openReceptions, Store.empty]

/-- Claim C1 (invariant I1, sequential): from a store in which every pickup point
has at most one reception with status in_progress, one call of reception
CreateIfNoOpen, reception CloseLast, product Create, product DeleteLast or
pickup-point Create, with any arguments and any outcome, leads to a store with
the same bound; so does any sequence of such calls, and so the bound holds in
every store reachable from the empty one. -/
theorem C1_one_open_reception_invariant (run : DbRun) (op : Op) (s : Store) (h : I1 s) :
    I1 (op.apply run s) ∧
    (∀ ops : List (DbRun × Op), I1 (runOps ops s)) ∧
    (∀ ops : List (DbRun × Op), I1 (runOps ops Store.empty)) :=
  ⟨I1_apply run op s h, fun ops => I1_runOps ops s h, fun ops => I1_runOps ops _ I1_empty⟩

/-! ## Open receptions in the words of the specification -/

theorem isOpenFor_iff (P : UUID) (r : receptionRow) :
    isOpenFor P r = true ↔ r.PVZID = P ∧ r.Status = models.ReceptionStatusInProgress := by
  simp [isOpenFor, models.ReceptionStatusInProgress]

/-- A pickup point has no reception with status in_progress exactly when the
query for its open receptions is empty. -/
theorem openReceptions_eq_nil_iff (s : Store) (P : UUID) :
    openReceptions s P = [] ↔
      ∀ r ∈ s.receptions, r.PVZID = P → r.Status ≠ models.ReceptionStatusInProgress := by
  unfold openReceptions
  rw [List.filter_eq_nil_iff]
  constructor
  · intro h r hr hP hS
    exact h r hr ((isOpenFor_iff P r).mpr ⟨hP, hS⟩)
  · intro h r hr hopen
    obtain ⟨hP, hS⟩ := (isOpenFor_iff P r).mp hopen
    exact h r hr hP hS

/-- Under I1 at a pickup point, two open receptions of it are the same row. -/
theorem open_unique (s : Store) (P : UUID) (h : (openReceptions s P).length ≤ 1)
    (a b : receptionRow) (ha : a ∈ openReceptions s P) (hb : b ∈ openReceptions s P) :
    a = b := by
  match hl : openReceptions s P with
  | [] => rw [hl] at ha; simp at ha
  | [x] =>
    rw [hl] at ha hb
    simp at ha hb
    rw [ha, hb]
  | x :: y :: t => rw [hl] at h; simp at h

theorem mem_openReceptions (s : Store) (P : UUID) (r : receptionRow) :
    r ∈ openReceptions s P ↔
      r ∈ s.receptions ∧ r.PVZID = P ∧ r.Status = models.ReceptionStatusInProgress := by
  unfold openReceptions
  rw [List.mem_filter, isOpenFor_iff]

/-! ## Error paths of the reception repository -/

open postgresqlReceptionRepository service.receptionServiceImpl in
/-- Claim C2: when pickup point P is stored and already has a reception with status
in_progress, and the connection works, the repository method CreateIfNoOpen for
P returns ErrOpenReceptionExists and leaves the whole store, so also the
receptions table, as it was; the service method CreateReceptionIfNoOpen called
with role employee returns the same error, no reception, and neither the store
nor the counters change. -/
theorem C2_open_reception_conflict (run : DbRun) (s : Store) (P : UUID) (hok : run.ok)
    (hpvz : ∃ p ∈ s.pvzs, p.ID = P)
    (hopen : ∃ r ∈ s.receptions, r.PVZID = P ∧ r.Status = models.ReceptionStatusInProgress) :
    (∀ reception : models.Reception, reception.PVZID = P →
      CreateIfNoOpen run s reception = (some domainerrors.ErrOpenReceptionExists, s)) ∧
    (∀ (newID : UUID) (now : Time) (m : metrics.Counters),
      CreateReceptionIfNoOpen (NewPostgresqlReceptionRepository run) newID now
          models.RoleEmployee P s m =
        ((none, some domainerrors.ErrOpenReceptionExists), s, m)) := by
  have key : ∀ reception : models.Reception, reception.PVZID = P →
      CreateIfNoOpen run s reception = (some domainerrors.ErrOpenReceptionExists, s) := by
    intro reception hP
    subst hP
    have hp : s.pvzs.any (fun p => p.ID == reception.PVZID) = true := by
      obtain ⟨p, hp, hid⟩ := hpvz
      rw [List.any_eq_true]
      exact ⟨p, hp, by simpa using hid⟩
    have ho : s.receptions.any (isOpenFor reception.PVZID) = true := by
      obtain ⟨r, hr, hP, hS⟩ := hopen
      rw [List.any_eq_true]
      exact ⟨r, hr, (isOpenFor_iff _ r).mpr ⟨hP, hS⟩⟩
    simp [CreateIfNoOpen, hok 0, hok 1, hok 2, hp, ho]
  refine ⟨key, ?_⟩
  intro newID now m
  have hk := key ⟨newID, now, P, models.ReceptionStatusInProgress⟩ rfl
  simp only [CreateReceptionIfNoOpen, NewPostgresqlReceptionRepository, hk]
  rw [if_neg (by decide), if_neg (by decide), if_neg (by decide)]

/-- Witness of C2 on the sample store: pickup point 1 has the open reception 11. -/
theorem C2_open_reception_conflict_witness :
    sampleRun.ok ∧ (∃ p ∈ sampleStore.pvzs, p.ID = 1) ∧
    (∃ r ∈ sampleStore.receptions,
      r.PVZID = 1 ∧ r.Status = models.ReceptionStatusInProgress) ∧
    postgresqlReceptionRepository.CreateIfNoOpen sampleRun sampleStore
        ⟨12, 20, 1, models.ReceptionStatusInProgress⟩ =
      (some domainerrors.ErrOpenReceptionExists, sampleStore) :=
  ⟨fun _ => rfl, by decide, by decide,
    (C2_open_reception_conflict sampleRun sampleStore 1 (fun _ => rfl) (by decide)
      (by decide)).1 _ rfl⟩

open postgresqlReceptionRepository service.receptionServiceImpl in
/-- Claim C7: when pickup point P has no reception with status in_progress, whether
or not P is a stored pickup point, and the connection works, the repository
method CloseLast returns ErrNoOpenReceptions and leaves the store as it was; so
does the service method CloseLastReception called with role employee. -/
theorem C7_close_without_open_reception (run : DbRun) (s : Store) (P : UUID) (hok : run.ok)
    (hno : ∀ r ∈ s.receptions, r.PVZID = P → r.Status ≠ models.ReceptionStatusInProgress) :
    CloseLast run s P = ((none, some domainerrors.ErrNoOpenReceptions), s) ∧
    CloseLastReception (NewPostgresqlReceptionRepository run) models.RoleEmployee P s =
      ((none, some domainerrors.ErrNoOpenReceptions), s) := by
  have hc := CloseLast_none run s P (hok 0) ((openReceptions_eq_nil_iff s P).mpr hno)
  refine ⟨hc, ?_⟩
  simp only [CloseLastReception, NewPostgresqlReceptionRepository, hc]
  rw [if_neg (by decide), if_neg (by decide)]

/-- Witness of C7 on the sample store: 7 is not a stored pickup point. -/
theorem C7_close_without_open_reception_witness :
    sampleRun.ok ∧
    (∀ r ∈ sampleStore.receptions, r.PVZID = 7 → r.Status ≠ models.ReceptionStatusInProgress) ∧
    postgresqlReceptionRepository.CloseLast sampleRun sampleStore 7 =
      ((none, some domainerrors.ErrNoOpenReceptions), sampleStore) :=
  ⟨fun _ => rfl, by decide,
    (C7_close_without_open_reception sampleRun sampleStore 7 (fun _ => rfl) (by decide)).1⟩

/-! ## Error paths of the product repository -/

open postgresqlProductRepository in
/-- With a working connection and no open reception `Create` changes nothing. -/
theorem Create_none (run : DbRun) (s : Store) (product : models.AddProduct) (hok : run.ok)
    (hno : openReceptions s product.PVZID = []) :
    Create run s product = ((none, some domainerrors.ErrNoOpenReceptions), s) := by
  have hg := getOpenReceptionID_none run 1 s product.PVZID (hok 1) hno
  simp [Create, hok 0, hg]

open service.productServiceImpl in
/-- The service method `AddProduct` with role employee and a valid type hands the
repository's state-conflict error on. -/
theorem AddProduct_none (run : DbRun) (s : Store) (P : UUID) (hok : run.ok)
    (hno : openReceptions s P = []) (newID : UUID) (now : Time) (productType : String)
    (m : metrics.Counters) (hv : models.ProductType.Valid productType = true) :
    AddProduct (NewPostgresqlProductRepository run) newID now models.RoleEmployee
        productType P s m =
      ((none, some domainerrors.ErrNoOpenReceptions), s, m) := by
  have hc := Create_none run s ⟨newID, now, productType, P⟩ hok hno
  simp only [AddProduct, NewPostgresqlProductRepository, hc, hv]
  rw [if_neg (by decide), if_neg (by decide), if_neg (by decide)]

open service.receptionServiceImpl in
/-- A successful `CloseLastReception` leaves the pickup point without an open
reception. -/
theorem CloseLastReception_closes (run : DbRun) (s : Store) (P : UUID)
    (h : (CloseLastReception (NewPostgresqlReceptionRepository run)
      models.RoleEmployee P s).1.2 = none) :
    openReceptions (CloseLastReception (NewPostgresqlReceptionRepository run)
      models.RoleEmployee P s).2 P = [] := by
  rcases CloseLast_outcome run s P with ⟨e, he⟩ | ⟨row, he, -, -⟩
  · exfalso
    simp only [CloseLastReception, NewPostgresqlReceptionRepository, he] at h
    rw [if_neg (by decide)] at h
    by_cases hu : errors.Is e databaseerrors.ErrUnexpected = true
    · rw [if_pos hu] at h
      simp at h
    · rw [if_neg hu] at h
      simp at h
  · simp only [CloseLastReception, NewPostgresqlReceptionRepository, he]
    rw [if_neg (by decide)]
    exact openReceptions_close_self s.receptions P

open postgresqlProductRepository service.productServiceImpl service.receptionServiceImpl in
/-- Claim C5: when pickup point P has no reception with status in_progress (P not
stored, P without receptions, or all receptions of P closed) and the connection
works, the repository method Create for P returns ErrNoOpenReceptions and leaves
the store as it was, and so does the service method AddProduct with role
employee and a valid type; in particular this is what AddProduct returns on the
store left by a successful CloseLastReception on P. -/
theorem C5_add_product_without_open_reception (run : DbRun) (s : Store) (P : UUID)
    (hok : run.ok)
    (hno : ∀ r ∈ s.receptions, r.PVZID = P → r.Status ≠ models.ReceptionStatusInProgress) :
    (∀ product : models.AddProduct, product.PVZID = P →
      Create run s product = ((none, some domainerrors.ErrNoOpenReceptions), s)) ∧
    (∀ (newID : UUID) (now : Time) (productType : String) (m : metrics.Counters),
      models.ProductType.Valid productType = true →
      AddProduct (NewPostgresqlProductRepository run) newID now models.RoleEmployee
          productType P s m =
        ((none, some domainerrors.ErrNoOpenReceptions), s, m)) ∧
    (∀ (runC : DbRun) (s0 : Store),
      (CloseLastReception (NewPostgresqlReceptionRepository runC)
        models.RoleEmployee P s0).1.2 = none →
      ∀ (newID : UUID) (now : Time) (productType : String) (m : metrics.Counters),
      models.ProductType.Valid productType = true →
      AddProduct (NewPostgresqlProductRepository run) newID now models.RoleEmployee
          productType P
          (CloseLastReception (NewPostgresqlReceptionRepository runC)
            models.RoleEmployee P s0).2 m =
        ((none, some domainerrors.ErrNoOpenReceptions),
          (CloseLastReception (NewPostgresqlReceptionRepository runC)
            models.RoleEmployee P s0).2, m)) := by
  have hnil := (openReceptions_eq_nil_iff s P).mpr hno
  refine ⟨?_, ?_, ?_⟩
  · intro product hP
    subst hP
    exact Create_none run s product hok hnil
  · intro newID now productType m hv
    exact AddProduct_none run s P hok hnil newID now productType m hv
  · intro runC s0 hclose newID now productType m hv
    exact AddProduct_none run _ P hok (CloseLastReception_closes runC s0 P hclose)
      newID now productType m hv

/-- Witness of C5 on the sample store: pickup point 2 has no reception; and adding
a product to pickup point 1 right after closing its reception fails. -/
theorem C5_add_product_without_open_reception_witness :
    sampleRun.ok ∧
    (∀ r ∈ sampleStore.receptions, r.PVZID = 2 → r.Status ≠ models.ReceptionStatusInProgress) ∧
    postgresqlProductRepository.Create sampleRun sampleStore
        ⟨104, 30, models.ProductTypeShoes, 2⟩ =
      ((none, some domainerrors.ErrNoOpenReceptions), sampleStore) :=
  ⟨fun _ => rfl, by decide,
    (C5_add_product_without_open_reception sampleRun sampleStore 2 (fun _ => rfl)
      (by decide)).1 _ rfl⟩

/-! ## The `DELETE` of `DeleteLast` -/

open postgresqlProductRepository in
/-- On a reception without products the `DELETE` removes nothing. -/
theorem deleteLastRows_of_nil (pick : Nat) (products : List productRow) (id : UUID)
    (h : products.filter (fun p => p.ReceptionID == id) = []) :
    deleteLastRows pick products id = products := by
  have hq := (orderByDescLimit1_eq_none productRow.DateTime pick _).mpr h
  simp [deleteLastRows, hq]

open postgresqlProductRepository in
/-- On a reception with products the `DELETE` removes the rows whose identifier
is that of a latest product of the reception. -/
theorem deleteLastRows_of_ne_nil (pick : Nat) (products : List productRow) (id : UUID)
    (h : products.filter (fun p => p.ReceptionID == id) ≠ []) :
    ∃ last ∈ products, last.ReceptionID = id ∧
      (∀ q ∈ products, q.ReceptionID = id → q.DateTime ≤ last.DateTime) ∧
      deleteLastRows pick products id = products.filter (fun p => !(p.ID == last.ID)) := by
  cases hq : orderByDescLimit1 productRow.DateTime pick
      (products.filter (fun p => p.ReceptionID == id)) with
  | none => exact absurd ((orderByDescLimit1_eq_none _ _ _).mp hq) h
  | some last =>
    obtain ⟨hm, hmax⟩ := orderByDescLimit1_some _ _ _ _ hq
    have hm2 := List.mem_filter.mp hm
    refine ⟨last, hm2.1, by simpa using hm2.2, ?_, by simp [deleteLastRows, hq]⟩
    intro q hq1 hq2
    exact hmax q (List.mem_filter.mpr ⟨hq1, by simpa using hq2⟩)

/-- Deleting by the identifier of a stored row removes at least that row. -/
theorem length_filter_id_lt (products : List productRow) (last : productRow)
    (h : last ∈ products) :
    (products.filter (fun p => !(p.ID == last.ID))).length < products.length := by
  rw [List.length_filter_lt_length_iff_exists]
  exact ⟨last, h, by simp⟩

/-- Under the primary key of `products`, deleting by the identifier of a stored
row removes that row and no other. -/
theorem filter_id_eq_erase (products : List productRow)
    (hnd : (products.map productRow.ID).Nodup) (last : productRow) (h : last ∈ products) :
    products.filter (fun p => !(p.ID == last.ID)) = products.erase last := by
  rw [List.Nodup.erase_eq_filter (List.Nodup.of_map _ hnd)]
  apply List.filter_congr
  intro x hx
  by_cases hxl : x = last
  · subst hxl
    simp
  · have hid : x.ID ≠ last.ID := fun hc => hxl (List.inj_on_of_nodup_map hnd hx h hc)
    have h1 : (x.ID == last.ID) = false := by simpa using hid
    have h2 : (x != last) = true := by simpa using hxl
    rw [h1, h2]
    rfl

open postgresqlProductRepository in
/-- With a working connection, `DeleteLast` on a pickup point whose scanned open
reception owns a product succeeds. -/
theorem DeleteLast_some (run : DbRun) (s : Store) (pvzID id : UUID) (hok : run.ok)
    (hg : getOpenReceptionID run 1 s pvzID = .ok id)
    (hne : s.products.filter (fun p => p.ReceptionID == id) ≠ []) :
    ∃ last ∈ s.products, last.ReceptionID = id ∧
      (∀ q ∈ s.products, q.ReceptionID = id → q.DateTime ≤ last.DateTime) ∧
      DeleteLast run s pvzID =
        (none, { s with products := s.products.filter (fun p => !(p.ID == last.ID)) }) := by
  obtain ⟨last, hm, hrid, hmax, hdel⟩ := deleteLastRows_of_ne_nil (run.pick 2) s.products id hne
  refine ⟨last, hm, hrid, hmax, ?_⟩
  have hlt := length_filter_id_lt s.products last hm
  have hz : ¬ (s.products.length -
      (s.products.filter (fun p => !(p.ID == last.ID))).length = 0) := by omega
  simp [DeleteLast, hok 0, hok 2, hok 3, hok 4, hg, hdel, hz]

open postgresqlProductRepository in
/-- With a working connection, `DeleteLast` on a pickup point whose scanned open
reception owns no product reports `ErrNoProductsInReception`. -/
theorem DeleteLast_empty (run : DbRun) (s : Store) (pvzID id : UUID) (hok : run.ok)
    (hg : getOpenReceptionID run 1 s pvzID = .ok id)
    (hnil : s.products.filter (fun p => p.ReceptionID == id) = []) :
    DeleteLast run s pvzID = (some domainerrors.ErrNoProductsInReception, s) := by
  have hdel := deleteLastRows_of_nil (run.pick 2) s.products id hnil
  simp [DeleteLast, hok 0, hok 2, hok 3, hg, hdel]

open postgresqlProductRepository in
/-- With a working connection, `DeleteLast` on a pickup point without an open
reception reports `ErrNoOpenReceptions`. -/
theorem DeleteLast_none (run : DbRun) (s : Store) (pvzID : UUID) (hok : run.ok)
    (hno : openReceptions s pvzID = []) :
    DeleteLast run s pvzID = (some domainerrors.ErrNoOpenReceptions, s) := by
  have hg := getOpenReceptionID_none run 1 s pvzID (hok 1) hno
  simp [DeleteLast, hok 0, hg]

open postgresqlProductRepository in
/-- Under I1 at the pickup point, `getOpenReceptionID` scans the identifier of its
one open reception. -/
theorem getOpenReceptionID_unique (run : DbRun) (n : Nat) (s : Store) (P : UUID)
    (hf : run.fail n = false) (hI1 : (openReceptions s P).length ≤ 1)
    (R : receptionRow) (hR : R ∈ openReceptions s P) :
    getOpenReceptionID run n s P = .ok R.ID := by
  obtain ⟨id, hid⟩ := getOpenReceptionID_some run n s P hf (List.ne_nil_of_mem hR)
  obtain ⟨r, hr, hopen, hrid, -⟩ := getOpenReceptionID_ok run n s P id hid
  have hr2 : r ∈ openReceptions s P := List.mem_filter.mpr ⟨hr, hopen⟩
  have := open_unique s P hI1 r R hr2 hR
  rw [hid, ← hrid, this]

open postgresqlProductRepository in
/-- Among several open receptions of a pickup point `getOpenReceptionID` scans the
identifier of the one that is newer than all the others. -/
theorem getOpenReceptionID_newest (run : DbRun) (n : Nat) (s : Store) (P : UUID)
    (hf : run.fail n = false) (N : receptionRow) (hN : N ∈ openReceptions s P)
    (hnew : ∀ q ∈ openReceptions s P, q ≠ N → q.DateTime < N.DateTime) :
    getOpenReceptionID run n s P = .ok N.ID := by
  obtain ⟨id, hid⟩ := getOpenReceptionID_some run n s P hf (List.ne_nil_of_mem hN)
  obtain ⟨r, hr, hopen, hrid, hmax⟩ := getOpenReceptionID_ok run n s P id hid
  have hr2 : r ∈ openReceptions s P := List.mem_filter.mpr ⟨hr, hopen⟩
  have hrN : r = N := by
    by_contra hne
    exact absurd (hnew r hr2 hne) (not_lt.mpr (hmax N hN))
  rw [hid, ← hrid, hrN]

open postgresqlProductRepository in
/-- Counterexample to C6 as stated: pickup point 1 has two receptions in_progress;
the older one, 30, owns no product, so the pickup point has an in_progress
reception that owns no product; yet DeleteLast takes the newer reception 31,
removes its product 310 and returns nil, whatever the engine picks. -/
theorem C6_two_open_receptions_counterexample :
    sampleTwoOpenNewerStore.keysUnique ∧
    (∃ r ∈ sampleTwoOpenNewerStore.receptions, r.PVZID = 1 ∧
      r.Status = models.ReceptionStatusInProgress ∧
      ∀ q ∈ sampleTwoOpenNewerStore.products, q.ReceptionID ≠ r.ID) ∧
    ∀ pick : Nat → Nat, DeleteLast (DbRun.healthy pick) sampleTwoOpenNewerStore 1 =
      (none, { sampleTwoOpenNewerStore with products := [] }) := by
  refine ⟨by decide, ⟨⟨30, 1, 1, "in_progress"⟩, by decide⟩, ?_⟩
  intro pick
  have hid := getOpenReceptionID_newest (DbRun.healthy pick) 1 sampleTwoOpenNewerStore 1 rfl
    ⟨31, 5, 1, "in_progress"⟩ (by decide) (by decide)
  obtain ⟨last, hm, -, -, hd⟩ := DeleteLast_some (DbRun.healthy pick) sampleTwoOpenNewerStore
    1 31 (fun _ => rfl) hid (by decide)
  have hlast : last = ⟨310, 6, "обувь", 31⟩ := by
    simpa [sampleTwoOpenNewerStore] using hm
  rw [hd, hlast]
  decide

open postgresqlProductRepository in
/-- Claim C6 as amended: with a working connection, DeleteLast(P) returns
ErrNoOpenReceptions exactly when P has no reception with status in_progress; when
it returns ErrNoProductsInReception, P has a reception with status in_progress
that owns no product; when P has at most one open reception (invariant I1), it
returns ErrNoProductsInReception exactly when P has a reception with status
in_progress that owns no product; and when P has a reception with status
in_progress that owns no product and is newer than every other open reception of
P, it returns ErrNoProductsInReception.  The two errors are different kinds, and
in both cases the store is left as it was. -/
theorem C6_delete_last_error_kinds (run : DbRun) (s : Store) (P : UUID) (hok : run.ok) :
    ((DeleteLast run s P).1 = some domainerrors.ErrNoOpenReceptions ↔
      ∀ r ∈ s.receptions, r.PVZID = P → r.Status ≠ models.ReceptionStatusInProgress) ∧
    (((DeleteLast run s P).1 = some domainerrors.ErrNoProductsInReception →
      ∃ r ∈ s.receptions, r.PVZID = P ∧ r.Status = models.ReceptionStatusInProgress ∧
        ∀ q ∈ s.products, q.ReceptionID ≠ r.ID) ∧
      ((openReceptions s P).length ≤ 1 →
        ((DeleteLast run s P).1 = some domainerrors.ErrNoProductsInReception ↔
          ∃ r ∈ s.receptions, r.PVZID = P ∧ r.Status = models.ReceptionStatusInProgress ∧
            ∀ q ∈ s.products, q.ReceptionID ≠ r.ID)) ∧
      ((∃ r ∈ s.receptions, r.PVZID = P ∧ r.Status = models.ReceptionStatusInProgress ∧
          (∀ q ∈ s.products, q.ReceptionID ≠ r.ID) ∧
          ∀ o ∈ openReceptions s P, o ≠ r → o.DateTime < r.DateTime) →
        (DeleteLast run s P).1 = some domainerrors.ErrNoProductsInReception)) ∧
    domainerrors.ErrNoOpenReceptions ≠ domainerrors.ErrNoProductsInReception ∧
    errors.Is domainerrors.ErrNoOpenReceptions domainerrors.ErrNoProductsInReception = false ∧
    errors.Is domainerrors.ErrNoProductsInReception domainerrors.ErrNoOpenReceptions = false ∧
    ((DeleteLast run s P).1 = some domainerrors.ErrNoOpenReceptions ∨
      (DeleteLast run s P).1 = some domainerrors.ErrNoProductsInReception →
      (DeleteLast run s P).2 = s) := by
  refine ⟨?_, ?_, by decide, by decide, by decide, ?_⟩
  · rw [← openReceptions_eq_nil_iff]
    constructor
    · intro h
      by_contra hne
      obtain ⟨id, hid⟩ := getOpenReceptionID_some run 1 s P (hok 1) hne
      by_cases hp : s.products.filter (fun p => p.ReceptionID == id) = []
      · rw [DeleteLast_empty run s P id hok hid hp] at h
        exact absurd h (by simp)
      · obtain ⟨last, -, -, -, hd⟩ := DeleteLast_some run s P id hok hid hp
        rw [hd] at h
        exact absurd h (by simp)
    · intro h
      rw [DeleteLast_none run s P hok h]
  · have hfwd : (DeleteLast run s P).1 = some domainerrors.ErrNoProductsInReception →
        ∃ r ∈ s.receptions, r.PVZID = P ∧ r.Status = models.ReceptionStatusInProgress ∧
          ∀ q ∈ s.products, q.ReceptionID ≠ r.ID := by
      intro h
      by_cases hnil : openReceptions s P = []
      · rw [DeleteLast_none run s P hok hnil] at h
        exact absurd h (by simp)
      · obtain ⟨id, hid⟩ := getOpenReceptionID_some run 1 s P (hok 1) hnil
        obtain ⟨r, hr, hopen, hrid, -⟩ := getOpenReceptionID_ok run 1 s P id hid
        obtain ⟨hP, hS⟩ := (isOpenFor_iff P r).mp hopen
        by_cases hp : s.products.filter (fun p => p.ReceptionID == id) = []
        · refine ⟨r, hr, hP, hS, ?_⟩
          intro q hq hc
          rw [List.filter_eq_nil_iff] at hp
          exact hp q hq (by simpa [hrid] using hc)
        · obtain ⟨last, -, -, -, hd⟩ := DeleteLast_some run s P id hok hid hp
          rw [hd] at h
          exact absurd h (by simp)
    have hnewest : ∀ r ∈ s.receptions, r.PVZID = P →
        r.Status = models.ReceptionStatusInProgress →
        (∀ q ∈ s.products, q.ReceptionID ≠ r.ID) →
        (∀ o ∈ openReceptions s P, o ≠ r → o.DateTime < r.DateTime) →
        (DeleteLast run s P).1 = some domainerrors.ErrNoProductsInReception := by
      intro r hr hP hS hnone hnew
      have hro : r ∈ openReceptions s P := (mem_openReceptions s P r).mpr ⟨hr, hP, hS⟩
      have hid := getOpenReceptionID_newest run 1 s P (hok 1) r hro hnew
      have hp : s.products.filter (fun p => p.ReceptionID == r.ID) = [] := by
        rw [List.filter_eq_nil_iff]
        intro q hq hc
        exact hnone q hq (by simpa using hc)
      rw [DeleteLast_empty run s P r.ID hok hid hp]
    refine ⟨hfwd, ?_, ?_⟩
    · intro hI1
      refine ⟨hfwd, ?_⟩
      rintro ⟨r, hr, hP, hS, hnone⟩
      have hro : r ∈ openReceptions s P := (mem_openReceptions s P r).mpr ⟨hr, hP, hS⟩
      apply hnewest r hr hP hS hnone
      intro o ho hne
      exact absurd (open_unique s P hI1 o r ho hro) hne
    · rintro ⟨r, hr, hP, hS, hnone, hnew⟩
      exact hnewest r hr hP hS hnone hnew
  · intro h
    rcases DeleteLast_outcome run s P with ⟨e, he⟩ | ⟨id, -, he, -⟩
    · rw [he]
    · rw [he] at h
      rcases h with h | h <;> exact absurd h (by simp)

/-- Witness of C6: on the sample store with reception 11 emptied, DeleteLast for
pickup point 1 reports the empty reception. -/
theorem C6_delete_last_error_kinds_witness :
    sampleRun.ok ∧ (openReceptions sampleEmptyReceptionStore 1).length ≤ 1 ∧
    (postgresqlProductRepository.DeleteLast sampleRun sampleEmptyReceptionStore 1).1 =
      some domainerrors.ErrNoProductsInReception :=
  ⟨fun _ => rfl, by decide,
    ((C6_delete_last_error_kinds sampleRun sampleEmptyReceptionStore 1
      (fun _ => rfl)).2.1.2.1 (by decide)).mpr ⟨⟨11, 8, 1, "in_progress"⟩, by decide⟩⟩

/-! ## Removing the last product -/

/-- Erasing a product of a reception lowers the product count of that reception by
one. -/
theorem productsOf_erase_length (products : List productRow) (last : productRow)
    (id : UUID) (hm : last ∈ products) (hid : last.ReceptionID = id) :
    ((products.erase last).filter (fun q => q.ReceptionID == id)).length + 1 =
      (products.filter (fun q => q.ReceptionID == id)).length := by
  have hperm := (List.perm_cons_erase hm).filter (fun q => q.ReceptionID == id)
  rw [hperm.length_eq, List.filter_cons_of_pos (by simpa using hid)]
  simp

open postgresqlProductRepository in
/-- Counterexample to C3 as stated: pickup point 1 has two receptions in_progress;
the older one, 30, owns product 300; yet DeleteLast takes the newer reception 31,
which owns no product, returns ErrNoProductsInReception and removes nothing,
whatever the engine picks. -/
theorem C3_two_open_receptions_counterexample :
    sampleTwoOpenStore.keysUnique ∧
    (⟨30, 1, 1, "in_progress"⟩ : receptionRow) ∈ sampleTwoOpenStore.receptions ∧
    (∃ q ∈ sampleTwoOpenStore.products, q.ReceptionID = 30) ∧
    ∀ pick : Nat → Nat, DeleteLast (DbRun.healthy pick) sampleTwoOpenStore 1 =
      (some domainerrors.ErrNoProductsInReception, sampleTwoOpenStore) := by
  refine ⟨by decide, by decide, by decide, ?_⟩
  intro pick
  have hid := getOpenReceptionID_newest (DbRun.healthy pick) 1 sampleTwoOpenStore 1 rfl
    ⟨31, 5, 1, "in_progress"⟩ (by decide) (by decide)
  exact DeleteLast_empty (DbRun.healthy pick) sampleTwoOpenStore 1 31 (fun _ => rfl) hid
    (by decide)

open postgresqlProductRepository in
/-- Claim C3 as amended: when pickup point P has the reception R with status
in_progress, every other reception of P with status in_progress is older than R
(so in particular when R is the only open reception of P, invariant I1), R owns
at least one product, the product keys are unique and the connection works,
DeleteLast(P) returns nil and removes exactly one product `last` of R, whose
creation timestamp is at least that of every product of R; every other product,
of R or of another reception, remains, whatever the order of the rows. -/
theorem C3_delete_last_removes_latest (run : DbRun) (s : Store) (P : UUID) (R : receptionRow)
    (hok : run.ok) (hkeys : s.keysUnique)
    (hnew : ∀ q ∈ openReceptions s P, q ≠ R → q.DateTime < R.DateTime)
    (hR : R ∈ s.receptions) (hRP : R.PVZID = P)
    (hRS : R.Status = models.ReceptionStatusInProgress)
    (hown : ∃ q ∈ s.products, q.ReceptionID = R.ID) :
    ∃ last ∈ s.products, last.ReceptionID = R.ID ∧
      (∀ q ∈ s.products, q.ReceptionID = R.ID → q.DateTime ≤ last.DateTime) ∧
      DeleteLast run s P = (none, { s with products := s.products.erase last }) ∧
      last ∉ s.products.erase last ∧
      (∀ q ∈ s.products, q ≠ last → q ∈ s.products.erase last) ∧
      (s.products.erase last).length + 1 = s.products.length ∧
      (productsOf { s with products := s.products.erase last } R.ID).length + 1 =
        (productsOf s R.ID).length := by
  have hro : R ∈ openReceptions s P := (mem_openReceptions s P R).mpr ⟨hR, hRP, hRS⟩
  have hid := getOpenReceptionID_newest run 1 s P (hok 1) R hro hnew
  have hne : s.products.filter (fun p => p.ReceptionID == R.ID) ≠ [] := by
    obtain ⟨q, hq, hqr⟩ := hown
    exact List.ne_nil_of_mem (List.mem_filter.mpr ⟨hq, by simpa using hqr⟩)
  obtain ⟨last, hm, hrid, hmax, hd⟩ := DeleteLast_some run s P R.ID hok hid hne
  have hnd : s.products.Nodup := List.Nodup.of_map _ hkeys.2.2
  rw [filter_id_eq_erase s.products hkeys.2.2 last hm] at hd
  refine ⟨last, hm, hrid, hmax, hd, ?_, ?_, ?_, ?_⟩
  · intro hc
    exact ((List.Nodup.mem_erase_iff hnd).mp hc).1 rfl
  · intro q hq hne
    exact (List.Nodup.mem_erase_iff hnd).mpr ⟨hne, hq⟩
  · rw [List.length_erase_of_mem hm]
    have := List.length_pos_of_mem hm
    omega
  · exact productsOf_erase_length s.products last R.ID hm hrid

/-- Witness of C3 on a store with two open receptions at pickup point 1: the newer
one, 31, owns product 310, and DeleteLast removes that product. -/
theorem C3_delete_last_removes_latest_witness :
    sampleRun.ok ∧ sampleTwoOpenNewerStore.keysUnique ∧
    (∀ q ∈ openReceptions sampleTwoOpenNewerStore 1, q ≠ ⟨31, 5, 1, "in_progress"⟩ →
      q.DateTime < 5) ∧
    (∃ last ∈ sampleTwoOpenNewerStore.products, last.ReceptionID = 31 ∧
      (∀ q ∈ sampleTwoOpenNewerStore.products, q.ReceptionID = 31 →
        q.DateTime ≤ last.DateTime) ∧
      postgresqlProductRepository.DeleteLast sampleRun sampleTwoOpenNewerStore 1 =
        (none, { sampleTwoOpenNewerStore with
          products := sampleTwoOpenNewerStore.products.erase last })) :=
  ⟨fun _ => rfl, by decide, by decide,
    (C3_delete_last_removes_latest sampleRun sampleTwoOpenNewerStore 1
      ⟨31, 5, 1, "in_progress"⟩ (fun _ => rfl) (by decide) (by decide) (by decide) rfl rfl
      (by decide)).imp (fun _ h => ⟨h.1, h.2.1, h.2.2.1, h.2.2.2.1⟩)⟩

/-! ## What one call does to each table -/

/-- One call leaves `receptions` as it was, appends one row under a free key, or
closes the open receptions of one pickup point. -/
theorem receptions_apply (run : DbRun) (op : Op) (s : Store) :
    (op.apply run s).receptions = s.receptions ∨
    (∃ row : receptionRow, (op.apply run s).receptions = s.receptions ++ [row] ∧
      ∀ x ∈ s.receptions, x.ID ≠ row.ID) ∨
    (∃ P : UUID, (op.apply run s).receptions = s.receptions.map (closeFor P)) := by
  cases op with
  | receptionCreateIfNoOpen reception =>
    rcases CreateIfNoOpen_outcome run s reception with ⟨e, he⟩ | ⟨he, -, hk, -⟩
    · left; simp only [Op.apply, he]
    · right; left
      refine ⟨postgresqlReceptionRepository.toRow reception, by simp only [Op.apply, he], ?_⟩
      intro x hx hc
      rw [List.any_eq_false] at hk
      exact hk x hx (by simpa [postgresqlReceptionRepository.toRow] using hc)
  | receptionCloseLast pvzID =>
    rcases CloseLast_outcome run s pvzID with ⟨e, he⟩ | ⟨row, he, -, -⟩
    · left; simp only [Op.apply, he]
    · right; right; exact ⟨pvzID, by simp only [Op.apply, he]⟩
  | productCreate product =>
    left
    rcases Create_outcome run s product with ⟨e, he⟩ | ⟨id, -, he, -⟩ <;>
      simp only [Op.apply, he]
  | productDeleteLast pvzID =>
    left
    rcases DeleteLast_outcome run s pvzID with ⟨e, he⟩ | ⟨id, -, he, -⟩ <;>
      simp only [Op.apply, he]
  | pvzCreate pvz =>
    left
    rcases PVZCreate_outcome run s pvz with ⟨e, he⟩ | ⟨he, -⟩ <;> simp only [Op.apply, he]

/-- One call leaves `products` as it was, appends one row under a free key owned
by a reception stored with status in_progress, or deletes by the identifier of a
stored product owned by such a reception. -/
theorem products_apply (run : DbRun) (op : Op) (s : Store) :
    (op.apply run s).products = s.products ∨
    (∃ row : productRow, (op.apply run s).products = s.products ++ [row] ∧
      (∀ x ∈ s.products, x.ID ≠ row.ID) ∧
      ∃ o ∈ s.receptions, o.ID = row.ReceptionID ∧ o.Status = "in_progress") ∨
    (∃ last ∈ s.products,
      (op.apply run s).products = s.products.filter (fun q => !(q.ID == last.ID)) ∧
      ∃ o ∈ s.receptions, o.ID = last.ReceptionID ∧ o.Status = "in_progress") := by
  cases op with
  | receptionCreateIfNoOpen reception =>
    left
    rcases CreateIfNoOpen_outcome run s reception with ⟨e, he⟩ | ⟨he, -, -, -⟩ <;>
      simp only [Op.apply, he]
  | receptionCloseLast pvzID =>
    left
    rcases CloseLast_outcome run s pvzID with ⟨e, he⟩ | ⟨row, he, -, -⟩ <;>
      simp only [Op.apply, he]
  | productCreate product =>
    rcases Create_outcome run s product with ⟨e, he⟩ | ⟨id, hg, he, hk⟩
    · left; simp only [Op.apply, he]
    · right; left
      obtain ⟨o, ho, hopen, hoid, -⟩ := getOpenReceptionID_ok run 1 s product.PVZID id hg
      refine ⟨postgresqlProductRepository.newRow product id, by simp only [Op.apply, he],
        ?_, o, ho, hoid, ?_⟩
      · intro x hx hc
        rw [List.any_eq_false] at hk
        exact hk x hx (by simpa [postgresqlProductRepository.newRow] using hc)
      · simp [isOpenFor] at hopen
        exact hopen.2
  | productDeleteLast pvzID =>
    rcases DeleteLast_outcome run s pvzID with ⟨e, he⟩ | ⟨id, hg, he, hlt⟩
    · left; simp only [Op.apply, he]
    · right; right
      obtain ⟨o, ho, hopen, hoid, -⟩ := getOpenReceptionID_ok run 1 s pvzID id hg
      by_cases hp : s.products.filter (fun p => p.ReceptionID == id) = []
      · rw [deleteLastRows_of_nil _ _ _ hp] at hlt
        exact absurd hlt (lt_irrefl _)
      · obtain ⟨last, hm, hrid, -, hd⟩ :=
          deleteLastRows_of_ne_nil (run.pick 2) s.products id hp
        refine ⟨last, hm, by simp only [Op.apply, he, hd], o, ho, by rw [hoid, hrid], ?_⟩
        simp [isOpenFor] at hopen
        exact hopen.2
  | pvzCreate pvz =>
    left
    rcases PVZCreate_outcome run s pvz with ⟨e, he⟩ | ⟨he, -⟩ <;> simp only [Op.apply, he]

/-- One call leaves `pvzs` as it was or appends one row under a free key. -/
theorem pvzs_apply (run : DbRun) (op : Op) (s : Store) :
    (op.apply run s).pvzs = s.pvzs ∨
    (∃ row : pvzRow, (op.apply run s).pvzs = s.pvzs ++ [row] ∧
      ∀ x ∈ s.pvzs, x.ID ≠ row.ID) := by
  cases op with
  | receptionCreateIfNoOpen reception =>
    left
    rcases CreateIfNoOpen_outcome run s reception with ⟨e, he⟩ | ⟨he, -, -, -⟩ <;>
      simp only [Op.apply, he]
  | receptionCloseLast pvzID =>
    left
    rcases CloseLast_outcome run s pvzID with ⟨e, he⟩ | ⟨row, he, -, -⟩ <;>
      simp only [Op.apply, he]
  | productCreate product =>
    left
    rcases Create_outcome run s product with ⟨e, he⟩ | ⟨id, -, he, -⟩ <;>
      simp only [Op.apply, he]
  | productDeleteLast pvzID =>
    left
    rcases DeleteLast_outcome run s pvzID with ⟨e, he⟩ | ⟨id, -, he, -⟩ <;>
      simp only [Op.apply, he]
  | pvzCreate pvz =>
    rcases PVZCreate_outcome run s pvz with ⟨e, he⟩ | ⟨he, hk⟩
    · left; simp only [Op.apply, he]
    · right
      refine ⟨postgresqlPVZRepository.toRow pvz, by simp only [Op.apply, he], ?_⟩
      intro x hx hc
      rw [List.any_eq_false] at hk
      exact hk x hx (by simpa [postgresqlPVZRepository.toRow] using hc)

theorem nodup_map_append_single {α β : Type} (f : α → β) (l : List α) (x : α)
    (h : (l.map f).Nodup) (hx : ∀ y ∈ l, f y ≠ f x) : ((l ++ [x]).map f).Nodup := by
  rw [List.map_append, List.nodup_append]
  refine ⟨h, by simp, ?_⟩
  intro b hb hb2
  obtain ⟨y, hy, rfl⟩ := List.mem_map.mp hb
  simp at hb2
  exact hx y hy hb2

theorem closeFor_ID (P : UUID) (r : receptionRow) : (closeFor P r).ID = r.ID := by
  unfold closeFor
  split <;> rfl

/-- One call keeps the primary keys of the three tables unique. -/
theorem keysUnique_apply (run : DbRun) (op : Op) (s : Store) (h : s.keysUnique) :
    (op.apply run s).keysUnique := by
  obtain ⟨h1, h2, h3⟩ := h
  refine ⟨?_, ?_, ?_⟩
  · rcases pvzs_apply run op s with he | ⟨row, he, hk⟩
    · rw [he]; exact h1
    · rw [he]; exact nodup_map_append_single _ _ _ h1 hk
  · rcases receptions_apply run op s with he | ⟨row, he, hk⟩ | ⟨P, he⟩
    · rw [he]; exact h2
    · rw [he]; exact nodup_map_append_single _ _ _ h2 hk
    · rw [he, List.map_map]
      have : receptionRow.ID ∘ closeFor P = receptionRow.ID := by
        funext r
        exact closeFor_ID P r
      rw [this]
      exact h2
  · rcases products_apply run op s with he | ⟨row, he, hk, -⟩ | ⟨last, -, he, -⟩
    · rw [he]; exact h3
    · rw [he]; exact nodup_map_append_single _ _ _ h3 hk
    · rw [he]
      exact List.Nodup.sublist ((List.filter_sublist _).map _) h3

theorem keysUnique_empty : Store.empty.keysUnique := by
  decide

/-- Any sequence of calls keeps the primary keys unique. -/
theorem keysUnique_runOps (ops : List (DbRun × Op)) :
    ∀ s : Store, s.keysUnique → (runOps ops s).keysUnique := by
  induction ops with
  | nil => intro s h; exact h
  | cons a rest ih =>
    intro s h
    obtain ⟨run, op⟩ := a
    exact ih _ (keysUnique_apply run op s h)

/-! ## Invariant I5 -/

/-- The update of `CloseLast` does not touch a row stored with status close. -/
theorem closeFor_closed (P : UUID) (r : receptionRow)
    (h : r.Status = models.ReceptionStatusClose) : closeFor P r = r := by
  unfold closeFor
  rw [if_neg]
  simp [isOpenFor, h, models.ReceptionStatusClose]

/-- Under the primary key of `receptions`, a reception stored with status
in_progress and one stored with status close have different identifiers. -/
theorem open_closed_ne (s : Store) (hkeys : s.keysUnique) (o r : receptionRow)
    (ho : o ∈ s.receptions) (hr : r ∈ s.receptions) (hos : o.Status = "in_progress")
    (hrs : r.Status = models.ReceptionStatusClose) : o.ID ≠ r.ID := by
  intro hc
  have := List.inj_on_of_nodup_map hkeys.2.1 ho hr hc
  rw [this, hrs] at hos
  exact absurd hos (by decide)

/-- Claim C4 (invariant I5): under the primary keys of the schema, for every
reception r stored with status close and every call of reception CreateIfNoOpen,
reception CloseLast, product Create, product DeleteLast or pickup-point Create,
with any arguments and any outcome: r is still stored, with status close; no
other row carries its identifier; the products owned by r are the same rows in
the same order; and every reception stored before is still stored afterwards
under the same identifier, pickup point and date, closed if it was closed, so
that no call reopens or deletes a reception. -/
theorem C4_closed_reception_frozen (run : DbRun) (op : Op) (s : Store) (r : receptionRow)
    (hkeys : s.keysUnique) (hr : r ∈ s.receptions)
    (hclosed : r.Status = models.ReceptionStatusClose) :
    r ∈ (op.apply run s).receptions ∧
    (∀ y ∈ (op.apply run s).receptions, y.ID = r.ID → y = r) ∧
    productsOf (op.apply run s) r.ID = productsOf s r.ID ∧
    (∀ x ∈ s.receptions, ∃ y ∈ (op.apply run s).receptions,
      y.ID = x.ID ∧ y.PVZID = x.PVZID ∧ y.DateTime = x.DateTime ∧
      (x.Status = models.ReceptionStatusClose → y.Status = models.ReceptionStatusClose)) := by
  have hmem : r ∈ (op.apply run s).receptions := by
    rcases receptions_apply run op s with he | ⟨row, he, -⟩ | ⟨P, he⟩
    · rw [he]; exact hr
    · rw [he]; exact List.mem_append_left _ hr
    · rw [he]
      exact List.mem_map.mpr ⟨r, hr, closeFor_closed P r hclosed⟩
  refine ⟨hmem, ?_, ?_, ?_⟩
  · intro y hy hid
    exact List.inj_on_of_nodup_map (keysUnique_apply run op s hkeys).2.1 hy hmem hid
  · unfold productsOf
    rcases products_apply run op s with he | ⟨row, he, -, o, ho, hoid, hos⟩ |
      ⟨last, hl, he, o, ho, hoid, hos⟩
    · rw [he]
    · have hne : row.ReceptionID ≠ r.ID := by
        rw [← hoid]
        exact open_closed_ne s hkeys o r ho hr hos hclosed
      rw [he, List.filter_append]
      simp [List.filter_cons, hne]
    · have hne : last.ReceptionID ≠ r.ID := by
        rw [← hoid]
        exact open_closed_ne s hkeys o r ho hr hos hclosed
      rw [he, List.filter_filter]
      apply List.filter_congr
      intro q hq
      by_cases hqr : q.ReceptionID = r.ID
      · have hql : q.ID ≠ last.ID := by
          intro hc
          have := List.inj_on_of_nodup_map hkeys.2.2 hq hl hc
          rw [this] at hqr
          exact hne hqr
        simp [hqr, hql]
      · simp [hqr]
  · intro x hx
    rcases receptions_apply run op s with he | ⟨row, he, -⟩ | ⟨P, he⟩
    · exact ⟨x, by rw [he]; exact hx, rfl, rfl, rfl, fun h => h⟩
    · exact ⟨x, by rw [he]; exact List.mem_append_left _ hx, rfl, rfl, rfl, fun h => h⟩
    · refine ⟨closeFor P x, by rw [he]; exact List.mem_map_of_mem _ hx, closeFor_ID P x,
        ?_, ?_, ?_⟩
      · unfold closeFor
        split <;> rfl
      · unfold closeFor
        split <;> rfl
      · intro h
        rw [closeFor_closed P x h]
        exact h

/-- Witness of C4 on the sample store: the closed reception 10 of pickup point 1
while that pickup point deletes its last product. -/
theorem C4_closed_reception_frozen_witness :
    sampleStore.keysUnique ∧
    (⟨10, 5, 1, "close"⟩ : receptionRow) ∈ sampleStore.receptions ∧
    (⟨10, 5, 1, "close"⟩ : receptionRow) ∈
      ((Op.productDeleteLast 1).apply sampleRun sampleStore).receptions ∧
    productsOf ((Op.productDeleteLast 1).apply sampleRun sampleStore) 10 =
      productsOf sampleStore 10 :=
  ⟨by decide, by decide,
    (C4_closed_reception_frozen sampleRun (Op.productDeleteLast 1) sampleStore
      ⟨10, 5, 1, "close"⟩ (by decide) (by decide) rfl).1,
    (C4_closed_reception_frozen sampleRun (Op.productDeleteLast 1) sampleStore
      ⟨10, 5, 1, "close"⟩ (by decide) (by decide) rfl).2.2.1⟩

/-! ## Adding a product and removing it again -/

open postgresqlProductRepository in
/-- With a working connection, an open reception at the pickup point (the only
one, invariant I1) and a free product key, `Create` appends the product row to
that reception and returns the product. -/
theorem Create_some (run : DbRun) (s : Store) (product : models.AddProduct) (R : receptionRow)
    (hok : run.ok) (hI1 : (openReceptions s product.PVZID).length ≤ 1)
    (hR : R ∈ openReceptions s product.PVZID)
    (hfresh : ∀ q ∈ s.products, q.ID ≠ product.ID) :
    Create run s product =
      ((some (toModel (newRow product R.ID)), none),
        { s with products := s.products ++ [newRow product R.ID] }) := by
  have hg := getOpenReceptionID_unique run 1 s product.PVZID (hok 1) hI1 R hR
  have hk : s.products.any (fun q => q.ID == product.ID) = false := by
    rw [List.any_eq_false]
    intro q hq
    simpa using hfresh q hq
  have hfk : s.receptions.any (fun q => q.ID == R.ID) = true := by
    rw [List.any_eq_true]
    exact ⟨R, (List.mem_filter.mp hR).1, by simp⟩
  have hi : insertProduct s (newRow product R.ID) =
      some { s with products := s.products ++ [newRow product R.ID] } := by
    unfold insertProduct
    rw [if_neg (by simpa [newRow] using hk), if_neg (by simpa [newRow] using hfk)]
  simp [Create, hok 0, hok 2, hok 3, hg, hi]

open postgresqlProductRepository in
/-- With a working connection, a stored reception whose identifier
`getOpenReceptionID` scans and a free product key, `Create` appends the product
row to that reception and returns the product. -/
theorem Create_scanned (run : DbRun) (s : Store) (product : models.AddProduct)
    (R : receptionRow) (hok : run.ok)
    (hg : getOpenReceptionID run 1 s product.PVZID = .ok R.ID) (hR : R ∈ s.receptions)
    (hfresh : ∀ q ∈ s.products, q.ID ≠ product.ID) :
    Create run s product =
      ((some (toModel (newRow product R.ID)), none),
        { s with products := s.products ++ [newRow product R.ID] }) := by
  have hk : s.products.any (fun q => q.ID == product.ID) = false := by
    rw [List.any_eq_false]
    intro q hq
    simpa using hfresh q hq
  have hfk : s.receptions.any (fun q => q.ID == R.ID) = true := by
    rw [List.any_eq_true]
    exact ⟨R, hR, by simp⟩
  have hi : insertProduct s (newRow product R.ID) =
      some { s with products := s.products ++ [newRow product R.ID] } := by
    unfold insertProduct
    rw [if_neg (by simpa [newRow] using hk), if_neg (by simpa [newRow] using hfk)]
  simp [Create, hok 0, hok 2, hok 3, hg, hi]

open postgresqlProductRepository in
/-- Counterexample to C8 as stated: pickup point 1 has two receptions in_progress
of equal date and product 400 is fresh.  Create, for which the engine picks the
first of the two, adds the product to reception 30; DeleteLast right after, for
which the engine picks the second, takes reception 31, which owns no product, and
returns ErrNoProductsInReception: the product stays. -/
theorem C8_two_open_receptions_counterexample :
    sampleTwoOpenTiedStore.keysUnique ∧
    (⟨30, 5, 1, "in_progress"⟩ : receptionRow) ∈ sampleTwoOpenTiedStore.receptions ∧
    (∀ q ∈ sampleTwoOpenTiedStore.products, q.ID ≠ 400) ∧
    Create sampleRun sampleTwoOpenTiedStore ⟨400, 9, "обувь", 1⟩ =
      ((some ⟨400, 9, "обувь", 30⟩, none),
        { sampleTwoOpenTiedStore with products := [⟨400, 9, "обувь", 30⟩] }) ∧
    DeleteLast sampleRunSecond
        { sampleTwoOpenTiedStore with products := [⟨400, 9, "обувь", 30⟩] } 1 =
      (some domainerrors.ErrNoProductsInReception,
        { sampleTwoOpenTiedStore with products := [⟨400, 9, "обувь", 30⟩] }) := by
  refine ⟨by decide, by decide, by decide, by decide, by decide⟩

open postgresqlProductRepository in
/-- Claim C8 as amended (round trip): when pickup point P has the reception R with
status in_progress, every other reception of P with status in_progress is older
than R (so in particular when R is the only open reception of P, invariant I1),
the product keys are unique, the product to add has a fresh identifier and both
connections work, product Create for P followed immediately by DeleteLast(P) both
return nil, and the number of products owned by R afterwards is the number before
the pair. -/
theorem C8_add_then_delete_round_trip (run1 run2 : DbRun) (s : Store) (P : UUID)
    (R : receptionRow) (product : models.AddProduct)
    (hok1 : run1.ok) (hok2 : run2.ok) (hkeys : s.keysUnique)
    (hnew : ∀ q ∈ openReceptions s P, q ≠ R → q.DateTime < R.DateTime)
    (hR : R ∈ s.receptions) (hRP : R.PVZID = P)
    (hRS : R.Status = models.ReceptionStatusInProgress)
    (hP : product.PVZID = P) (hfresh : ∀ q ∈ s.products, q.ID ≠ product.ID) :
    ∃ (created : models.Product) (s1 s2 : Store),
      Create run1 s product = ((some created, none), s1) ∧
      DeleteLast run2 s1 P = (none, s2) ∧
      (productsOf s1 R.ID).length = (productsOf s R.ID).length + 1 ∧
      (productsOf s2 R.ID).length = (productsOf s R.ID).length := by
  subst hP
  have hro : R ∈ openReceptions s product.PVZID :=
    (mem_openReceptions s _ R).mpr ⟨hR, hRP, hRS⟩
  have hg1 := getOpenReceptionID_newest run1 1 s product.PVZID (hok1 1) R hro hnew
  have hc := Create_scanned run1 s product R hok1 hg1 hR hfresh
  have hnd1 : ((s.products ++ [newRow product R.ID]).map productRow.ID).Nodup :=
    nodup_map_append_single _ _ _ hkeys.2.2 (by simpa [newRow] using hfresh)
  have hg2 : getOpenReceptionID run2 1
      { s with products := s.products ++ [newRow product R.ID] } product.PVZID = .ok R.ID :=
    getOpenReceptionID_newest run2 1 _ product.PVZID (hok2 1) R hro hnew
  have hne : (s.products ++ [newRow product R.ID]).filter
      (fun p => p.ReceptionID == R.ID) ≠ [] := by
    apply List.ne_nil_of_mem (a := newRow product R.ID)
    exact List.mem_filter.mpr ⟨by simp, by simp [newRow]⟩
  obtain ⟨last, hm, hrid, -, hd⟩ := DeleteLast_some run2
    { s with products := s.products ++ [newRow product R.ID] } product.PVZID R.ID hok2 hg2 hne
  have hlen1 : ((s.products ++ [newRow product R.ID]).filter
      (fun q => q.ReceptionID == R.ID)).length =
      (s.products.filter (fun q => q.ReceptionID == R.ID)).length + 1 := by
    rw [List.filter_append]
    simp [List.filter_cons, newRow]
  refine ⟨_, _, _, hc, hd, hlen1, ?_⟩
  simp only [productsOf]
  rw [filter_id_eq_erase _ hnd1 last hm]
  have h2 : (((s.products ++ [newRow product R.ID]).erase last).filter
      (fun q => q.ReceptionID == R.ID)).length + 1 =
      ((s.products ++ [newRow product R.ID]).filter
        (fun q => q.ReceptionID == R.ID)).length :=
    productsOf_erase_length _ last R.ID hm hrid
  omega

/-- Witness of C8 on a store with two open receptions at pickup point 1: product
104 is added to the newer reception 31 and the last product of it is removed
again. -/
theorem C8_add_then_delete_round_trip_witness :
    sampleRun.ok ∧ sampleTwoOpenNewerStore.keysUnique ∧
    (∀ q ∈ openReceptions sampleTwoOpenNewerStore 1, q ≠ ⟨31, 5, 1, "in_progress"⟩ →
      q.DateTime < 5) ∧
    (∀ q ∈ sampleTwoOpenNewerStore.products, q.ID ≠ 104) ∧
    (∃ (created : models.Product) (s1 s2 : Store),
      postgresqlProductRepository.Create sampleRun sampleTwoOpenNewerStore
          ⟨104, 30, models.ProductTypeShoes, 1⟩ = ((some created, none), s1) ∧
      postgresqlProductRepository.DeleteLast sampleRun s1 1 = (none, s2) ∧
      (productsOf s1 31).length = (productsOf sampleTwoOpenNewerStore 31).length + 1 ∧
      (productsOf s2 31).length = (productsOf sampleTwoOpenNewerStore 31).length) :=
  ⟨fun _ => rfl, by decide, by decide, by decide,
    C8_add_then_delete_round_trip sampleRun sampleRun sampleTwoOpenNewerStore 1
      ⟨31, 5, 1, "in_progress"⟩ ⟨104, 30, models.ProductTypeShoes, 1⟩ (fun _ => rfl)
      (fun _ => rfl) (by decide) (by decide) (by decide) rfl rfl rfl (by decide)⟩

/-- Invariant I1 may be checked at the pickup points that own a reception. -/
theorem I1_of_receptions (s : Store)
    (h : ∀ r ∈ s.receptions, (openReceptions s r.PVZID).length ≤ 1) : I1 s := by
  intro p
  by_cases hn : openReceptions s p = []
  · rw [hn]
    simp
  · obtain ⟨r, hr⟩ := List.exists_mem_of_ne_nil _ hn
    have hm := (mem_openReceptions s p r).mp hr
    rw [← hm.2.1]
    exact h r hm.1

/-- Witness of C1 on the sample store: pickup point 2 opens its first reception. -/
theorem C1_one_open_reception_invariant_witness :
    I1 sampleStore ∧
    I1 ((Op.receptionCreateIfNoOpen ⟨12, 20, 2, "in_progress"⟩).apply sampleRun sampleStore) :=
  ⟨I1_of_receptions _ (by decide),
    (C1_one_open_reception_invariant sampleRun
      (Op.receptionCreateIfNoOpen ⟨12, 20, 2, "in_progress"⟩) sampleStore
      (I1_of_receptions _ (by decide))).1⟩

end postgresqlrepo

/-! ## The authorization gate -/

namespace service

open models

open pvzServiceImpl in
/-- The role test of `CreatePVZ` refuses the role employee and nothing else: with
any other role string and a valid city the pickup point is built and handed to
the repository. -/
theorem CreatePVZ_reaches_repository {σ : Type} (pvzRepo : repositories.IPVZRepo σ)
    (newID : UUID) (now : Time) (role city : String) (st : σ) (m : metrics.Counters)
    (hrole : role ≠ RoleEmployee) (hcity : CityType.Valid city = true) :
    (CreatePVZ pvzRepo newID now role city none none st m).2.1 =
      (pvzRepo.Create st ⟨newID, now, city⟩).2 := by
  have h1 : (role == RoleEmployee) = false := by simpa using hrole
  simp only [CreatePVZ, h1, hcity]
  rcases hc : pvzRepo.Create st ⟨newID, now, city⟩ with ⟨_ | err, st1⟩
  · simp
  · by_cases hu : errors.Is err databaseerrors.ErrUniqueViolation = true
    · simp [hu]
    · by_cases hx : errors.Is err databaseerrors.ErrUnexpected = true
      · simp [hu, hx]
      · simp [hu, hx]

open pvzServiceImpl in
/-- Claim C9, which the code does not meet: only a moderator may create a pickup
point, yet CreatePVZ called with the unrecognised role "guest" and the valid city
Москва returns no error; it hands the new pickup point to the repository's
Create, returns it and counts it as created. -/
theorem C9_create_pvz_accepts_unrecognised_role :
    RoleType.Valid "guest" = false ∧
    CreatePVZ (recordingPVZRepo none) 7 3 "guest" CityTypeMoscow none none [] zeroCounters =
      ((some ⟨7, 3, CityTypeMoscow⟩, none), [⟨7, 3, CityTypeMoscow⟩], ⟨1, 0, 0⟩) := by
  decide

open receptionServiceImpl in
/-- Counterexample to C10 as stated: the role "guest" lies outside employee and
moderator, and CloseLastReception answers it with ErrNotEnoughRights, which is not
the InvalidRole kind. -/
theorem C10_unrecognised_role_counterexample :
    RoleType.Valid "guest" = false ∧
    (CloseLastReception (postgresqlrepo.NewPostgresqlReceptionRepository postgresqlrepo.sampleRun)
      "guest" 1 postgresqlrepo.sampleStore).1.2 = some domainerrors.ErrNotEnoughRights ∧
    errors.Is domainerrors.ErrNotEnoughRights domainerrors.ErrInvalidRole = false := by
  decide

open receptionServiceImpl productServiceImpl pvzServiceImpl in
/-- Claim C10 as amended: for every role string outside employee and moderator,
ListPVZs fails with an error of the InvalidRole kind, while
CreateReceptionIfNoOpen, CloseLastReception, AddProduct and DeleteLastProduct
fail with ErrNotEnoughRights, the error they also return to the recognised but
unauthorised role moderator; none of the five reaches the repository or the
counters, and the InvalidRole and NotEnoughRights kinds are distinct. -/
theorem C10_unrecognised_role_amended {σ : Type} (role : String)
    (hne : role ≠ RoleEmployee) (hnm : role ≠ RoleModerator) :
    (∀ (pvzRepo : repositories.IPVZRepo σ) (now : Time) (startDate endDate : Option Time)
        (pageNumber limit : Option Int) (st : σ),
      ListPVZs pvzRepo now role startDate endDate pageNumber limit st =
        ((none, some (GoError.wrap domainerrors.ErrInvalidRole role)), st)) ∧
    errors.Is (GoError.wrap domainerrors.ErrInvalidRole role) domainerrors.ErrInvalidRole = true ∧
    errors.Is (GoError.wrap domainerrors.ErrInvalidRole role)
      domainerrors.ErrNotEnoughRights = false ∧
    errors.Is domainerrors.ErrNotEnoughRights domainerrors.ErrInvalidRole = false ∧
    (∀ (repo : repositories.IReceptionRepo σ) (newID : UUID) (now : Time) (pvzID : UUID)
        (st : σ) (m : metrics.Counters),
      CreateReceptionIfNoOpen repo newID now role pvzID st m =
          ((none, some domainerrors.ErrNotEnoughRights), st, m) ∧
      CreateReceptionIfNoOpen repo newID now RoleModerator pvzID st m =
          ((none, some domainerrors.ErrNotEnoughRights), st, m)) ∧
    (∀ (repo : repositories.IReceptionRepo σ) (pvzID : UUID) (st : σ),
      CloseLastReception repo role pvzID st =
          ((none, some domainerrors.ErrNotEnoughRights), st) ∧
      CloseLastReception repo RoleModerator pvzID st =
          ((none, some domainerrors.ErrNotEnoughRights), st)) ∧
    (∀ (repo : repositories.IProductRepo σ) (newID : UUID) (now : Time)
        (productType : String) (pvzID : UUID) (st : σ) (m : metrics.Counters),
      AddProduct repo newID now role productType pvzID st m =
          ((none, some domainerrors.ErrNotEnoughRights), st, m) ∧
      AddProduct repo newID now RoleModerator productType pvzID st m =
          ((none, some domainerrors.ErrNotEnoughRights), st, m)) ∧
    (∀ (repo : repositories.IProductRepo σ) (pvzID : UUID) (st : σ),
      DeleteLastProduct repo role pvzID st = (some domainerrors.ErrNotEnoughRights, st) ∧
      DeleteLastProduct repo RoleModerator pvzID st =
          (some domainerrors.ErrNotEnoughRights, st)) := by
  have h1 : (role != RoleEmployee) = true := by simpa using hne
  have h2 : (role != RoleModerator) = true := by simpa using hnm
  have h3 : (RoleModerator != RoleEmployee) = true := by decide
  refine ⟨?_, by simp [errors.Is], by simp [errors.Is], by decide, ?_, ?_, ?_, ?_⟩
  · intro pvzRepo now startDate endDate pageNumber limit st
    simp [ListPVZs, h1, h2]
  · intro repo newID now pvzID st m
    exact ⟨by simp [CreateReceptionIfNoOpen, h1], by simp [CreateReceptionIfNoOpen, h3]⟩
  · intro repo pvzID st
    exact ⟨by simp [CloseLastReception, h1], by simp [CloseLastReception, h3]⟩
  · intro repo newID now productType pvzID st m
    exact ⟨by simp [productServiceImpl.AddProduct, h1],
      by simp [productServiceImpl.AddProduct, h3]⟩
  · intro repo pvzID st
    exact ⟨by simp [DeleteLastProduct, h1], by simp [DeleteLastProduct, h3]⟩

open receptionServiceImpl productServiceImpl pvzServiceImpl in
/-- Witness of the amended C10 at the role "guest", against the recording double
and the PostgreSQL product repository. -/
theorem C10_unrecognised_role_amended_witness :
    ("guest" ≠ RoleEmployee) ∧ ("guest" ≠ RoleModerator) ∧
    ListPVZs (recordingPVZRepo none) 0 "guest" none none none none [] =
      ((none, some (GoError.wrap domainerrors.ErrInvalidRole "guest")), []) :=
  ⟨by decide, by decide,
    (C10_unrecognised_role_amended "guest" (by decide) (by decide)).1
      (recordingPVZRepo none) 0 none none none none []⟩

end service

/-! ## Validation of the list filter -/

namespace models

/-- Claim C16: `PVZFilter.Valid` returns ErrInvalidPage exactly when Page < 1;
ErrInvalidLimit exactly when Page is at least 1 and PageSize < 1;
ErrInvalidDateRange exactly when both are at least 1, both bounds are present and
StartDate is after EndDate; ErrInvalidStartDate exactly when none of these three
conditions holds and StartDate is present and after the validation time; and nil
exactly when none of the four conditions holds. -/
theorem C16_filter_valid (f : PVZFilter) (now : Time) :
    (f.Valid now = some domainerrors.ErrInvalidPage ↔ f.Page < 1) ∧
    (f.Valid now = some domainerrors.ErrInvalidLimit ↔ ¬ f.Page < 1 ∧ f.PageSize < 1) ∧
    (f.Valid now = some domainerrors.ErrInvalidDateRange ↔
      ¬ f.Page < 1 ∧ ¬ f.PageSize < 1 ∧
        ∃ s e, f.StartDate = some s ∧ f.EndDate = some e ∧ e < s) ∧
    (f.Valid now = some domainerrors.ErrInvalidStartDate ↔
      ¬ f.Page < 1 ∧ ¬ f.PageSize < 1 ∧
        (¬ ∃ s e, f.StartDate = some s ∧ f.EndDate = some e ∧ e < s) ∧
        ∃ s, f.StartDate = some s ∧ now < s) ∧
    (f.Valid now = none ↔
      ¬ f.Page < 1 ∧ ¬ f.PageSize < 1 ∧
        (¬ ∃ s e, f.StartDate = some s ∧ f.EndDate = some e ∧ e < s) ∧
        ¬ ∃ s, f.StartDate = some s ∧ now < s) := by
  obtain ⟨sd, ed, page, size⟩ := f
  unfold PVZFilter.Valid
  by_cases h1 : page < 1
  · simp [h1]
  by_cases h2 : size < 1
  · simp [h1, h2]
  cases sd with
  | none => simp [h1, h2]
  | some s =>
    cases ed with
    | none =>
      by_cases h4 : now < s
      · simp [h1, h2, h4]
      · simp [h1, h2, h4]
    | some e =>
      by_cases h3 : e < s
      · simp [h1, h2, h3]
      · by_cases h4 : now < s
        · simp [h1, h2, h3, h4]
        · simp [h1, h2, h3, h4]

end models

/-! ## Opening a reception -/

namespace postgresqlrepo

open postgresqlReceptionRepository service.receptionServiceImpl in
/-- Claim C19: when P is not a stored pickup point and the connection works, the
repository method CreateIfNoOpen returns ErrNoRows whatever the receptions table
holds (the existence check decides before the open-reception check), the service
method CreateReceptionIfNoOpen with role employee turns it into ErrPVZNotFound,
and the store, so also the receptions table, and the counters are left as they
were. -/
theorem C19_unknown_pickup_point (run : DbRun) (s : Store) (P : UUID) (hok : run.ok)
    (hno : ∀ p ∈ s.pvzs, p.ID ≠ P) :
    (∀ reception : models.Reception, reception.PVZID = P →
      CreateIfNoOpen run s reception = (some databaseerrors.ErrNoRows, s)) ∧
    (∀ (newID : UUID) (now : Time) (m : metrics.Counters),
      CreateReceptionIfNoOpen (NewPostgresqlReceptionRepository run) newID now
          models.RoleEmployee P s m =
        ((none, some domainerrors.ErrPVZNotFound), s, m)) := by
  have key : ∀ reception : models.Reception, reception.PVZID = P →
      CreateIfNoOpen run s reception = (some databaseerrors.ErrNoRows, s) := by
    intro reception hP
    subst hP
    have hp : s.pvzs.any (fun p => p.ID == reception.PVZID) = false := by
      rw [List.any_eq_false]
      intro p hp
      simpa using hno p hp
    simp [CreateIfNoOpen, hok 0, hok 1, hp]
  refine ⟨key, ?_⟩
  intro newID now m
  have hk := key ⟨newID, now, P, models.ReceptionStatusInProgress⟩ rfl
  simp only [CreateReceptionIfNoOpen, NewPostgresqlReceptionRepository, hk]
  rw [if_neg (by decide), if_neg (by decide), if_pos (by decide)]

/-- Witness of C19 on the sample store: 7 is not a stored pickup point. -/
theorem C19_unknown_pickup_point_witness :
    sampleRun.ok ∧ (∀ p ∈ sampleStore.pvzs, p.ID ≠ 7) ∧
    service.receptionServiceImpl.CreateReceptionIfNoOpen
        (NewPostgresqlReceptionRepository sampleRun) 12 20 models.RoleEmployee 7 sampleStore
        service.zeroCounters =
      ((none, some domainerrors.ErrPVZNotFound), sampleStore, service.zeroCounters) :=
  ⟨fun _ => rfl, by decide,
    (C19_unknown_pickup_point sampleRun sampleStore 7 (fun _ => rfl) (by decide)).2 12 20
      service.zeroCounters⟩

open postgresqlReceptionRepository service.receptionServiceImpl in
/-- Claim C20: when pickup point P is stored, has no reception with status
in_progress, the new identifier is not yet a reception key and the connection
works, CreateReceptionIfNoOpen with role employee returns nil and the reception
(new identifier, current time, pickup point P, status in_progress), counts it,
and leaves the receptions table as the former rows followed by exactly that
reception, which is then the only open reception of P; the other tables are
untouched. -/
theorem C20_open_reception_success (run : DbRun) (s : Store) (P newID : UUID) (now : Time)
    (m : metrics.Counters) (hok : run.ok) (hpvz : ∃ p ∈ s.pvzs, p.ID = P)
    (hno : ∀ r ∈ s.receptions, r.PVZID = P → r.Status ≠ models.ReceptionStatusInProgress)
    (hfresh : ∀ r ∈ s.receptions, r.ID ≠ newID) :
    CreateReceptionIfNoOpen (NewPostgresqlReceptionRepository run) newID now
        models.RoleEmployee P s m =
      ((some ⟨newID, now, P, models.ReceptionStatusInProgress⟩, none),
        { s with receptions := s.receptions ++ [⟨newID, now, P, "in_progress"⟩] },
        { m with ReceptionsCreated := m.ReceptionsCreated + 1 }) ∧
    openReceptions { s with receptions := s.receptions ++ [⟨newID, now, P, "in_progress"⟩] } P =
      [⟨newID, now, P, "in_progress"⟩] := by
  have hp : s.pvzs.any (fun p => p.ID == P) = true := by
    obtain ⟨p, hp, hid⟩ := hpvz
    rw [List.any_eq_true]
    exact ⟨p, hp, by simpa using hid⟩
  have hnil : s.receptions.filter (isOpenFor P) = [] :=
    (openReceptions_eq_nil_iff s P).mpr hno
  have ho : s.receptions.any (isOpenFor P) = false := by
    rw [List.any_eq_false]
    intro r hr
    rw [List.filter_eq_nil_iff] at hnil
    exact hnil r hr
  have hk : s.receptions.any (fun r => r.ID == newID) = false := by
    rw [List.any_eq_false]
    intro r hr
    simpa using hfresh r hr
  have hi : insertReception s ⟨newID, now, P, "in_progress"⟩ =
      some { s with receptions := s.receptions ++ [⟨newID, now, P, "in_progress"⟩] } := by
    unfold insertReception
    rw [if_neg (by simpa using hk), if_neg (by simpa using hp)]
  have hc : CreateIfNoOpen run s ⟨newID, now, P, models.ReceptionStatusInProgress⟩ =
      (none, { s with receptions := s.receptions ++ [⟨newID, now, P, "in_progress"⟩] }) := by
    have ht : toRow ⟨newID, now, P, models.ReceptionStatusInProgress⟩ =
        ⟨newID, now, P, "in_progress"⟩ := rfl
    simp [CreateIfNoOpen, hok 0, hok 1, hok 2, hok 3, hok 4, hp, ho, ht, hi]
  constructor
  · simp only [CreateReceptionIfNoOpen, NewPostgresqlReceptionRepository, hc]
    rw [if_neg (by decide)]
  · simp only [openReceptions, List.filter_append, hnil]
    simp [isOpenFor]

/-- Witness of C20 on the sample store: pickup point 2 opens its first reception. -/
theorem C20_open_reception_success_witness :
    sampleRun.ok ∧ (∃ p ∈ sampleStore.pvzs, p.ID = 2) ∧
    (∀ r ∈ sampleStore.receptions, r.PVZID = 2 → r.Status ≠ models.ReceptionStatusInProgress) ∧
    (∀ r ∈ sampleStore.receptions, r.ID ≠ 12) ∧
    openReceptions
        { sampleStore with receptions := sampleStore.receptions ++ [⟨12, 20, 2, "in_progress"⟩] }
        2 = [⟨12, 20, 2, "in_progress"⟩] :=
  ⟨fun _ => rfl, by decide, by decide, by decide,
    (C20_open_reception_success sampleRun sampleStore 2 12 20 service.zeroCounters
      (fun _ => rfl) (by decide) (by decide) (by decide)).2⟩

end postgresqlrepo

/-! ## The tie among the latest products -/

namespace postgresqlrepo

open postgresqlProductRepository in
/-- Counterexample to C18 as stated: in the sample store the products 102 and 103
of the open reception 11 share the latest date 12; from that one store, with a
working connection, one run of DeleteLast removes 102 and another removes 103. -/
theorem C18_tie_break_counterexample :
    sampleRun.ok ∧ sampleRunSecond.ok ∧
    (DeleteLast sampleRun sampleStore 1).1 = none ∧
    (DeleteLast sampleRun sampleStore 1).2.products =
      sampleStore.products.erase ⟨102, 12, "обувь", 11⟩ ∧
    (DeleteLast sampleRunSecond sampleStore 1).1 = none ∧
    (DeleteLast sampleRunSecond sampleStore 1).2.products =
      sampleStore.products.erase ⟨103, 12, "электроника", 11⟩ ∧
    DeleteLast sampleRun sampleStore 1 ≠ DeleteLast sampleRunSecond sampleStore 1 := by
  refine ⟨fun _ => rfl, fun _ => rfl, by decide, by decide, by decide, by decide, by decide⟩

open postgresqlProductRepository in
/-- Claim C18 as amended: with R the only open reception of pickup point P, unique
product keys and working connections, DeleteLast removes one product of R whose
creation timestamp no product of R exceeds; when a single product of R holds the
latest timestamp, two runs from the same store remove that same product and leave
the same store.  Among several products that share the latest timestamp the choice
is the engine's: no tie-break on the identifier is made. -/
theorem C18_latest_product_amended (run1 run2 : DbRun) (s : Store) (P : UUID)
    (R : receptionRow) (hok1 : run1.ok) (hok2 : run2.ok) (hkeys : s.keysUnique)
    (hI1 : (openReceptions s P).length ≤ 1)
    (hR : R ∈ s.receptions) (hRP : R.PVZID = P)
    (hRS : R.Status = models.ReceptionStatusInProgress)
    (hown : ∃ q ∈ s.products, q.ReceptionID = R.ID) :
    (∃ last ∈ s.products, last.ReceptionID = R.ID ∧
      (∀ q ∈ s.products, q.ReceptionID = R.ID → q.DateTime ≤ last.DateTime) ∧
      DeleteLast run1 s P = (none, { s with products := s.products.erase last })) ∧
    (∀ top ∈ s.products, top.ReceptionID = R.ID →
      (∀ q ∈ s.products, q.ReceptionID = R.ID → q ≠ top → q.DateTime < top.DateTime) →
      DeleteLast run1 s P = (none, { s with products := s.products.erase top }) ∧
      DeleteLast run2 s P = DeleteLast run1 s P) := by
  have hro : R ∈ openReceptions s P := (mem_openReceptions s P R).mpr ⟨hR, hRP, hRS⟩
  have hne : s.products.filter (fun p => p.ReceptionID == R.ID) ≠ [] := by
    obtain ⟨q, hq, hqr⟩ := hown
    exact List.ne_nil_of_mem (List.mem_filter.mpr ⟨hq, by simpa using hqr⟩)
  have key : ∀ run : DbRun, run.ok → ∃ last ∈ s.products, last.ReceptionID = R.ID ∧
      (∀ q ∈ s.products, q.ReceptionID = R.ID → q.DateTime ≤ last.DateTime) ∧
      DeleteLast run s P = (none, { s with products := s.products.erase last }) := by
    intro run hok
    have hid := getOpenReceptionID_unique run 1 s P (hok 1) hI1 R hro
    obtain ⟨last, hm, hrid, hmax, hd⟩ := DeleteLast_some run s P R.ID hok hid hne
    rw [filter_id_eq_erase s.products hkeys.2.2 last hm] at hd
    exact ⟨last, hm, hrid, hmax, hd⟩
  refine ⟨key run1 hok1, ?_⟩
  intro top htop htopR hstrict
  have uniq : ∀ run : DbRun, run.ok →
      DeleteLast run s P = (none, { s with products := s.products.erase top }) := by
    intro run hok
    obtain ⟨last, hm, hrid, hmax, hd⟩ := key run hok
    have hlt : last = top := by
      by_contra hne2
      have h1 := hstrict last hm hrid hne2
      have h2 := hmax top htop htopR
      exact absurd h1 (not_lt.mpr h2)
    rw [hd, hlt]
  exact ⟨uniq run1 hok1, by rw [uniq run1 hok1, uniq run2 hok2]⟩

open postgresqlProductRepository in
/-- Witness of the amended C18 on the sample store: both runs remove a product of
reception 11 dated 12. -/
theorem C18_latest_product_amended_witness :
    sampleRun.ok ∧ sampleRunSecond.ok ∧ sampleStore.keysUnique ∧
    (openReceptions sampleStore 1).length ≤ 1 ∧
    (∃ last ∈ sampleStore.products, last.ReceptionID = 11 ∧
      (∀ q ∈ sampleStore.products, q.ReceptionID = 11 → q.DateTime ≤ last.DateTime) ∧
      DeleteLast sampleRun sampleStore 1 =
        (none, { sampleStore with products := sampleStore.products.erase last })) :=
  ⟨fun _ => rfl, fun _ => rfl, by decide, by decide,
    (C18_latest_product_amended sampleRun sampleRunSecond sampleStore 1
      ⟨11, 8, 1, "in_progress"⟩ (fun _ => rfl) (fun _ => rfl) (by decide) (by decide)
      (by decide) rfl rfl (by decide)).1⟩

end postgresqlrepo

/-! ## Errors of the repository that the services let pass -/

namespace service

open models

open pvzServiceImpl authServiceImpl in
/-- Claim C17, which the code does not meet: when the repository fails with an
error that is neither ErrUniqueViolation nor ErrUnexpected, here ErrNoRows,
CreatePVZ returns the pickup point with a nil error and counts it as created,
ListPVZs and GetAllPVZs return a nil result with a nil error, and RegisterUser
returns the user with a nil error. -/
theorem C17_repository_error_reported_as_success :
    CreatePVZ (failingPVZRepo databaseerrors.ErrNoRows) 7 3 RoleModerator CityTypeMoscow
        none none [] zeroCounters =
      ((some ⟨7, 3, CityTypeMoscow⟩, none), [⟨7, 3, CityTypeMoscow⟩], ⟨1, 0, 0⟩) ∧
    ListPVZs (failingPVZRepo databaseerrors.ErrNoRows) 100 RoleModerator none none none none
        [] = ((none, none), []) ∧
    GetAllPVZs (failingPVZRepo databaseerrors.ErrNoRows) [] = ((none, none), []) ∧
    RegisterUser (failingUserRepo databaseerrors.ErrNoRows) sampleHash 9 "a@b.c" "secret"
        RoleEmployee [] =
      ((some ⟨9, "a@b.c", "hash of secret", RoleEmployee⟩, none),
        [⟨9, "a@b.c", "hash of secret", RoleEmployee⟩]) := by
  refine ⟨by decide, by decide, by decide, by decide⟩

end service

/-! ## The order of the listed pickup points -/

namespace postgresqlrepo

open postgresqlPVZRepository in
/-- Claim C11, which the code does not meet: the sample rows name pickup point 2
before pickup point 1, yet `listedToModel` fills its result by a `range` over a
map; when the map is walked from its second entry the result names pickup point 1
first, and two calls on the same rows return different orders. -/
theorem C11_first_appearance_order_lost :
    sampleListedRows.map listedPVZRow.ID = [2, 1, 1, 1] ∧
    (listedToModel (fun _ => 0) sampleListedRows).map
      (fun result => result.map (fun e => e.PVZ.ID)) = some [2, 1] ∧
    (listedToModel (fun _ => 1) sampleListedRows).map
      (fun result => result.map (fun e => e.PVZ.ID)) = some [1, 2] ∧
    listedToModel (fun _ => 0) sampleListedRows ≠ listedToModel (fun _ => 1) sampleListedRows := by
  refine ⟨by decide, by decide, by decide, by decide⟩

end postgresqlrepo

/-! ## First occurrences -/

namespace postgresqlrepo

section FirstBy

variable {α κ : Type} [DecidableEq κ]

theorem firstBy_cons_none (key : α → Option κ) (a : α) (t : List α) (h : key a = none) :
    firstBy key (a :: t) = firstBy key t := by
  simp [firstBy, h]

theorem firstBy_cons_some (key : α → Option κ) (a : α) (t : List α) (k : κ)
    (h : key a = some k) :
    firstBy key (a :: t) = a :: (firstBy key t).filter (fun b => !(key b == some k)) := by
  simp [firstBy, h]

/-- The first occurrences form a sublist of the rows. -/
theorem firstBy_sublist (key : α → Option κ) (l : List α) : (firstBy key l).Sublist l := by
  induction l with
  | nil => simp [firstBy]
  | cons a t ih =>
    cases h : key a with
    | none =>
      rw [firstBy_cons_none key a t h]
      exact ih.cons a
    | some k =>
      rw [firstBy_cons_some key a t k h]
      exact ((List.filter_sublist _).trans ih).cons₂ a

theorem mem_of_mem_firstBy (key : α → Option κ) (l : List α) (a : α)
    (h : a ∈ firstBy key l) : a ∈ l :=
  (firstBy_sublist key l).subset h

/-- Every first occurrence carries a key. -/
theorem key_isSome_of_mem_firstBy (key : α → Option κ) (l : List α) (a : α)
    (h : a ∈ firstBy key l) : (key a).isSome = true := by
  induction l with
  | nil => simp [firstBy] at h
  | cons b t ih =>
    cases hb : key b with
    | none =>
      rw [firstBy_cons_none key b t hb] at h
      exact ih h
    | some k =>
      rw [firstBy_cons_some key b t k hb] at h
      rcases List.mem_cons.mp h with rfl | h
      · simp [hb]
      · exact ih (List.mem_filter.mp h).1

/-- A key occurs among the first occurrences exactly when it occurs in the list. -/
theorem exists_mem_firstBy_iff (key : α → Option κ) (l : List α) (k : κ) :
    (∃ a ∈ firstBy key l, key a = some k) ↔ ∃ a ∈ l, key a = some k := by
  constructor
  · rintro ⟨a, ha, hk⟩
    exact ⟨a, mem_of_mem_firstBy key l a ha, hk⟩
  · induction l with
    | nil => simp
    | cons b t ih =>
      rintro ⟨a, ha, hk⟩
      cases hb : key b with
      | none =>
        rw [firstBy_cons_none key b t hb]
        rcases List.mem_cons.mp ha with rfl | ha
        · rw [hb] at hk
          exact absurd hk (by simp)
        · exact ih ⟨a, ha, hk⟩
      | some kb =>
        rw [firstBy_cons_some key b t kb hb]
        by_cases hkb : kb = k
        · exact ⟨b, List.mem_cons_self _ _, by rw [hb, hkb]⟩
        · rcases List.mem_cons.mp ha with rfl | ha
          · rw [hb] at hk
            exact absurd (Option.some.inj hk) hkb
          · obtain ⟨c, hc, hck⟩ := ih ⟨a, ha, hk⟩
            refine ⟨c, List.mem_cons_of_mem _ (List.mem_filter.mpr ⟨hc, ?_⟩), hck⟩
            rw [hck]
            simpa using fun h => hkb h.symm

/-- No key occurs twice among the first occurrences. -/
theorem firstBy_keys_pairwise (key : α → Option κ) (l : List α) :
    (firstBy key l).Pairwise (fun a b => key a ≠ key b) := by
  induction l with
  | nil => simp [firstBy]
  | cons a t ih =>
    cases h : key a with
    | none =>
      rw [firstBy_cons_none key a t h]
      exact ih
    | some k =>
      rw [firstBy_cons_some key a t k h]
      refine List.Pairwise.cons ?_ (ih.sublist (List.filter_sublist _))
      intro b hb
      have := (List.mem_filter.mp hb).2
      rw [h]
      intro hc
      simp [← hc] at this

/-- Appending one row: it joins the first occurrences exactly when it carries a key
that no earlier row carries. -/
theorem firstBy_append_singleton (key : α → Option κ) (l : List α) (a : α) :
    firstBy key (l ++ [a]) =
      match key a with
      | none => firstBy key l
      | some k => if l.any (fun b => key b == some k) then firstBy key l
        else firstBy key l ++ [a] := by
  induction l with
  | nil =>
    cases h : key a with
    | none => simp [firstBy, h]
    | some k => simp [firstBy, h]
  | cons b t ih =>
    cases ha : key a with
    | none =>
      rw [ha] at ih
      simp only at ih ⊢
      cases hb : key b with
      | none =>
        rw [List.cons_append, firstBy_cons_none key b _ hb, firstBy_cons_none key b _ hb, ih]
      | some kb =>
        rw [List.cons_append, firstBy_cons_some key b _ kb hb,
          firstBy_cons_some key b _ kb hb, ih]
    | some k =>
      rw [ha] at ih
      simp only at ih ⊢
      cases hb : key b with
      | none =>
        rw [List.cons_append, firstBy_cons_none key b _ hb, firstBy_cons_none key b _ hb, ih]
        simp [hb]
      | some kb =>
        rw [List.cons_append, firstBy_cons_some key b _ kb hb,
          firstBy_cons_some key b _ kb hb, ih]
        by_cases hany : t.any (fun b => key b == some k) = true
        · simp [hany, hb]
        · by_cases hkb : kb = k
          · subst hkb
            simp [hany, hb, List.filter_append, ha]
          · have hkb2 : ¬ k = kb := fun h => hkb h.symm
            simp [hany, hb, hkb, hkb2, List.filter_append, ha]

/-- Selecting rows by a property that rows of equal key share commutes with taking
first occurrences. -/
theorem firstBy_filter (key : α → Option κ) (p : α → Bool) (l : List α)
    (h : ∀ a ∈ l, ∀ b ∈ l, key a = key b → key a ≠ none → p a = p b) :
    (firstBy key l).filter p = firstBy key (l.filter p) := by
  induction l with
  | nil => simp [firstBy]
  | cons a t ih =>
    have iht := ih (fun x hx y hy => h x (List.mem_cons_of_mem _ hx) y (List.mem_cons_of_mem _ hy))
    cases ha : key a with
    | none =>
      rw [firstBy_cons_none key a t ha, iht]
      by_cases hp : p a = true
      · rw [List.filter_cons_of_pos hp, firstBy_cons_none key a _ ha]
      · rw [List.filter_cons_of_neg hp]
    | some k =>
      rw [firstBy_cons_some key a t k ha]
      by_cases hp : p a = true
      · rw [List.filter_cons_of_pos hp, List.filter_cons_of_pos hp,
          firstBy_cons_some key a _ k ha, ← iht, List.filter_filter, List.filter_filter]
        congr 1
        apply List.filter_congr
        intro x _
        exact Bool.and_comm _ _
      · rw [List.filter_cons_of_neg hp, List.filter_cons_of_neg hp, List.filter_filter, ← iht]
        apply List.filter_congr
        intro x hx
        have hxt : x ∈ t := mem_of_mem_firstBy key t x hx
        by_cases hxk : key x = some k
        · have := h a (List.mem_cons_self _ _) x (List.mem_cons_of_mem _ hxt)
            (by rw [ha, hxk]) (by simp [ha])
          have hpx : p x = false := by
            rw [← this]
            simpa using hp
          simp [hpx]
        · simp [hxk]

end FirstBy

end postgresqlrepo

/-! ## The maps of `listedToModel` -/

namespace postgresqlrepo

open postgresqlPVZRepository (listedMaps listedRow enterPVZ enterReception enterProduct
  appendReception appendProduct deref assemble listedToModel)

theorem foldlM_listedRow_snoc (pre : List listedPVZRow) (row : listedPVZRow)
    (init m : listedMaps) :
    (pre ++ [row]).foldlM listedRow init = some m ↔
      ∃ m0, pre.foldlM listedRow init = some m0 ∧ listedRow m0 row = some m := by
  rw [List.foldlM_append]
  cases h : pre.foldlM listedRow init with
  | none => simp
  | some m0 =>
    have hb : (listedRow m0 row >>= fun x => pure x) = listedRow m0 row := by
      cases listedRow m0 row <;> rfl
    simp [hb]

/-- The keys of `pvzMap` are the pickup-point ids seen so far. -/
theorem listedInv.pvz_any {rows : List listedPVZRow} {m : listedMaps} (h : listedInv rows m)
    (id : UUID) :
    m.pvzMap.any (fun e => e.1 == id) = rows.any (fun r => some r.ID == some id) := by
  rw [Bool.eq_iff_iff, List.any_eq_true, List.any_eq_true]
  constructor
  · rintro ⟨e, he, hid⟩
    have hmem : e.2.1 ∈ m.pvzMap.map (fun e => e.2.1) := List.mem_map_of_mem _ he
    rw [h.pvzs] at hmem
    obtain ⟨r, hr, hre⟩ := List.mem_map.mp hmem
    refine ⟨r, mem_of_mem_firstBy _ _ _ hr, ?_⟩
    have h1 := h.pvzKeys e he
    have h2 : r.ID = e.2.1.ID := by rw [← hre]; rfl
    have h3 : e.1 = id := by simpa using hid
    simp [h2, ← h1, h3]
  · rintro ⟨r, hr, hid⟩
    have hid2 : r.ID = id := by simpa using hid
    obtain ⟨r2, hr2, hk⟩ := (exists_mem_firstBy_iff (fun r => some r.ID) rows id).mpr
      ⟨r, hr, by rw [hid2]⟩
    have hmem : r2.pvz ∈ m.pvzMap.map (fun e => e.2.1) := by
      rw [h.pvzs]
      exact List.mem_map_of_mem _ hr2
    obtain ⟨e, he, hee⟩ := List.mem_map.mp hmem
    refine ⟨e, he, ?_⟩
    have h1 := h.pvzKeys e he
    have h2 : r2.ID = id := by simpa using hk
    have h3 : e.2.1.ID = r2.ID := by rw [hee]; rfl
    simp [h1, h3, h2]

/-- The keys of `receptionMap` are the reception ids seen so far. -/
theorem listedInv.reception_any {rows : List listedPVZRow} {m : listedMaps}
    (h : listedInv rows m) (rid : UUID) :
    m.receptionMap.any (fun x => x.1 == rid) =
      rows.any (fun r => r.ReceptionID == some rid) := by
  rw [Bool.eq_iff_iff, List.any_eq_true, List.any_eq_true]
  constructor
  · rintro ⟨x, hx, hid⟩
    have hmem : x.1 ∈ m.receptionMap.map (fun x => x.1) := List.mem_map_of_mem _ hx
    rw [h.recIds] at hmem
    obtain ⟨r, hr, hre⟩ := List.mem_filterMap.mp hmem
    refine ⟨r, mem_of_mem_firstBy _ _ _ hr, ?_⟩
    have h3 : x.1 = rid := by simpa using hid
    simp [hre, h3]
  · rintro ⟨r, hr, hid⟩
    have hid2 : r.ReceptionID = some rid := by simpa using hid
    obtain ⟨r2, hr2, hk⟩ := (exists_mem_firstBy_iff listedPVZRow.ReceptionID rows rid).mpr
      ⟨r, hr, hid2⟩
    have hmem : rid ∈ m.receptionMap.map (fun x => x.1) := by
      rw [h.recIds]
      exact List.mem_filterMap.mpr ⟨r2, hr2, hk⟩
    obtain ⟨x, hx, hxx⟩ := List.mem_map.mp hmem
    exact ⟨x, hx, by simpa using hxx⟩

/-- The first `if` of the loop body: the state of the pickup points after the new
row, the receptions still as before it. -/
theorem listedInv_enterPVZ {pre : List listedPVZRow} {m : listedMaps} (h : listedInv pre m)
    (row : listedPVZRow) :
    (∀ e ∈ (enterPVZ m row).pvzMap, e.1 = e.2.1.ID) ∧
    (enterPVZ m row).pvzMap.map (fun e => e.2.1) =
      (firstBy (fun r => some r.ID) (pre ++ [row])).map listedPVZRow.pvz ∧
    (enterPVZ m row).receptionMap = m.receptionMap ∧
    (∀ x ∈ m.receptionMap, ∃ e ∈ (enterPVZ m row).pvzMap, e.1 = x.2.Reception.PVZID) ∧
    (∀ e ∈ (enterPVZ m row).pvzMap, e.2.2 =
      (m.receptionMap.filter (fun x => x.2.Reception.PVZID == e.1)).map (fun x => x.1)) ∧
    (∃ e ∈ (enterPVZ m row).pvzMap, e.1 = row.ID) := by
  have hany := h.pvz_any row.ID
  have hfb := firstBy_append_singleton (fun r : listedPVZRow => some r.ID) pre row
  simp only at hfb
  by_cases hc : m.pvzMap.any (fun e => e.1 == row.ID) = true
  · have hm : enterPVZ m row = m := by simp [enterPVZ, hc]
    rw [hm, hfb, if_pos (by rw [← hany]; exact hc)]
    refine ⟨h.pvzKeys, h.pvzs, rfl, h.owners, h.ptrs, ?_⟩
    obtain ⟨e, he, hid⟩ := List.any_eq_true.mp hc
    exact ⟨e, he, by simpa using hid⟩
  · have hm : enterPVZ m row =
        { m with pvzMap := m.pvzMap ++ [(row.ID, ⟨row.ID, row.RegistrationDate, row.City⟩, [])] } := by
      simp [enterPVZ, hc]
    rw [hm, hfb, if_neg (by rw [← hany]; exact hc)]
    refine ⟨?_, ?_, rfl, ?_, ?_, ?_⟩
    · intro e he
      rcases List.mem_append.mp he with he | he
      · exact h.pvzKeys e he
      · simp at he
        rw [he]
    · simp [h.pvzs, listedPVZRow.pvz]
    · intro x hx
      obtain ⟨e, he, hid⟩ := h.owners x hx
      exact ⟨e, List.mem_append_left _ he, hid⟩
    · intro e he
      rcases List.mem_append.mp he with he | he
      · exact h.ptrs e he
      · simp at he
        rw [he]
        symm
        simp only [List.map_eq_nil_iff, List.filter_eq_nil_iff]
        intro x hx hpv
        obtain ⟨e2, he2, hid⟩ := h.owners x hx
        apply hc
        rw [List.any_eq_true]
        exact ⟨e2, he2, by simpa [hid] using hpv⟩
    · exact ⟨_, List.mem_append_right _ (List.mem_singleton_self _), rfl⟩

theorem appendProduct_fst (rid : UUID) (p : models.Product)
    (x : UUID × models.ReceptionWithProducts) : (appendProduct rid p x).1 = x.1 := by
  unfold appendProduct
  split <;> rfl

theorem appendProduct_reception (rid : UUID) (p : models.Product)
    (x : UUID × models.ReceptionWithProducts) :
    (appendProduct rid p x).2.Reception = x.2.Reception := by
  unfold appendProduct
  split <;> rfl

theorem appendReception_fst (pid rid : UUID) (e : UUID × models.PVZ × List UUID) :
    (appendReception pid rid e).1 = e.1 := by
  unfold appendReception
  split <;> rfl

theorem appendReception_pvz (pid rid : UUID) (e : UUID × models.PVZ × List UUID) :
    (appendReception pid rid e).2.1 = e.2.1 := by
  unfold appendReception
  split <;> rfl

/-- Appending a product changes neither the keys nor the receptions of the maps. -/
theorem listedInv_enterProduct {rows : List listedPVZRow} {m : listedMaps}
    (h : listedInv rows m) (row : listedPVZRow) (rid : UUID) (m2 : listedMaps)
    (hs : enterProduct m row rid = some m2) : listedInv rows m2 := by
  unfold enterProduct at hs
  cases hp : row.ProductID with
  | none =>
    rw [hp] at hs
    simp only [Option.some.injEq] at hs
    rw [← hs]
    exact h
  | some pid =>
    rw [hp] at hs
    simp only at hs
    cases hd : row.ProductDate with
    | none => simp [hd] at hs
    | some date =>
      cases ht : row.ProductType with
      | none => simp [hd, ht] at hs
      | some type =>
        rw [hd, ht] at hs
        simp only [Option.some.injEq] at hs
        rw [← hs]
        have hfst : (fun x => x.1) ∘ appendProduct rid ⟨pid, date, type, rid⟩ =
            fun x => x.1 := by
          funext x
          exact appendProduct_fst _ _ x
        have hrec : (fun x : UUID × models.ReceptionWithProducts => x.2.Reception) ∘
            appendProduct rid ⟨pid, date, type, rid⟩ = fun x => x.2.Reception := by
          funext x
          exact appendProduct_reception _ _ x
        have hfilter : ∀ id : UUID,
            ((m.receptionMap.map (appendProduct rid ⟨pid, date, type, rid⟩)).filter
              (fun x => x.2.Reception.PVZID == id)).map (fun x => x.1) =
            (m.receptionMap.filter (fun x => x.2.Reception.PVZID == id)).map (fun x => x.1) := by
          intro id
          generalize m.receptionMap = l
          induction l with
          | nil => rfl
          | cons a t ih =>
            simp only [List.map_cons, List.filter_cons, appendProduct_reception]
            split
            · simp only [List.map_cons, appendProduct_fst, ih]
            · exact ih
        refine
          { pvzKeys := h.pvzKeys
            pvzs := h.pvzs
            recKeys := ?_
            recs := ?_
            recIds := ?_
            owners := ?_
            ptrs := ?_ }
        · intro x hx
          obtain ⟨x0, hx0, rfl⟩ := List.mem_map.mp hx
          rw [appendProduct_fst, appendProduct_reception]
          exact h.recKeys x0 hx0
        · show (m.receptionMap.map _).map _ = _
          rw [List.map_map, hrec]
          exact h.recs
        · show (m.receptionMap.map _).map _ = _
          rw [List.map_map, hfst]
          exact h.recIds
        · intro x hx
          obtain ⟨x0, hx0, rfl⟩ := List.mem_map.mp hx
          rw [appendProduct_reception]
          exact h.owners x0 hx0
        · intro e he
          show e.2.2 = _
          rw [hfilter e.1]
          exact h.ptrs e he

/-- The loop body of `listedToModel` carries the description of the maps from the
rows consumed so far to these rows and the next one. -/
theorem listedInv_step {pre : List listedPVZRow} {m : listedMaps} (h : listedInv pre m)
    (row : listedPVZRow) (m2 : listedMaps) (hs : listedRow m row = some m2) :
    listedInv (pre ++ [row]) m2 := by
  obtain ⟨k1, k2, k3, k4, k5, k6⟩ := listedInv_enterPVZ h row
  have hfr := firstBy_append_singleton listedPVZRow.ReceptionID pre row
  unfold listedRow at hs
  cases hrid : row.ReceptionID with
  | none =>
    rw [hrid] at hs hfr
    simp only [Option.some.injEq] at hs hfr
    rw [← hs]
    exact
      { pvzKeys := k1
        pvzs := k2
        recKeys := by rw [k3]; exact h.recKeys
        recs := by rw [k3, hfr]; exact h.recs
        recIds := by rw [k3, hfr]; exact h.recIds
        owners := by rw [k3]; exact k4
        ptrs := by rw [k3]; exact k5 }
  | some rid =>
    rw [hrid] at hs hfr
    simp only at hs hfr
    have hany : (enterPVZ m row).receptionMap.any (fun x => x.1 == rid) =
        pre.any (fun r => r.ReceptionID == some rid) := by
      rw [k3]
      exact h.reception_any rid
    by_cases hc : pre.any (fun b => b.ReceptionID == some rid) = true
    · have he : enterReception (enterPVZ m row) row rid = some (enterPVZ m row) := by
        simp [enterReception, hany, hc]
      rw [he] at hs
      simp only at hs
      rw [if_pos hc] at hfr
      have I1 : listedInv (pre ++ [row]) (enterPVZ m row) :=
        { pvzKeys := k1
          pvzs := k2
          recKeys := by rw [k3]; exact h.recKeys
          recs := by rw [k3, hfr]; exact h.recs
          recIds := by rw [k3, hfr]; exact h.recIds
          owners := by rw [k3]; exact k4
          ptrs := by rw [k3]; exact k5 }
      exact listedInv_enterProduct I1 row rid m2 hs
    · rw [if_neg hc] at hfr
      cases hd : row.ReceptionDate with
      | none => simp [enterReception, hany, hc, hd] at hs
      | some date =>
        cases hst : row.ReceptionStatus with
        | none => simp [enterReception, hany, hc, hd, hst] at hs
        | some status =>
          have he : enterReception (enterPVZ m row) row rid =
              some { pvzMap := (enterPVZ m row).pvzMap.map (appendReception row.ID rid)
                     receptionMap := (enterPVZ m row).receptionMap ++
                      [(rid, ⟨⟨rid, date, row.ID, status⟩, some []⟩)] } := by
            simp [enterReception, hany, hc, hd, hst]
          rw [he] at hs
          simp only at hs
          have hrow : row.reception = some ⟨rid, date, row.ID, status⟩ := by
            simp [listedPVZRow.reception, hrid, hd, hst]
          have hpv : (fun e : UUID × models.PVZ × List UUID => e.2.1) ∘
              appendReception row.ID rid = fun e => e.2.1 := by
            funext e
            exact appendReception_pvz _ _ e
          have I2 : listedInv (pre ++ [row])
              { pvzMap := (enterPVZ m row).pvzMap.map (appendReception row.ID rid)
                receptionMap := (enterPVZ m row).receptionMap ++
                  [(rid, ⟨⟨rid, date, row.ID, status⟩, some []⟩)] } := by
            refine
              { pvzKeys := ?_
                pvzs := ?_
                recKeys := ?_
                recs := ?_
                recIds := ?_
                owners := ?_
                ptrs := ?_ }
            · intro e he2
              obtain ⟨e0, he0, rfl⟩ := List.mem_map.mp he2
              rw [appendReception_fst, appendReception_pvz]
              exact k1 e0 he0
            · show ((enterPVZ m row).pvzMap.map _).map _ = _
              rw [List.map_map, hpv]
              exact k2
            · intro x hx
              rcases List.mem_append.mp hx with hx | hx
              · rw [k3] at hx
                exact h.recKeys x hx
              · simp at hx
                rw [hx]
            · show ((enterPVZ m row).receptionMap ++ _).map _ = _
              rw [k3, hfr, List.map_append, List.filterMap_append, h.recs]
              simp [hrow]
            · show ((enterPVZ m row).receptionMap ++ _).map _ = _
              rw [k3, hfr, List.map_append, List.filterMap_append, h.recIds]
              simp [hrid]
            · intro x hx
              rcases List.mem_append.mp hx with hx | hx
              · rw [k3] at hx
                obtain ⟨e, he2, hid⟩ := k4 x hx
                exact ⟨appendReception row.ID rid e, List.mem_map_of_mem _ he2,
                  by rw [appendReception_fst]; exact hid⟩
              · simp at hx
                obtain ⟨e, he2, hid⟩ := k6
                exact ⟨appendReception row.ID rid e, List.mem_map_of_mem _ he2,
                  by rw [appendReception_fst, hx]; exact hid⟩
            · intro e he2
              obtain ⟨e0, he0, rfl⟩ := List.mem_map.mp he2
              have hp := k5 e0 he0
              show (appendReception row.ID rid e0).2.2 =
                (((enterPVZ m row).receptionMap ++ _).filter _).map _
              rw [k3, List.filter_append, List.map_append, appendReception_fst, ← hp]
              unfold appendReception
              by_cases hid : e0.1 = row.ID
              · simp [hid]
              · have hid2 : ¬ row.ID = e0.1 := fun hh => hid hh.symm
                simp [hid, hid2]
          exact listedInv_enterProduct I2 row rid m2 hs

/-- Before any row the maps are empty. -/
theorem listedInv_nil : listedInv [] ⟨[], []⟩ :=
  { pvzKeys := by simp
    pvzs := by simp [firstBy]
    recKeys := by simp
    recs := by simp [firstBy]
    recIds := by simp [firstBy]
    owners := by simp
    ptrs := by simp }

/-- The maps of `listedToModel` after any rows consumed without panic. -/
theorem listedInv_of_foldlM (rows : List listedPVZRow) :
    ∀ m : listedMaps, rows.foldlM listedRow ⟨[], []⟩ = some m → listedInv rows m := by
  induction rows using List.reverseRecOn with
  | nil =>
    intro m hm
    simp only [List.foldlM_nil] at hm
    cases hm
    exact listedInv_nil
  | append_singleton pre row ih =>
    intro m hm
    obtain ⟨m0, h0, hstep⟩ := (foldlM_listedRow_snoc pre row _ m).mp hm
    exact listedInv_step (ih m0 h0) row m hstep

/-- Rows filled by `StructScan` from the listing query never make the loop body
panic. -/
theorem listedRow_isSome (m : listedMaps) (row : listedPVZRow) (h : row.scanned = true) :
    ∃ m2, listedRow m row = some m2 := by
  unfold listedPVZRow.scanned at h
  simp only [Bool.and_eq_true, Bool.or_eq_true] at h
  obtain ⟨hr, hp⟩ := h
  have hprod : ∀ (m1 : listedMaps) (rid : UUID), ∃ m2, enterProduct m1 row rid = some m2 := by
    intro m1 rid
    unfold enterProduct
    cases hpid : row.ProductID with
    | none => exact ⟨_, rfl⟩
    | some pid =>
      rw [hpid] at hp
      simp only [Option.isNone_some, Bool.false_eq_true, false_or] at hp
      obtain ⟨d, hd⟩ := Option.isSome_iff_exists.mp hp.1
      obtain ⟨t, ht⟩ := Option.isSome_iff_exists.mp hp.2
      rw [hd, ht]
      exact ⟨_, rfl⟩
  unfold listedRow
  cases hrid : row.ReceptionID with
  | none => exact ⟨_, rfl⟩
  | some rid =>
    rw [hrid] at hr
    simp only [Option.isNone_some, Bool.false_eq_true, false_or] at hr
    obtain ⟨d, hd⟩ := Option.isSome_iff_exists.mp hr.1
    obtain ⟨t, ht⟩ := Option.isSome_iff_exists.mp hr.2
    have : ∃ m1, enterReception (enterPVZ m row) row rid = some m1 := by
      unfold enterReception
      rw [hd, ht]
      split
      · exact ⟨_, rfl⟩
      · exact ⟨_, rfl⟩
    obtain ⟨m1, hm1⟩ := this
    simp only [hm1]
    exact hprod m1 rid

/-- Over rows filled by `StructScan` the loop of `listedToModel` ends without
panic. -/
theorem foldlM_listedRow_isSome (rows : List listedPVZRow)
    (h : ∀ row ∈ rows, row.scanned = true) :
    ∀ init : listedMaps, ∃ m, rows.foldlM listedRow init = some m := by
  induction rows with
  | nil => intro init; exact ⟨init, rfl⟩
  | cons row t ih =>
    intro init
    obtain ⟨m1, hm1⟩ := listedRow_isSome init row (h row (List.mem_cons_self _ _))
    obtain ⟨m, hm⟩ := ih (fun r hr => h r (List.mem_cons_of_mem _ hr)) m1
    exact ⟨m, by simp [List.foldlM_cons, hm1, hm]⟩

/-! ## The result of `listedToModel` -/

/-- Every arrangement holds the items of the list, each as often as the list. -/
theorem shuffle_perm {α : Type} (choice : Nat → Nat) (l : List α) :
    (shuffle choice l).Perm l := by
  induction l with
  | nil => exact List.Perm.refl _
  | cons a t ih =>
    have hlen : (shuffle choice t).length = t.length := ih.length_eq
    have hle : choice t.length % (t.length + 1) ≤ (shuffle choice t).length := by
      rw [hlen]
      exact Nat.le_of_lt_succ (Nat.mod_lt _ (Nat.succ_pos _))
    exact (List.perm_insertIdx a (shuffle choice t) hle).trans (ih.cons a)

/-- The first row that carries a key is the one found by searching for the key. -/
theorem find?_of_mem_firstBy {α κ : Type} [DecidableEq κ] (key : α → Option κ) (l : List α)
    (a : α) (k : κ) (ha : a ∈ firstBy key l) (hk : key a = some k) :
    l.find? (fun b => key b == some k) = some a := by
  induction l with
  | nil => simp [firstBy] at ha
  | cons b t ih =>
    cases hb : key b with
    | none =>
      rw [firstBy_cons_none key b t hb] at ha
      rw [List.find?_cons_of_neg _ (by simp [hb])]
      exact ih ha
    | some kb =>
      rw [firstBy_cons_some key b t kb hb] at ha
      rcases List.mem_cons.mp ha with rfl | ha
      · rw [List.find?_cons_of_pos _ (by simp [hk])]
      · have hm := List.mem_filter.mp ha
        have hne : ¬ kb = k := by
          intro hc
          have := hm.2
          simp [hk, hc] at this
        rw [List.find?_cons_of_neg _ (by simp [hb, hne])]
        exact ih hm.1

theorem filterMap_filter_key {α κ : Type} [DecidableEq κ] (key : α → Option κ) (k : κ)
    (l : List α) :
    (l.filter (fun b => !(key b == some k))).filterMap key =
      (l.filterMap key).filter (fun c => !(some c == some k)) := by
  induction l with
  | nil => rfl
  | cons a t ih =>
    cases ha : key a with
    | none => simp [List.filter_cons, ha, ih]
    | some c =>
      by_cases hc : c = k
      · simp [List.filter_cons, ha, hc, ih]
      · simp [List.filter_cons, ha, hc, ih]

/-- The keys of the first occurrences are the distinct keys in the order of their
first appearance. -/
theorem firstBy_filterMap_key {α κ : Type} [DecidableEq κ] (key : α → Option κ)
    (l : List α) : (firstBy key l).filterMap key = firstSeen (l.filterMap key) := by
  unfold firstSeen
  induction l with
  | nil => rfl
  | cons a t ih =>
    cases ha : key a with
    | none => rw [firstBy_cons_none key a t ha, List.filterMap_cons_none ha, ih]
    | some k =>
      rw [firstBy_cons_some key a t k ha, List.filterMap_cons_some ha,
        List.filterMap_cons_some ha, firstBy_cons_some some k _ k rfl,
        filterMap_filter_key, ih]

/-- Searching a list without repeated keys for the key of one of its entries finds
that entry. -/
theorem find?_of_nodup_keys {β : Type} (l : List (UUID × β))
    (hnd : (l.map (fun x => x.1)).Nodup) (x : UUID × β) (hx : x ∈ l) :
    l.find? (fun e => e.1 == x.1) = some x := by
  induction l with
  | nil => simp at hx
  | cons b t ih =>
    rw [List.map_cons, List.nodup_cons] at hnd
    rcases List.mem_cons.mp hx with rfl | hx
    · simp
    · have hne : ¬ b.1 = x.1 := by
        intro hc
        exact hnd.1 (by rw [hc]; exact List.mem_map_of_mem _ hx)
      rw [List.find?_cons_of_neg _ (by simpa using hne)]
      exact ih hnd.2 hx

/-- No reception id is entered twice in `receptionMap`. -/
theorem listedInv.reception_keys_nodup {rows : List listedPVZRow} {m : listedMaps}
    (h : listedInv rows m) : (m.receptionMap.map (fun x => x.1)).Nodup := by
  rw [h.recIds]
  refine (firstBy_keys_pairwise listedPVZRow.ReceptionID rows).filterMap _ ?_
  intro a b hab c hc d hd hcd
  apply hab
  rw [Option.mem_def] at hc hd
  rw [hc, hd, hcd]

/-- No pickup-point id is entered twice in `pvzMap`. -/
theorem listedInv.pvz_ids_nodup {rows : List listedPVZRow} {m : listedMaps}
    (h : listedInv rows m) : (m.pvzMap.map (fun e => e.2.1.ID)).Nodup := by
  have h1 : m.pvzMap.map (fun e => e.2.1.ID) =
      (m.pvzMap.map (fun e => e.2.1)).map models.PVZ.ID := by
    rw [List.map_map]
    rfl
  rw [h1, h.pvzs, List.map_map]
  refine (firstBy_keys_pairwise (fun r : listedPVZRow => some r.ID) rows).map _ ?_
  intro a b hab hc
  apply hab
  simp only [Function.comp, listedPVZRow.pvz] at hc
  rw [hc]

/-- The receptions that the result shows under a pickup point: the entries of
`receptionMap` owned by it, in the order of entry. -/
theorem listedInv.assemble_eq {rows : List listedPVZRow} {m : listedMaps}
    (h : listedInv rows m) (e : UUID × models.PVZ × List UUID) (he : e ∈ m.pvzMap) :
    assemble m e =
      ⟨e.2.1, some ((m.receptionMap.filter (fun x => x.2.Reception.PVZID == e.2.1.ID)).map
        (fun x => x.2))⟩ := by
  unfold assemble
  rw [h.ptrs e he, ← h.pvzKeys e he, List.filterMap_map]
  congr 2
  have hc : ∀ x ∈ m.receptionMap.filter (fun x => x.2.Reception.PVZID == e.1),
      (deref m ∘ fun x => x.1) x = (some ∘ fun x => x.2) x := by
    intro x hx
    have hxm := (List.mem_filter.mp hx).1
    simp only [Function.comp, deref]
    rw [find?_of_nodup_keys m.receptionMap h.reception_keys_nodup x hxm]
    rfl
  rw [List.filterMap_congr hc, List.filterMap_eq_map]

/-- The result of `listedToModel` over rows filled by `StructScan`: an arrangement
of the assembled entries of `pvzMap`. -/
theorem listedToModel_eq (mapOrder : Nat → Nat) (rows : List listedPVZRow)
    (hscan : ∀ row ∈ rows, row.scanned = true) :
    ∃ m, listedInv rows m ∧
      listedToModel mapOrder rows = some ((shuffle mapOrder m.pvzMap).map (assemble m)) := by
  obtain ⟨m, hm⟩ := foldlM_listedRow_isSome rows hscan ⟨[], []⟩
  exact ⟨m, listedInv_of_foldlM rows m hm, by simp [listedToModel, hm]⟩

theorem some_beq_some_fun (id : UUID) :
    (fun r : listedPVZRow => some r.ID == some id) = fun r => r.ID == id := by
  funext r
  by_cases h : r.ID = id <;> simp [h]

/-- Claim C12: over any rows filled by `StructScan`, `listedToModel` returns a
result in which no pickup-point id occurs twice, an id occurs exactly when it
occurs in the rows, every entry carries the id, registration date and city of the
first row with its id, and the number of entries is the number of distinct
pickup-point ids of the rows. -/
theorem C12_one_entry_per_pickup_point (mapOrder : Nat → Nat) (rows : List listedPVZRow)
    (hscan : ∀ row ∈ rows, row.scanned = true) :
    ∃ result, listedToModel mapOrder rows = some result ∧
      (result.map (fun e => e.PVZ.ID)).Nodup ∧
      (∀ id, id ∈ result.map (fun e => e.PVZ.ID) ↔ id ∈ rows.map listedPVZRow.ID) ∧
      (∀ e ∈ result, ∃ row, rows.find? (fun r => r.ID == e.PVZ.ID) = some row ∧
        e.PVZ = ⟨row.ID, row.RegistrationDate, row.City⟩) ∧
      result.length = (rows.map listedPVZRow.ID).toFinset.card := by
  obtain ⟨m, inv, hres⟩ := listedToModel_eq mapOrder rows hscan
  refine ⟨_, hres, ?_⟩
  have hids : ((shuffle mapOrder m.pvzMap).map (assemble m)).map (fun e => e.PVZ.ID) =
      (shuffle mapOrder m.pvzMap).map (fun e => e.2.1.ID) := by
    rw [List.map_map]
    rfl
  have hperm : ((shuffle mapOrder m.pvzMap).map (fun e => e.2.1.ID)).Perm
      (m.pvzMap.map (fun e => e.2.1.ID)) := (shuffle_perm mapOrder m.pvzMap).map _
  have hkeys : m.pvzMap.map (fun e => e.2.1.ID) =
      (firstBy (fun r : listedPVZRow => some r.ID) rows).map listedPVZRow.ID := by
    have h1 : m.pvzMap.map (fun e => e.2.1.ID) =
        (m.pvzMap.map (fun e => e.2.1)).map models.PVZ.ID := by
      rw [List.map_map]
      rfl
    rw [h1, inv.pvzs, List.map_map]
    rfl
  have hmem : ∀ id, id ∈ m.pvzMap.map (fun e => e.2.1.ID) ↔ id ∈ rows.map listedPVZRow.ID := by
    intro id
    rw [hkeys, List.mem_map, List.mem_map]
    constructor
    · rintro ⟨a, ha, hid⟩
      exact ⟨a, mem_of_mem_firstBy _ _ _ ha, hid⟩
    · rintro ⟨a, ha, hid⟩
      obtain ⟨b, hb, hk⟩ := (exists_mem_firstBy_iff (fun r : listedPVZRow => some r.ID)
        rows id).mpr ⟨a, ha, by rw [hid]⟩
      exact ⟨b, hb, by simpa using hk⟩
  refine ⟨?_, ?_, ?_, ?_⟩
  · rw [hids, hperm.nodup_iff]
    exact inv.pvz_ids_nodup
  · intro id
    rw [hids, hperm.mem_iff]
    exact hmem id
  · intro e he
    obtain ⟨e0, he0, rfl⟩ := List.mem_map.mp he
    have he1 : e0 ∈ m.pvzMap := (shuffle_perm mapOrder m.pvzMap).mem_iff.mp he0
    have hpv : e0.2.1 ∈ m.pvzMap.map (fun e => e.2.1) := List.mem_map_of_mem _ he1
    rw [inv.pvzs] at hpv
    obtain ⟨row, hrow, hre⟩ := List.mem_map.mp hpv
    refine ⟨row, ?_, ?_⟩
    · have hf := find?_of_mem_firstBy (fun r : listedPVZRow => some r.ID) rows row row.ID
        hrow rfl
      rw [some_beq_some_fun] at hf
      have hid : (assemble m e0).PVZ.ID = row.ID := by
        show e0.2.1.ID = row.ID
        rw [← hre]
        rfl
      rw [hid]
      exact hf
    · show e0.2.1 = _
      rw [← hre]
      rfl
  · rw [List.length_map, (shuffle_perm mapOrder m.pvzMap).length_eq,
      ← List.length_map m.pvzMap (fun e => e.2.1.ID),
      ← List.toFinset_card_of_nodup inv.pvz_ids_nodup]
    congr 1
    ext id
    rw [List.mem_toFinset, List.mem_toFinset]
    exact hmem id

/-- Witness of C12 on the sample rows: two entries for the two pickup points. -/
theorem C12_one_entry_per_pickup_point_witness :
    (∀ row ∈ sampleListedRows, row.scanned = true) ∧
    (∃ result, listedToModel (fun _ => 1) sampleListedRows = some result ∧
      (result.map (fun e => e.PVZ.ID)).Nodup ∧
      result.length = (sampleListedRows.map listedPVZRow.ID).toFinset.card) :=
  ⟨by decide,
    (C12_one_entry_per_pickup_point (fun _ => 1) sampleListedRows (by decide)).imp
      (fun _ h => ⟨h.1, h.2.1, h.2.2.2.2⟩)⟩

/-! ## The receptions under a listed pickup point -/

theorem reception_PVZID (a : listedPVZRow) (r : models.Reception)
    (h : a.reception = some r) : r.PVZID = a.ID ∧ a.ReceptionID = some r.ID ∧
      a.ReceptionDate = some r.DateTime := by
  unfold listedPVZRow.reception at h
  cases h1 : a.ReceptionID with
  | none => simp [h1] at h
  | some rid =>
    cases h2 : a.ReceptionDate with
    | none => simp [h1, h2] at h
    | some d =>
      cases h3 : a.ReceptionStatus with
      | none => simp [h1, h2, h3] at h
      | some st =>
        simp only [h1, h2, h3, Option.some.injEq] at h
        rw [← h]
        exact ⟨rfl, rfl, rfl⟩

theorem filterMap_reception_filter (pid : UUID) (l : List listedPVZRow) :
    (l.filterMap listedPVZRow.reception).filter (fun r => r.PVZID == pid) =
      (l.filter (fun a => a.ID == pid)).filterMap listedPVZRow.reception := by
  induction l with
  | nil => rfl
  | cons a t ih =>
    cases ha : a.reception with
    | none =>
      by_cases hp : a.ID = pid
      · simp [List.filter_cons, hp, ha, ← ih]
      · simp [List.filter_cons, hp, ha, ← ih]
    | some r =>
      have hr := (reception_PVZID a r ha).1
      by_cases hp : a.ID = pid
      · simp [List.filter_cons, hp, ha, hr, ← ih]
      · simp [List.filter_cons, hp, ha, hr, ← ih]

/-- A scanned row with a reception id yields a reception with that id and the
row's reception date. -/
theorem reception_of_scanned (a : listedPVZRow) (h : a.scanned = true)
    (hs : a.ReceptionID.isSome = true) :
    (a.reception.map fun r => r.ID) = a.ReceptionID ∧
    (a.reception.map fun r => r.DateTime) = a.ReceptionDate := by
  unfold listedPVZRow.scanned at h
  simp only [Bool.and_eq_true, Bool.or_eq_true] at h
  obtain ⟨rid, hrid⟩ := Option.isSome_iff_exists.mp hs
  have h1 := h.1
  rw [hrid] at h1
  simp only [Option.isNone_some, Bool.false_eq_true, false_or] at h1
  obtain ⟨d, hd⟩ := Option.isSome_iff_exists.mp h1.1
  obtain ⟨st, hst⟩ := Option.isSome_iff_exists.mp h1.2
  simp [listedPVZRow.reception, hrid, hd, hst]

theorem firstBy_filterMap_key_nodup {α κ : Type} [DecidableEq κ] (key : α → Option κ)
    (l : List α) : ((firstBy key l).filterMap key).Nodup := by
  refine (firstBy_keys_pairwise key l).filterMap _ ?_
  intro a b hab c hc d hd hcd
  apply hab
  rw [Option.mem_def] at hc hd
  rw [hc, hd, hcd]

/-- The receptions shown under a pickup point of the result, when every reception
id of the rows stands under one pickup-point id: the receptions of the first
occurrences among the rows of that pickup point. -/
theorem listedInv.receptions_of {rows : List listedPVZRow} {m : listedMaps}
    (h : listedInv rows m)
    (hown : ∀ a ∈ rows, ∀ b ∈ rows, a.ReceptionID = b.ReceptionID →
      a.ReceptionID ≠ none → a.ID = b.ID) (pid : UUID) :
    ((m.receptionMap.filter (fun x => x.2.Reception.PVZID == pid)).map
        (fun x => x.2)).map (fun rc => rc.Reception) =
      (firstBy listedPVZRow.ReceptionID (rows.filter (fun r => r.ID == pid))).filterMap
        listedPVZRow.reception := by
  have h1 : ((m.receptionMap.filter (fun x => x.2.Reception.PVZID == pid)).map
      (fun x => x.2)).map (fun rc => rc.Reception) =
      (m.receptionMap.map (fun x => x.2.Reception)).filter (fun r => r.PVZID == pid) := by
    rw [List.map_map, List.filter_map]
    rfl
  rw [h1, h.recs, filterMap_reception_filter, firstBy_filter]
  intro a ha b hb hab hne
  rw [hown a ha b hb hab hne]

/-- Claim C13: over rows filled by `StructScan` in which every reception id stands
under one pickup-point id, `listedToModel` returns a result that has, for every
pickup point of the rows, exactly one entry (an entry for every row, no id
twice); each entry has a non-nil reception list; its reception ids are the
distinct non-null reception ids of the rows of that pickup point, each once, in
the order of first appearance; when the reception dates of those rows descend, so
do the dates of the list; and the list is empty and non-nil when all rows of the
pickup point have a null reception. -/
theorem C13_receptions_first_seen (mapOrder : Nat → Nat) (rows : List listedPVZRow)
    (hscan : ∀ row ∈ rows, row.scanned = true)
    (hown : ∀ a ∈ rows, ∀ b ∈ rows, a.ReceptionID = b.ReceptionID →
      a.ReceptionID ≠ none → a.ID = b.ID) :
    ∃ result, listedToModel mapOrder rows = some result ∧
      (∀ row ∈ rows, ∃ e ∈ result, e.PVZ.ID = row.ID) ∧
      (result.map (fun e => e.PVZ.ID)).Nodup ∧
      ∀ e ∈ result, ∃ l, e.Receptions = some l ∧
        l.map (fun rc => rc.Reception.ID) =
          firstSeen ((rows.filter (fun r => r.ID == e.PVZ.ID)).filterMap
            listedPVZRow.ReceptionID) ∧
        (l.map (fun rc => rc.Reception.ID)).Nodup ∧
        (∀ rid, rid ∈ l.map (fun rc => rc.Reception.ID) ↔
          ∃ row ∈ rows, row.ID = e.PVZ.ID ∧ row.ReceptionID = some rid) ∧
        (((rows.filter (fun r => r.ID == e.PVZ.ID)).filterMap
            listedPVZRow.ReceptionDate).Pairwise (fun x y => y ≤ x) →
          (l.map (fun rc => rc.Reception.DateTime)).Pairwise (fun x y => y ≤ x)) ∧
        ((∀ row ∈ rows, row.ID = e.PVZ.ID → row.ReceptionID = none) →
          e.Receptions = some []) := by
  obtain ⟨m, inv, hres⟩ := listedToModel_eq mapOrder rows hscan
  have hidsR : ((shuffle mapOrder m.pvzMap).map (assemble m)).map (fun e => e.PVZ.ID) =
      (shuffle mapOrder m.pvzMap).map (fun e => e.2.1.ID) := by
    rw [List.map_map]
    rfl
  have hpermR : ((shuffle mapOrder m.pvzMap).map (fun e => e.2.1.ID)).Perm
      (m.pvzMap.map (fun e => e.2.1.ID)) := (shuffle_perm mapOrder m.pvzMap).map _
  refine ⟨_, hres, ?_, ?_, ?_⟩
  · intro row hrow
    obtain ⟨b, hb, hk⟩ := (exists_mem_firstBy_iff (fun r : listedPVZRow => some r.ID)
      rows row.ID).mpr ⟨row, hrow, rfl⟩
    have h1 : b.pvz ∈ m.pvzMap.map (fun e => e.2.1) := by
      rw [inv.pvzs]
      exact List.mem_map_of_mem _ hb
    obtain ⟨e0, he0, he0b⟩ := List.mem_map.mp h1
    refine ⟨assemble m e0, List.mem_map_of_mem _
      ((shuffle_perm mapOrder m.pvzMap).mem_iff.mpr he0), ?_⟩
    have h2 : (assemble m e0).PVZ = b.pvz := he0b
    rw [h2]
    simpa [listedPVZRow.pvz] using hk
  · rw [hidsR, hpermR.nodup_iff]
    exact inv.pvz_ids_nodup
  intro e he
  obtain ⟨e0, he0, rfl⟩ := List.mem_map.mp he
  have he1 : e0 ∈ m.pvzMap := (shuffle_perm mapOrder m.pvzMap).mem_iff.mp he0
  rw [inv.assemble_eq e0 he1]
  have hrec := inv.receptions_of hown e0.2.1.ID
  have hmemF : ∀ a ∈ firstBy listedPVZRow.ReceptionID
      (rows.filter (fun r => r.ID == e0.2.1.ID)),
      a.scanned = true ∧ a.ReceptionID.isSome = true := by
    intro a ha
    have h1 := mem_of_mem_firstBy _ _ _ ha
    exact ⟨hscan a (List.mem_filter.mp h1).1, key_isSome_of_mem_firstBy _ _ _ ha⟩
  have hids : ((m.receptionMap.filter (fun x => x.2.Reception.PVZID == e0.2.1.ID)).map
      (fun x => x.2)).map (fun rc => rc.Reception.ID) =
      (firstBy listedPVZRow.ReceptionID (rows.filter (fun r => r.ID == e0.2.1.ID))).filterMap
        listedPVZRow.ReceptionID := by
    have h1 : ((m.receptionMap.filter (fun x => x.2.Reception.PVZID == e0.2.1.ID)).map
        (fun x => x.2)).map (fun rc => rc.Reception.ID) =
        (((m.receptionMap.filter (fun x => x.2.Reception.PVZID == e0.2.1.ID)).map
          (fun x => x.2)).map (fun rc => rc.Reception)).map (fun r => r.ID) := by
      simp only [List.map_map]
      rfl
    rw [h1, hrec, List.map_filterMap]
    apply List.filterMap_congr
    intro a ha
    exact (reception_of_scanned a (hmemF a ha).1 (hmemF a ha).2).1
  have hdates : ((m.receptionMap.filter (fun x => x.2.Reception.PVZID == e0.2.1.ID)).map
      (fun x => x.2)).map (fun rc => rc.Reception.DateTime) =
      (firstBy listedPVZRow.ReceptionID (rows.filter (fun r => r.ID == e0.2.1.ID))).filterMap
        listedPVZRow.ReceptionDate := by
    have h1 : ((m.receptionMap.filter (fun x => x.2.Reception.PVZID == e0.2.1.ID)).map
        (fun x => x.2)).map (fun rc => rc.Reception.DateTime) =
        (((m.receptionMap.filter (fun x => x.2.Reception.PVZID == e0.2.1.ID)).map
          (fun x => x.2)).map (fun rc => rc.Reception)).map (fun r => r.DateTime) := by
      simp only [List.map_map]
      rfl
    rw [h1, hrec, List.map_filterMap]
    apply List.filterMap_congr
    intro a ha
    exact (reception_of_scanned a (hmemF a ha).1 (hmemF a ha).2).2
  refine ⟨_, rfl, ?_, ?_, ?_, ?_, ?_⟩
  · rw [hids, firstBy_filterMap_key]
  · rw [hids]
    exact firstBy_filterMap_key_nodup _ _
  · intro rid
    rw [hids, List.mem_filterMap]
    constructor
    · rintro ⟨a, ha, hk⟩
      have h1 := List.mem_filter.mp (mem_of_mem_firstBy _ _ _ ha)
      exact ⟨a, h1.1, by simpa using h1.2, hk⟩
    · rintro ⟨row, hrow, hid, hk⟩
      exact (exists_mem_firstBy_iff listedPVZRow.ReceptionID _ rid).mpr
        ⟨row, List.mem_filter.mpr ⟨hrow, by simpa using hid⟩, hk⟩
  · intro hp
    rw [hdates]
    exact hp.sublist ((firstBy_sublist _ _).filterMap _)
  · intro hnone
    have hnil : (rows.filter (fun r => r.ID == e0.2.1.ID)).filterMap
        listedPVZRow.ReceptionID = [] := by
      rw [List.filterMap_eq_nil_iff]
      intro a ha
      have h1 := List.mem_filter.mp ha
      exact hnone a h1.1 (by simpa using h1.2)
    have h2 := hids
    rw [firstBy_filterMap_key, hnil] at h2
    have h3 : ((m.receptionMap.filter (fun x => x.2.Reception.PVZID == e0.2.1.ID)).map
        (fun x => x.2)) = [] := by
      apply List.map_eq_nil_iff.mp
      rw [h2]
      rfl
    rw [h3]

/-- Witness of C13 on the sample rows: pickup point 1 lists its receptions 11 and
10 in this order, pickup point 2 an empty, non-nil list. -/
theorem C13_receptions_first_seen_witness :
    (∀ row ∈ sampleListedRows, row.scanned = true) ∧
    (∀ a ∈ sampleListedRows, ∀ b ∈ sampleListedRows, a.ReceptionID = b.ReceptionID →
      a.ReceptionID ≠ none → a.ID = b.ID) ∧
    (∃ result, listedToModel (fun _ => 1) sampleListedRows = some result ∧
      (∀ row ∈ sampleListedRows, ∃ e ∈ result, e.PVZ.ID = row.ID) ∧
      (result.map (fun e => e.PVZ.ID)).Nodup ∧
      ∀ e ∈ result, ∃ l, e.Receptions = some l ∧
        l.map (fun rc => rc.Reception.ID) =
          firstSeen ((sampleListedRows.filter (fun r => r.ID == e.PVZ.ID)).filterMap
            listedPVZRow.ReceptionID)) ∧
    (listedToModel (fun _ => 1) sampleListedRows).map (fun result => result.map (fun e =>
      (e.PVZ.ID, e.Receptions.map (fun l => l.map (fun rc => rc.Reception))))) =
      some [(1, some [⟨11, 8, 1, "in_progress"⟩, ⟨10, 5, 1, "close"⟩]), (2, some [])] :=
  ⟨by decide, by decide,
    (C13_receptions_first_seen (fun _ => 1) sampleListedRows (by decide) (by decide)).imp
      (fun _ h => ⟨h.1, h.2.1, h.2.2.1,
        fun e he => (h.2.2.2 e he).imp (fun _ hl => ⟨hl.1, hl.2.1⟩)⟩),
    by decide⟩

/-! ## The rows of the listing query -/

/-- The rows of an `ORDER BY` are the rows it was given. -/
theorem mem_orderByDesc {α : Type} (before : α → α → Bool) (ties : Nat → Nat)
    (rows : List α) (a : α) : a ∈ orderByDesc before ties rows ↔ a ∈ rows := by
  unfold orderByDesc
  rw [(List.perm_insertionSort _ _).mem_iff, (shuffle_perm ties rows).mem_iff]

/-- A result row of the query is filled as `StructScan` fills it. -/
theorem selectColumns_scanned (p : pvzRow) (r : Option receptionRow)
    (pr : Option productRow) : (selectColumns p r pr).scanned = true := by
  cases r <;> cases pr <;> rfl

/-- Where a row of the joins comes from: a stored pickup point of the page, a
stored reception of that pickup point or none, and a product or none; with a date
bound the reception is there and meets the date condition. -/
theorem mem_joinedRows (s : Store) (page : List UUID) (startDate endDate : Option Time)
    (row : listedPVZRow) (h : row ∈ joinedRows s page startDate endDate) :
    ∃ p ∈ s.pvzs, ∃ r pr, row = selectColumns p r pr ∧ p.ID ∈ page ∧
      (∀ r0, r = some r0 → r0 ∈ s.receptions ∧ r0.PVZID = p.ID) ∧
      ((startDate.isSome || endDate.isSome) = true →
        r.isSome = true ∧ dateCondition startDate endDate row = true) := by
  unfold joinedRows at h
  simp only [] at h
  have key : ∀ dated : Bool, row ∈ (page.flatMap fun id =>
      (s.pvzs.filter (fun p => p.ID == id)).flatMap fun p =>
        ((if dated then innerJoin (s.receptions.filter (fun r => r.PVZID == p.ID))
          else leftJoin (s.receptions.filter (fun r => r.PVZID == p.ID))).flatMap fun r =>
          match r with
          | none => [selectColumns p none none]
          | some r =>
            (leftJoin (s.products.filter (fun pr => pr.ReceptionID == r.ID))).map
              (fun pr => selectColumns p (some r) pr))) →
      ∃ p ∈ s.pvzs, ∃ r pr, row = selectColumns p r pr ∧ p.ID ∈ page ∧
        (∀ r0, r = some r0 → r0 ∈ s.receptions ∧ r0.PVZID = p.ID) ∧
        (dated = true → r.isSome = true) := by
    intro dated hrow
    obtain ⟨id, hid, hrow⟩ := List.mem_flatMap.mp hrow
    obtain ⟨p, hp, hrow⟩ := List.mem_flatMap.mp hrow
    obtain ⟨r, hr, hrow⟩ := List.mem_flatMap.mp hrow
    have hp2 := List.mem_filter.mp hp
    have hpid : p.ID = id := by simpa using hp2.2
    refine ⟨p, hp2.1, ?_⟩
    cases r with
    | none =>
      simp only [List.mem_singleton] at hrow
      refine ⟨none, none, hrow, hpid ▸ hid, by simp, ?_⟩
      intro hd
      rw [hd] at hr
      simp [innerJoin] at hr
    | some r0 =>
      obtain ⟨pr, _, hrow⟩ := List.mem_map.mp hrow
      refine ⟨some r0, pr, hrow.symm, hpid ▸ hid, ?_, by simp⟩
      intro r1 h1
      cases h1
      have hmem : r0 ∈ s.receptions.filter (fun r => r.PVZID == p.ID) := by
        cases dated with
        | true => simpa [innerJoin] using hr
        | false =>
          simp only [leftJoin, Bool.false_eq_true, if_false] at hr
          split at hr
          · simp at hr
          · simpa using hr
      have h2 := List.mem_filter.mp hmem
      exact ⟨h2.1, by simpa using h2.2⟩
  cases hd : (startDate.isSome || endDate.isSome) with
  | false =>
    rw [hd] at h
    obtain ⟨p, hp, r, pr, h1, h2, h3, _⟩ := key false (by simpa using h)
    exact ⟨p, hp, r, pr, h1, h2, h3, by simp⟩
  | true =>
    rw [hd] at h
    simp only [if_true] at h
    have h0 := List.mem_filter.mp h
    obtain ⟨p, hp, r, pr, h1, h2, h3, h4⟩ := key true h0.1
    exact ⟨p, hp, r, pr, h1, h2, h3, fun _ => ⟨h4 rfl, h0.2⟩⟩

/-- The date condition of the query says that the reception date of the row lies
within the bounds. -/
theorem inRange_of_dateCondition (startDate endDate : Option Time) (row : listedPVZRow)
    (d : Time) (hd : row.ReceptionDate = some d)
    (h : dateCondition startDate endDate row = true) : inRange startDate endDate d := by
  unfold dateCondition at h
  rw [hd] at h
  simp only [Bool.and_eq_true] at h
  constructor
  · intro a ha
    have h1 := h.1
    rw [ha] at h1
    simpa using h1
  · intro b hb
    have h2 := h.2
    rw [hb] at h2
    simpa using h2

/-- Where the entries of a result of `listedToModel` come from: the pickup point
of an entry is built from one of the rows, its `Receptions` are not nil, and each
of its receptions is built from one of the rows. -/
theorem listedToModel_mem (mapOrder : Nat → Nat) (rows : List listedPVZRow)
    (result : List models.PVZWithReceptions)
    (h : listedToModel mapOrder rows = some result) (e : models.PVZWithReceptions)
    (he : e ∈ result) :
    (∃ row ∈ rows, row.pvz = e.PVZ) ∧
    ∃ l, e.Receptions = some l ∧
      ∀ rc ∈ l, ∃ row ∈ rows, row.reception = some rc.Reception := by
  unfold listedToModel at h
  cases hm : rows.foldlM listedRow ⟨[], []⟩ with
  | none => rw [hm] at h; cases h
  | some m =>
    rw [hm] at h
    simp only [Option.some.injEq] at h
    subst h
    have inv := listedInv_of_foldlM rows m hm
    obtain ⟨e0, he0, rfl⟩ := List.mem_map.mp he
    have he1 : e0 ∈ m.pvzMap := (shuffle_perm mapOrder m.pvzMap).mem_iff.mp he0
    constructor
    · have h1 : e0.2.1 ∈ m.pvzMap.map (fun e => e.2.1) := List.mem_map_of_mem _ he1
      rw [inv.pvzs] at h1
      obtain ⟨row, hrow, hpvz⟩ := List.mem_map.mp h1
      exact ⟨row, mem_of_mem_firstBy _ _ _ hrow, hpvz⟩
    · refine ⟨_, rfl, ?_⟩
      intro rc hrc
      obtain ⟨rid, _, hderef⟩ := List.mem_filterMap.mp hrc
      unfold deref at hderef
      cases hf : m.receptionMap.find? (fun e => e.1 == rid) with
      | none => rw [hf] at hderef; cases hderef
      | some x =>
        rw [hf] at hderef
        simp only [Option.map_some', Option.some.injEq] at hderef
        subst hderef
        have hx := List.mem_of_find?_eq_some hf
        have h1 : x.2.Reception ∈ m.receptionMap.map (fun x => x.2.Reception) :=
          List.mem_map_of_mem _ hx
        rw [inv.recs] at h1
        obtain ⟨row, hrow, hrec⟩ := List.mem_filterMap.mp h1
        exact ⟨row, mem_of_mem_firstBy _ _ _ hrow, hrec⟩

/-- Every row of the listing query is filled as `StructScan` fills it. -/
theorem listQuery_scanned (ties ties2 : Nat → Nat) (s : Store) (limit offset : Nat)
    (startDate endDate : Option Time) :
    ∀ row ∈ listQuery ties ties2 s limit offset startDate endDate, row.scanned = true := by
  intro row hrow
  obtain ⟨p, _, r, pr, h1, _⟩ := mem_joinedRows s _ startDate endDate row
    ((mem_orderByDesc _ _ _ row).mp hrow)
  rw [h1]
  exact selectColumns_scanned p r pr

/-- With a date bound, every row of the listing query joins a stored pickup point
with a stored reception of it whose date lies within the bounds. -/
theorem listQuery_dated (ties ties2 : Nat → Nat) (s : Store) (limit offset : Nat)
    (startDate endDate : Option Time)
    (hdate : (startDate.isSome || endDate.isSome) = true) (row : listedPVZRow)
    (hrow : row ∈ listQuery ties ties2 s limit offset startDate endDate) :
    ∃ p ∈ s.pvzs, ∃ r ∈ s.receptions, ∃ pr, row = selectColumns p (some r) pr ∧
      r.PVZID = p.ID ∧ inRange startDate endDate r.DateTime := by
  obtain ⟨p, hp, r, pr, h1, _, h3, h4⟩ := mem_joinedRows s _ startDate endDate row
    ((mem_orderByDesc _ _ _ row).mp hrow)
  obtain ⟨hsome, hcond⟩ := h4 hdate
  obtain ⟨r0, rfl⟩ := Option.isSome_iff_exists.mp hsome
  refine ⟨p, hp, r0, (h3 r0 rfl).1, pr, h1, (h3 r0 rfl).2, ?_⟩
  exact inRange_of_dateCondition startDate endDate row r0.DateTime (by rw [h1]; rfl) hcond

/-- With `id` a key of `receptions`, the rows of the listing query show every
reception under one pickup point only: the join is on `r.pvz_id`. -/
theorem listQuery_one_owner (ties ties2 : Nat → Nat) (s : Store) (limit offset : Nat)
    (startDate endDate : Option Time) (hk : s.keysUnique) :
    ∀ a ∈ listQuery ties ties2 s limit offset startDate endDate,
    ∀ b ∈ listQuery ties ties2 s limit offset startDate endDate,
      a.ReceptionID = b.ReceptionID → a.ReceptionID ≠ none → a.ID = b.ID := by
  intro a ha b hb hab hne
  obtain ⟨p, _, r, pr, h1, _, h3, _⟩ := mem_joinedRows s _ startDate endDate a
    ((mem_orderByDesc _ _ _ a).mp ha)
  obtain ⟨q, _, r2, pr2, h4, _, h6, _⟩ := mem_joinedRows s _ startDate endDate b
    ((mem_orderByDesc _ _ _ b).mp hb)
  subst h1 h4
  cases r with
  | none => exact absurd rfl hne
  | some r0 =>
    cases r2 with
    | none => simp [selectColumns] at hab
    | some r1 =>
      have hid : r0.ID = r1.ID := by simpa [selectColumns] using hab
      have heq : r0 = r1 :=
        List.inj_on_of_nodup_map hk.2.1 (h3 r0 rfl).1 (h6 r1 rfl).1 hid
      show p.ID = q.ID
      rw [← (h3 r0 rfl).2, ← (h6 r1 rfl).2, heq]

/-- The rows that `List` hands to `listedToModel` are rows of the query. -/
theorem mem_rawRows {α : Type} (c : Bool) (n : Nat) (rows : List α) (a : α)
    (h : a ∈ (if c = true then rows.take n else rows)) : a ∈ rows := by
  cases c with
  | false => simpa using h
  | true => exact List.mem_of_mem_take (by simpa using h)

/-- The machine keeps a value of the range of `int` as it is. -/
theorem wrapInt64_of_range (x : Int) (h0 : 0 ≤ x) (h1 : x < 2 ^ 63) : wrapInt64 x = x := by
  unfold wrapInt64
  omega

/-- Claim C14: with at least one date bound in the filter, every result that `List`
returns, whatever the run, the row orders and the map order, holds only receptions
that are stored with a date within the bounds, and only pickup points that have a
stored reception with a date within the bounds; and with a working connection, a
filter that passes `Valid` and an offset within the range of `int`, `List` does
return a result. -/
theorem C14_date_filter_bounds (run : DbRun) (ties ties2 mapOrder : Nat → Nat) (s : Store)
    (filter : models.PVZFilter) (now : Time)
    (hdate : filter.StartDate ≠ none ∨ filter.EndDate ≠ none) :
    (∀ result,
      (postgresqlPVZRepository.List run ties ties2 mapOrder s filter).1.1 = some result →
      ∀ e ∈ result,
        (∃ r ∈ s.receptions, r.PVZID = e.PVZ.ID ∧
          inRange filter.StartDate filter.EndDate r.DateTime) ∧
        ∃ l, e.Receptions = some l ∧ ∀ rc ∈ l,
          inRange filter.StartDate filter.EndDate rc.Reception.DateTime ∧
          ∃ r ∈ s.receptions, r.ID = rc.Reception.ID ∧
            r.DateTime = rc.Reception.DateTime ∧ r.PVZID = rc.Reception.PVZID) ∧
    (run.ok → filter.Valid now = none → (filter.Page - 1) * filter.PageSize < 2 ^ 63 →
      ∃ result, (postgresqlPVZRepository.List run ties ties2 mapOrder s filter).1 =
        (some result, none)) := by
  have hd : (filter.StartDate.isSome || filter.EndDate.isSome) = true := by
    rcases hdate with h | h
    · simp [Option.isSome_iff_ne_none.mpr h]
    · simp [Option.isSome_iff_ne_none.mpr h]
  constructor
  · intro result hres e he
    unfold postgresqlPVZRepository.List at hres
    simp only [] at hres
    split at hres
    · cases hres
    split at hres
    · cases hres
    split at hres
    · cases hres
    split at hres
    · cases hres
    rename_i result0 hmodel
    simp only [Option.some.injEq] at hres
    subst hres
    obtain ⟨⟨row, hrow, hpvz⟩, l, hl, hrecs⟩ := listedToModel_mem mapOrder _ _ hmodel e he
    refine ⟨?_, l, hl, ?_⟩
    · obtain ⟨p, _, r, hr, pr, h1, h2, h3⟩ := listQuery_dated ties ties2 s _ _ _ _ hd row
        (mem_rawRows _ _ _ row hrow)
      refine ⟨r, hr, ?_, h3⟩
      rw [← hpvz, h1, h2]
      rfl
    · intro rc hrc
      obtain ⟨row2, hrow2, hrec⟩ := hrecs rc hrc
      obtain ⟨p, _, r, hr, pr, h1, h2, h3⟩ := listQuery_dated ties ties2 s _ _ _ _ hd row2
        (mem_rawRows _ _ _ row2 hrow2)
      have h4 : rc.Reception = ⟨r.ID, r.DateTime, p.ID, r.Status⟩ := by
        rw [h1] at hrec
        simpa [listedPVZRow.reception, selectColumns] using hrec.symm
      rw [h4]
      exact ⟨h3, r, hr, rfl, rfl, h2⟩
  · intro hok hvalid hsmall
    have hv : ¬ filter.Page < 1 ∧ ¬ filter.PageSize < 1 := by
      unfold models.PVZFilter.Valid at hvalid
      constructor
      · intro hc
        simp [hc] at hvalid
      · intro hc
        by_cases hp : filter.Page < 1
        · simp [hp] at hvalid
        · simp [hp, hc] at hvalid
    have hoff0 : 0 ≤ (filter.Page - 1) * filter.PageSize :=
      Int.mul_nonneg (by omega) (by omega)
    have hoff := wrapInt64_of_range _ hoff0 hsmall
    obtain ⟨m, _, hm⟩ := listedToModel_eq mapOrder
      (listQuery ties ties2 s filter.PageSize.toNat
        ((filter.Page - 1) * filter.PageSize).toNat filter.StartDate filter.EndDate)
      (listQuery_scanned _ _ _ _ _ _ _)
    refine ⟨(shuffle mapOrder m.pvzMap).map (assemble m), ?_⟩
    unfold postgresqlPVZRepository.List
    simp only [hok 0, hok 1, hok 2, hoff, Bool.false_eq_true, if_false]
    rw [if_neg (by simp; omega), hm]

/-- Witness of C14 on the sample store with the lower bound 6: `List` returns
pickup point 1 with its reception 11 of time 8 alone; reception 10 of time 5 and
pickup point 2, which has no reception, are left out. -/
theorem C14_date_filter_bounds_witness :
    (sampleDatedFilter.StartDate ≠ none ∨ sampleDatedFilter.EndDate ≠ none) ∧
    sampleRun.ok ∧ sampleDatedFilter.Valid 20 = none ∧
    (∃ result, (postgresqlPVZRepository.List sampleRun (fun _ => 0) (fun _ => 0) (fun _ => 0)
      sampleStore sampleDatedFilter).1 = (some result, none)) ∧
    (∀ result, (postgresqlPVZRepository.List sampleRun (fun _ => 0) (fun _ => 0) (fun _ => 0)
        sampleStore sampleDatedFilter).1.1 = some result →
      ∀ e ∈ result, ∃ r ∈ sampleStore.receptions, r.PVZID = e.PVZ.ID ∧
        inRange sampleDatedFilter.StartDate sampleDatedFilter.EndDate r.DateTime) ∧
    ((postgresqlPVZRepository.List sampleRun (fun _ => 0) (fun _ => 0) (fun _ => 0)
        sampleStore sampleDatedFilter).1.1.map
      (fun result => result.map (fun e => (e.PVZ.ID, e.Receptions.map
        (fun l => l.map (fun rc => rc.Reception.ID)))))) = some [(1, some [11])] :=
  ⟨Or.inl (by decide), fun _ => rfl, by decide,
    (C14_date_filter_bounds sampleRun (fun _ => 0) (fun _ => 0) (fun _ => 0) sampleStore
      sampleDatedFilter 20 (Or.inl (by decide))).2 (fun _ => rfl) (by decide) (by decide),
    fun result hr e he =>
      ((C14_date_filter_bounds sampleRun (fun _ => 0) (fun _ => 0) (fun _ => 0) sampleStore
        sampleDatedFilter 20 (Or.inl (by decide))).1 result hr e he).1,
    by decide⟩

/-! ## Pages within the range of `int` -/

/-- The pickup points in the order of `ORDER BY registration_date DESC`: no pickup
point stands before one registered later. -/
theorem orderByDesc_registration_sorted (ties : Nat → Nat) (l : List pvzRow) :
    (orderByDesc (fun a b => decide (b.RegistrationDate ≤ a.RegistrationDate)) ties
      l).Pairwise (fun a b => b.RegistrationDate ≤ a.RegistrationDate) := by
  unfold orderByDesc
  have h := @List.sorted_insertionSort pvzRow
    (fun a b => decide (b.RegistrationDate ≤ a.RegistrationDate) = true) _
    ⟨fun a b => by
      rcases le_total a.RegistrationDate b.RegistrationDate with h | h
      · exact Or.inr (by simpa using h)
      · exact Or.inl (by simpa using h)⟩
    ⟨fun a b c hab hbc => by
      simp only [decide_eq_true_eq] at hab hbc ⊢
      exact le_trans hbc hab⟩ (shuffle ties l)
  exact h.imp (fun hab => by simpa using hab)

/-- The ids of `paginated_pvz` are the ids, from rank `offset + 1` on and `limit`
of them at most, of the pickup points in the order of `ORDER BY`. -/
theorem paginatedPVZ_length (ties : Nat → Nat) (s : Store) (limit offset : Nat) :
    (paginatedPVZ ties s limit offset).length = min limit (s.pvzs.length - offset) := by
  unfold paginatedPVZ orderByDesc
  rw [List.length_map, List.length_take, List.length_drop,
    ((List.perm_insertionSort _ _).trans (shuffle_perm ties s.pvzs)).length_eq]

/-- No id stands twice in `paginated_pvz` when `id` is a key of `pvzs`. -/
theorem paginatedPVZ_nodup (ties : Nat → Nat) (s : Store) (limit offset : Nat)
    (hk : (s.pvzs.map pvzRow.ID).Nodup) : (paginatedPVZ ties s limit offset).Nodup := by
  unfold paginatedPVZ orderByDesc
  have hperm := ((List.perm_insertionSort (fun a b : pvzRow =>
    decide (b.RegistrationDate ≤ a.RegistrationDate) = true) (shuffle ties s.pvzs)).trans
      (shuffle_perm ties s.pvzs)).map pvzRow.ID
  have hnd := hperm.nodup_iff.mpr hk
  exact hnd.sublist ((((List.take_sublist _ _).trans (List.drop_sublist _ _))).map _)

/-- Every id of `paginated_pvz` is the id of a stored pickup point. -/
theorem paginatedPVZ_stored (ties : Nat → Nat) (s : Store) (limit offset : Nat) (id : UUID)
    (h : id ∈ paginatedPVZ ties s limit offset) : ∃ p ∈ s.pvzs, p.ID = id := by
  unfold paginatedPVZ at h
  obtain ⟨p, hp, hid⟩ := List.mem_map.mp h
  exact ⟨p, (mem_orderByDesc _ _ _ p).mp (List.mem_of_mem_drop (List.mem_of_mem_take hp)), hid⟩

/-- Without a date bound the joins keep every pickup point of the page: it has a
row of its own even when it has no reception. -/
theorem joinedRows_undated (s : Store) (page : List UUID) (p : pvzRow) (hp : p ∈ s.pvzs)
    (hpage : p.ID ∈ page) : ∃ row ∈ joinedRows s page none none, row.ID = p.ID := by
  unfold joinedRows
  simp only [Option.isSome_none, Bool.or_self, Bool.false_eq_true, if_false]
  have hp2 : p ∈ s.pvzs.filter (fun q => q.ID == p.ID) := List.mem_filter.mpr ⟨hp, by simp⟩
  cases hrs : s.receptions.filter (fun r => r.PVZID == p.ID) with
  | nil =>
    refine ⟨selectColumns p none none, ?_, rfl⟩
    refine List.mem_flatMap.mpr ⟨p.ID, hpage, List.mem_flatMap.mpr ⟨p, hp2, ?_⟩⟩
    refine List.mem_flatMap.mpr ⟨none, ?_, by simp⟩
    rw [hrs]
    simp [leftJoin]
  | cons r t =>
    cases hprs : s.products.filter (fun pr => pr.ReceptionID == r.ID) with
    | nil =>
      refine ⟨selectColumns p (some r) none, ?_, rfl⟩
      refine List.mem_flatMap.mpr ⟨p.ID, hpage, List.mem_flatMap.mpr ⟨p, hp2, ?_⟩⟩
      refine List.mem_flatMap.mpr ⟨some r, ?_, ?_⟩
      · rw [hrs]
        simp [leftJoin]
      · simp only [hprs]
        simp [leftJoin]
    | cons pr t2 =>
      refine ⟨selectColumns p (some r) (some pr), ?_, rfl⟩
      refine List.mem_flatMap.mpr ⟨p.ID, hpage, List.mem_flatMap.mpr ⟨p, hp2, ?_⟩⟩
      refine List.mem_flatMap.mpr ⟨some r, ?_, ?_⟩
      · rw [hrs]
        simp [leftJoin]
      · simp only [hprs]
        simp [leftJoin]

/-- The pickup-point ids of a result of `listedToModel`: no id twice, and the ids
of the rows. -/
theorem listedToModel_ids (mapOrder : Nat → Nat) (rows : List listedPVZRow)
    (hscan : ∀ row ∈ rows, row.scanned = true) :
    ∃ result, listedToModel mapOrder rows = some result ∧
      (result.map (fun e => e.PVZ.ID)).Nodup ∧
      ∀ id, id ∈ result.map (fun e => e.PVZ.ID) ↔ ∃ row ∈ rows, row.ID = id := by
  obtain ⟨m, inv, hres⟩ := listedToModel_eq mapOrder rows hscan
  refine ⟨_, hres, ?_⟩
  have hids : ((shuffle mapOrder m.pvzMap).map (assemble m)).map (fun e => e.PVZ.ID) =
      (shuffle mapOrder m.pvzMap).map (fun e => e.2.1.ID) := by
    rw [List.map_map]
    rfl
  have hperm : ((shuffle mapOrder m.pvzMap).map (fun e => e.2.1.ID)).Perm
      (m.pvzMap.map (fun e => e.2.1.ID)) := (shuffle_perm mapOrder m.pvzMap).map _
  have hkeys : m.pvzMap.map (fun e => e.2.1.ID) =
      (firstBy (fun r : listedPVZRow => some r.ID) rows).map listedPVZRow.ID := by
    have h1 : m.pvzMap.map (fun e => e.2.1.ID) =
        (m.pvzMap.map (fun e => e.2.1)).map models.PVZ.ID := by
      rw [List.map_map]
      rfl
    rw [h1, inv.pvzs, List.map_map]
    rfl
  constructor
  · rw [hids, hperm.nodup_iff]
    exact inv.pvz_ids_nodup
  · intro id
    rw [hids, hperm.mem_iff, hkeys, List.mem_map]
    constructor
    · rintro ⟨a, ha, hid⟩
      exact ⟨a, mem_of_mem_firstBy _ _ _ ha, hid⟩
    · rintro ⟨a, ha, hid⟩
      obtain ⟨b, hb, hk⟩ := (exists_mem_firstBy_iff (fun r : listedPVZRow => some r.ID)
        rows id).mpr ⟨a, ha, by rw [hid]⟩
      exact ⟨b, hb, by simpa using hk⟩

/-- Within the range of `int` the pages are as the offset `(Page - 1) * PageSize`
says: with a working connection, unique keys, a filter without date bounds that
passes `Valid` and a product below 2 ^ 63, `List` returns the pickup points of
`paginated_pvz`, each once, in some order; their number is
min(PageSize, n - (Page - 1) * PageSize) with n the number of stored pickup points. -/
theorem List_page_within_range (run : DbRun) (ties ties2 mapOrder : Nat → Nat) (s : Store)
    (filter : models.PVZFilter) (now : Time) (hk : s.keysUnique) (hok : run.ok)
    (hS : filter.StartDate = none) (hE : filter.EndDate = none)
    (hvalid : filter.Valid now = none)
    (hsmall : (filter.Page - 1) * filter.PageSize < 2 ^ 63) :
    ∃ result, (postgresqlPVZRepository.List run ties ties2 mapOrder s filter).1 =
        (some result, none) ∧
      (result.map (fun e => e.PVZ.ID)).Perm (paginatedPVZ ties s filter.PageSize.toNat
        ((filter.Page - 1) * filter.PageSize).toNat) ∧
      result.length = min filter.PageSize.toNat
        (s.pvzs.length - ((filter.Page - 1) * filter.PageSize).toNat) := by
  have hv : ¬ filter.Page < 1 ∧ ¬ filter.PageSize < 1 := by
    unfold models.PVZFilter.Valid at hvalid
    constructor
    · intro hc
      simp [hc] at hvalid
    · intro hc
      by_cases hp : filter.Page < 1
      · simp [hp] at hvalid
      · simp [hp, hc] at hvalid
  have hoff0 : 0 ≤ (filter.Page - 1) * filter.PageSize :=
    Int.mul_nonneg (by omega) (by omega)
  have hoff := wrapInt64_of_range _ hoff0 hsmall
  obtain ⟨result, hres, hnd, hmem⟩ := listedToModel_ids mapOrder
    (listQuery ties ties2 s filter.PageSize.toNat
      ((filter.Page - 1) * filter.PageSize).toNat none none)
    (listQuery_scanned _ _ _ _ _ _ _)
  have hperm : (result.map (fun e => e.PVZ.ID)).Perm (paginatedPVZ ties s
      filter.PageSize.toNat ((filter.Page - 1) * filter.PageSize).toNat) := by
    refine (List.perm_ext_iff_of_nodup hnd (paginatedPVZ_nodup _ _ _ _ hk.1)).mpr ?_
    intro id
    rw [hmem id]
    constructor
    · rintro ⟨row, hrow, hid⟩
      obtain ⟨p, _, r, pr, h1, h2, _⟩ := mem_joinedRows s _ none none row
        ((mem_orderByDesc _ _ _ row).mp hrow)
      rw [← hid, h1]
      exact h2
    · intro hid
      obtain ⟨p, hp, hpid⟩ := paginatedPVZ_stored _ _ _ _ id hid
      obtain ⟨row, hrow, hrid⟩ := joinedRows_undated s _ p hp (hpid ▸ hid)
      exact ⟨row, (mem_orderByDesc _ _ _ row).mpr hrow, hrid.trans hpid⟩
  refine ⟨result, ?_, hperm, ?_⟩
  · unfold postgresqlPVZRepository.List
    simp only [hok 0, hok 1, hok 2, hoff, Bool.false_eq_true, if_false, hS, hE]
    rw [if_neg (by simp; omega), hres]
  · rw [← paginatedPVZ_length ties s, ← hperm.length_eq, List.length_map]

/-- Claim C15, which the code does not meet: `List` computes the offset
`(Page - 1) * PageSize` in the arithmetic of `int`.  Over five pickup points the
pages 1 to 4 of size 2 hold 2, 2, 1 and 0 pickup points, as claimed; but for the
page 2 ^ 62 + 1 of size 4 the product 2 ^ 64 is kept as 0, the query runs with
offset 0, and `List` returns the four pickup points registered last, where the
claim has min(4, max(0, 5 - 2 ^ 64)) = 0 of them. -/
theorem C15_page_offset_wraps :
    (([1, 2, 3, 4] : List Int).map fun p =>
      (postgresqlPVZRepository.List sampleRun (fun _ => 0) (fun _ => 0) (fun _ => 0)
        sampleFiveStore ⟨none, none, p, 2⟩).1.1.map
          (fun result => result.map (fun e => e.PVZ.ID))) =
      [some [5, 4], some [3, 2], some [1], some []] ∧
    sampleFarPageFilter.Valid 20 = none ∧
    sampleFarPageFilter.Page < 2 ^ 63 ∧
    wrapInt64 ((sampleFarPageFilter.Page - 1) * sampleFarPageFilter.PageSize) = 0 ∧
    min sampleFarPageFilter.PageSize
      (max 0 (5 - (sampleFarPageFilter.Page - 1) * sampleFarPageFilter.PageSize)) = 0 ∧
    (postgresqlPVZRepository.List sampleRun (fun _ => 0) (fun _ => 0) (fun _ => 0)
      sampleFiveStore sampleFarPageFilter).1 =
      (some [⟨⟨5, 5, "Москва"⟩, some []⟩, ⟨⟨4, 4, "Казань"⟩, some []⟩,
        ⟨⟨3, 3, "Москва"⟩, some []⟩, ⟨⟨2, 2, "Казань"⟩, some []⟩], none) := by
  refine ⟨by decide, by decide, by decide, by decide, by decide, by decide⟩

end postgresqlrepo

namespace postgresqlrepo

/-! ## Closing the open reception and adding a product to it -/

/-- When `R` is the one open reception of the pickup point, the update of
`CloseLast` changes the row `R` and no other. -/
theorem map_closeFor_of_one (s : Store) (P : UUID) (R : receptionRow)
    (hone : openReceptions s P = [R]) :
    s.receptions.map (closeFor P) =
      s.receptions.map (fun r => if r = R then setClose R else r) := by
  apply List.map_congr_left
  intro r hr
  unfold closeFor
  by_cases hrR : r = R
  · subst hrR
    have hm : r ∈ openReceptions s P := by rw [hone]; exact List.mem_singleton_self r
    rw [if_pos (List.mem_filter.mp hm).2, if_pos rfl]
  · have hno : ¬ isOpenFor P r = true := by
      intro hopen
      have hm : r ∈ openReceptions s P := List.mem_filter.mpr ⟨hr, hopen⟩
      rw [hone] at hm
      exact hrR (List.mem_singleton.mp hm)
    rw [if_neg hno, if_neg hrR]

open postgresqlReceptionRepository service.receptionServiceImpl in
/-- Claim C21: when pickup point P has exactly one reception R with status
in_progress and the statement reaches the database, CloseLast(P) returns R with
status close and with the id, date and pickup-point id of R; afterwards the
receptions are the former ones with R replaced by its closed copy, the pickup
points and the products are as before, and P has no open reception.  The service
method CloseLastReception with role employee returns the same. -/
theorem C21_close_last_success (run : DbRun) (s : Store) (P : UUID) (R : receptionRow)
    (h0 : run.fail 0 = false) (hone : openReceptions s P = [R]) :
    CloseLast run s P =
      ((some ⟨R.ID, R.DateTime, R.PVZID, models.ReceptionStatusClose⟩, none),
        ⟨s.pvzs, s.receptions.map (fun r => if r = R then setClose R else r), s.products⟩) ∧
    setClose R = ⟨R.ID, R.DateTime, R.PVZID, "close"⟩ ∧
    R.PVZID = P ∧ R.Status = models.ReceptionStatusInProgress ∧ R ∈ s.receptions ∧
    (∀ r ∈ s.receptions, r ≠ R → r ∈ (CloseLast run s P).2.receptions) ∧
    setClose R ∈ (CloseLast run s P).2.receptions ∧
    (CloseLast run s P).2.receptions.length = s.receptions.length ∧
    (CloseLast run s P).2.products = s.products ∧
    (CloseLast run s P).2.pvzs = s.pvzs ∧
    openReceptions (CloseLast run s P).2 P = [] ∧
    CloseLastReception (NewPostgresqlReceptionRepository run) models.RoleEmployee P s =
      ((some ⟨R.ID, R.DateTime, R.PVZID, models.ReceptionStatusClose⟩, none),
        (CloseLast run s P).2) := by
  have hR : R ∈ openReceptions s P := by rw [hone]; exact List.mem_singleton_self R
  have hR2 := (mem_openReceptions s P R).mp hR
  have hfilter : s.receptions.filter (isOpenFor P) = [R] := hone
  have hcl : CloseLast run s P =
      ((some ⟨R.ID, R.DateTime, R.PVZID, models.ReceptionStatusClose⟩, none),
        ⟨s.pvzs, s.receptions.map (fun r => if r = R then setClose R else r), s.products⟩) := by
    unfold CloseLast
    simp only [h0, Bool.false_eq_true, if_false, hfilter, List.map_cons, List.map_nil,
      List.length_singleton, Nat.mod_one, List.getElem?_cons_zero]
    rw [map_closeFor_of_one s P R hone]
    rfl
  refine ⟨hcl, rfl, hR2.2.1, hR2.2.2, hR2.1, ?_, ?_, ?_, ?_, ?_, ?_, ?_⟩
  · intro r hr hne
    rw [hcl]
    exact List.mem_map.mpr ⟨r, hr, by rw [if_neg hne]⟩
  · rw [hcl]
    exact List.mem_map.mpr ⟨R, hR2.1, by rw [if_pos rfl]⟩
  · rw [hcl]
    simp
  · rw [hcl]
  · rw [hcl]
  · rw [hcl, ← map_closeFor_of_one s P R hone]
    exact openReceptions_close_self s.receptions P
  · simp only [CloseLastReception, NewPostgresqlReceptionRepository, hcl]
    rw [if_neg (by decide)]

open postgresqlReceptionRepository service.receptionServiceImpl in
/-- Witness of C21 on the sample store: pickup point 1 has the one open reception
11, and closing it leaves the sample store with both receptions closed. -/
theorem C21_close_last_success_witness :
    sampleRun.fail 0 = false ∧ openReceptions sampleStore 1 = [⟨11, 8, 1, "in_progress"⟩] ∧
    CloseLast sampleRun sampleStore 1 = ((some ⟨11, 8, 1, "close"⟩, none), sampleClosedStore) :=
  ⟨rfl, by decide,
    (C21_close_last_success sampleRun sampleStore 1 ⟨11, 8, 1, "in_progress"⟩ rfl
      (by decide)).1.trans (by decide)⟩

open postgresqlProductRepository service.productServiceImpl in
/-- Claim C22: when pickup point P has exactly one reception R with status
in_progress, the product to add has an identifier that no stored product has and
the connection works, product Create for P returns the product with the id,
timestamp and type of the request and the reception id of R; the products become
the former rows followed by the row of that product, and pickup points and
receptions are as before.  The service method AddProduct with role employee and
a valid type returns the same product and counts it. -/
theorem C22_product_create_success (run : DbRun) (s : Store) (product : models.AddProduct)
    (R : receptionRow) (hok : run.ok) (hone : openReceptions s product.PVZID = [R])
    (hfresh : ∀ q ∈ s.products, q.ID ≠ product.ID) :
    Create run s product =
      ((some ⟨product.ID, product.DateTime, product.Type_, R.ID⟩, none),
        ⟨s.pvzs, s.receptions,
          s.products ++ [⟨product.ID, product.DateTime, product.Type_, R.ID⟩]⟩) ∧
    (Create run s product).2.products.length = s.products.length + 1 ∧
    (∀ q ∈ s.products, q ∈ (Create run s product).2.products) ∧
    (∀ (m : metrics.Counters), models.ProductType.Valid product.Type_ = true →
      service.productServiceImpl.AddProduct (NewPostgresqlProductRepository run) product.ID
          product.DateTime models.RoleEmployee product.Type_ product.PVZID s m =
        ((some ⟨product.ID, product.DateTime, product.Type_, R.ID⟩, none),
          (Create run s product).2, { m with ProductsAdded := m.ProductsAdded + 1 })) := by
  have hR : R ∈ openReceptions s product.PVZID := by
    rw [hone]; exact List.mem_singleton_self R
  have hc := Create_some run s product R hok (by rw [hone]; simp) hR hfresh
  have hc2 : Create run s product =
      ((some ⟨product.ID, product.DateTime, product.Type_, R.ID⟩, none),
        ⟨s.pvzs, s.receptions,
          s.products ++ [⟨product.ID, product.DateTime, product.Type_, R.ID⟩]⟩) := hc
  refine ⟨hc2, by rw [hc2]; simp, ?_, ?_⟩
  · intro q hq
    rw [hc2]
    exact List.mem_append_left _ hq
  · intro m hv
    have hp : (⟨product.ID, product.DateTime, product.Type_, product.PVZID⟩ :
        models.AddProduct) = product := rfl
    simp only [service.productServiceImpl.AddProduct, NewPostgresqlProductRepository, hv, hp, hc2]
    rw [if_neg (by decide), if_neg (by decide)]

open postgresqlProductRepository in
/-- Witness of C22 on the sample store: product 104 of type обувь added at pickup
point 1 lands in its open reception 11. -/
theorem C22_product_create_success_witness :
    sampleRun.ok ∧ openReceptions sampleStore 1 = [⟨11, 8, 1, "in_progress"⟩] ∧
    (∀ q ∈ sampleStore.products, q.ID ≠ 104) ∧
    Create sampleRun sampleStore ⟨104, 13, "обувь", 1⟩ =
      ((some ⟨104, 13, "обувь", 11⟩, none),
        ⟨sampleStore.pvzs, sampleStore.receptions,
          sampleStore.products ++ [⟨104, 13, "обувь", 11⟩]⟩) :=
  ⟨fun _ => rfl, by decide, by decide,
    (C22_product_create_success sampleRun sampleStore ⟨104, 13, "обувь", 1⟩
      ⟨11, 8, 1, "in_progress"⟩ (fun _ => rfl) (by decide) (by decide)).1⟩

end postgresqlrepo

namespace postgresqlrepo

/-! ## The errors that the repository methods return -/

open postgresqlReceptionRepository in
/-- The errors of `CreateIfNoOpen`. -/
theorem CreateIfNoOpen_errors (run : DbRun) (s : Store) (reception : models.Reception)
    (e : GoError) (h : (CreateIfNoOpen run s reception).1 = some e) :
    e = databaseerrors.ErrUnexpected ∨ e = databaseerrors.ErrNoRows ∨
      e = domainerrors.ErrOpenReceptionExists := by
  unfold CreateIfNoOpen at h
  simp only [] at h
  repeat' split at h
  all_goals simp at h
  all_goals simp [← h]

open postgresqlReceptionRepository in
/-- The errors of `CloseLast`. -/
theorem CloseLast_errors (run : DbRun) (s : Store) (pvzID : UUID) (e : GoError)
    (h : (CloseLast run s pvzID).1.2 = some e) :
    e = databaseerrors.ErrUnexpected ∨ e = domainerrors.ErrNoOpenReceptions := by
  rcases CloseLast_outcome run s pvzID with ⟨e0, he⟩ | ⟨row, he, -, -⟩
  · unfold CloseLast at h he
    simp only [] at h he
    repeat' split at h
    all_goals simp at h
    all_goals simp [← h]
  · rw [he] at h
    simp at h

open postgresqlProductRepository in
/-- The errors of the product method `Create`. -/
theorem Create_errors (run : DbRun) (s : Store) (product : models.AddProduct) (e : GoError)
    (h : (Create run s product).1.2 = some e) :
    e = databaseerrors.ErrUnexpected ∨ e = domainerrors.ErrNoOpenReceptions := by
  unfold Create at h
  by_cases h0 : run.fail 0 = true
  · simp [h0] at h
    exact Or.inl h.symm
  simp only [h0, Bool.false_eq_true, if_false] at h
  cases hg : getOpenReceptionID run 1 s product.PVZID with
  | error e0 =>
    rw [hg] at h
    simp only [Option.some.injEq] at h
    subst h
    rcases getOpenReceptionID_error run 1 s product.PVZID e0 hg with ⟨-, h1⟩ | ⟨-, h1, -⟩
    · exact Or.inl h1
    · exact Or.inr h1
  | ok id =>
    rw [hg] at h
    simp only [] at h
    repeat' split at h
    all_goals simp at h
    all_goals simp [← h]

open postgresqlProductRepository in
/-- The errors of `DeleteLast`. -/
theorem DeleteLast_errors (run : DbRun) (s : Store) (pvzID : UUID) (e : GoError)
    (h : (DeleteLast run s pvzID).1 = some e) :
    e = databaseerrors.ErrUnexpected ∨ e = domainerrors.ErrNoOpenReceptions ∨
      e = domainerrors.ErrNoProductsInReception := by
  unfold DeleteLast at h
  by_cases h0 : run.fail 0 = true
  · simp [h0] at h
    exact Or.inl h.symm
  simp only [h0, Bool.false_eq_true, if_false] at h
  cases hg : getOpenReceptionID run 1 s pvzID with
  | error e0 =>
    rw [hg] at h
    simp only [Option.some.injEq] at h
    subst h
    rcases getOpenReceptionID_error run 1 s pvzID e0 hg with ⟨-, h1⟩ | ⟨-, h1, -⟩
    · exact Or.inl h1
    · exact Or.inr (Or.inl h1)
  | ok id =>
    rw [hg] at h
    simp only [] at h
    repeat' split at h
    all_goals simp at h
    all_goals simp [← h]

end postgresqlrepo

namespace service

open models

/-! ## Role and input checks of the services -/

open receptionServiceImpl productServiceImpl in
/-- Claim C23: with role moderator each of CreateReceptionIfNoOpen,
CloseLastReception, AddProduct and DeleteLastProduct returns ErrNotEnoughRights
and no result, for every pickup-point id and product type and over every
repository; the state behind the repository and the counters are as before, so
the repository was not invoked: the recording doubles have recorded no call. -/
theorem C23_moderator_refused {σ : Type} (recRepo : repositories.IReceptionRepo σ)
    (prodRepo : repositories.IProductRepo σ) (newID : UUID) (now : Time) (pvzID : UUID)
    (productType : String) (st : σ) (m : metrics.Counters) :
    CreateReceptionIfNoOpen recRepo newID now RoleModerator pvzID st m =
      ((none, some domainerrors.ErrNotEnoughRights), st, m) ∧
    CloseLastReception recRepo RoleModerator pvzID st =
      ((none, some domainerrors.ErrNotEnoughRights), st) ∧
    productServiceImpl.AddProduct prodRepo newID now RoleModerator productType pvzID st m =
      ((none, some domainerrors.ErrNotEnoughRights), st, m) ∧
    DeleteLastProduct prodRepo RoleModerator pvzID st =
      (some domainerrors.ErrNotEnoughRights, st) ∧
    (CreateReceptionIfNoOpen (recordingReceptionRepo none none) newID now RoleModerator pvzID
      [] m).2.1 = [] ∧
    (CloseLastReception (recordingReceptionRepo none none) RoleModerator pvzID []).2 = [] ∧
    (productServiceImpl.AddProduct (recordingProductRepo none none) newID now RoleModerator
      productType pvzID [] m).2.1 = [] ∧
    (DeleteLastProduct (recordingProductRepo none none) RoleModerator pvzID []).2 = [] := by
  have h3 : (RoleModerator != RoleEmployee) = true := by decide
  refine ⟨by simp [CreateReceptionIfNoOpen, h3], by simp [CloseLastReception, h3],
    by simp [productServiceImpl.AddProduct, h3], by simp [DeleteLastProduct, h3],
    by simp [CreateReceptionIfNoOpen, h3], by simp [CloseLastReception, h3],
    by simp [productServiceImpl.AddProduct, h3], by simp [DeleteLastProduct, h3]⟩

/-- The three product types. -/
theorem ProductType_Valid_iff (t : String) :
    ProductType.Valid t = true ↔ t = "электроника" ∨ t = "одежда" ∨ t = "обувь" := by
  simp [ProductType.Valid, ProductTypeElectronics, ProductTypeClothes, ProductTypeShoes,
    or_assoc]

/-- The three cities. -/
theorem CityType_Valid_iff (c : String) :
    CityType.Valid c = true ↔ c = "Москва" ∨ c = "Санкт-Петербург" ∨ c = "Казань" := by
  simp [CityType.Valid, CityTypeMoscow, CityTypeSPB, CityTypeKazan, or_assoc]

open productServiceImpl in
/-- What `AddProduct` with role employee and a valid type makes of an error of the
repository. -/
theorem AddProduct_of_error {σ : Type} (repo : repositories.IProductRepo σ) (newID : UUID)
    (now : Time) (productType : String) (pvzID : UUID) (st st1 : σ) (m : metrics.Counters)
    (product : Option Product) (err : GoError) (hv : ProductType.Valid productType = true)
    (h : repo.Create st ⟨newID, now, productType, pvzID⟩ = ((product, some err), st1)) :
    productServiceImpl.AddProduct repo newID now RoleEmployee productType pvzID st m =
      ((none, some (if errors.Is err databaseerrors.ErrUnexpected = true then
        domainerrors.ErrUnexpected else err)), st1, m) := by
  simp only [productServiceImpl.AddProduct, hv, h]
  rw [if_neg (by decide), if_neg (by decide)]
  by_cases hu : errors.Is err databaseerrors.ErrUnexpected = true
  · simp [hu]
  · simp [hu]

open productServiceImpl in
/-- What `AddProduct` with role employee and a valid type makes of a success of
the repository. -/
theorem AddProduct_of_success {σ : Type} (repo : repositories.IProductRepo σ) (newID : UUID)
    (now : Time) (productType : String) (pvzID : UUID) (st st1 : σ) (m : metrics.Counters)
    (product : Option Product) (hv : ProductType.Valid productType = true)
    (h : repo.Create st ⟨newID, now, productType, pvzID⟩ = ((product, none), st1)) :
    productServiceImpl.AddProduct repo newID now RoleEmployee productType pvzID st m =
      ((product, none), st1, { m with ProductsAdded := m.ProductsAdded + 1 }) := by
  simp only [productServiceImpl.AddProduct, hv, h]
  rw [if_neg (by decide), if_neg (by decide)]

open productServiceImpl in
/-- What `DeleteLastProduct` with role employee makes of an error of the
repository. -/
theorem DeleteLastProduct_of_error {σ : Type} (repo : repositories.IProductRepo σ)
    (pvzID : UUID) (st st1 : σ) (err : GoError)
    (h : repo.DeleteLast st pvzID = (some err, st1)) :
    DeleteLastProduct repo RoleEmployee pvzID st =
      (some (if errors.Is err databaseerrors.ErrUnexpected = true then
        domainerrors.ErrUnexpected else err), st1) := by
  simp only [DeleteLastProduct, h]
  rw [if_neg (by decide)]
  by_cases hu : errors.Is err databaseerrors.ErrUnexpected = true
  · simp [hu]
  · simp [hu]

open receptionServiceImpl in
/-- What `CloseLastReception` with role employee makes of an error of the
repository. -/
theorem CloseLastReception_of_error {σ : Type} (repo : repositories.IReceptionRepo σ)
    (pvzID : UUID) (st st1 : σ) (reception : Option Reception) (err : GoError)
    (h : repo.CloseLast st pvzID = ((reception, some err), st1)) :
    CloseLastReception repo RoleEmployee pvzID st =
      ((none, some (if errors.Is err databaseerrors.ErrUnexpected = true then
        domainerrors.ErrUnexpected else err)), st1) := by
  simp only [CloseLastReception, h]
  rw [if_neg (by decide)]
  by_cases hu : errors.Is err databaseerrors.ErrUnexpected = true
  · simp [hu]
  · simp [hu]

open receptionServiceImpl in
/-- What `CreateReceptionIfNoOpen` with role employee makes of an error of the
repository. -/
theorem CreateReceptionIfNoOpen_of_error {σ : Type} (repo : repositories.IReceptionRepo σ)
    (newID : UUID) (now : Time) (pvzID : UUID) (st st1 : σ) (m : metrics.Counters)
    (err : GoError)
    (h : repo.CreateIfNoOpen st ⟨newID, now, pvzID, ReceptionStatusInProgress⟩ =
      (some err, st1)) :
    CreateReceptionIfNoOpen repo newID now RoleEmployee pvzID st m =
      ((none, some (if errors.Is err databaseerrors.ErrUnexpected = true then
        domainerrors.ErrUnexpected
        else if errors.Is err databaseerrors.ErrNoRows = true then domainerrors.ErrPVZNotFound
        else err)), st1, m) := by
  simp only [CreateReceptionIfNoOpen, h]
  rw [if_neg (by decide)]
  by_cases hu : errors.Is err databaseerrors.ErrUnexpected = true
  · simp [hu]
  · by_cases hn : errors.Is err databaseerrors.ErrNoRows = true
    · simp [hu, hn]
    · simp [hu, hn]

end service

namespace service

open models

open productServiceImpl pvzServiceImpl in
/-- Claim C24: the type check of AddProduct (role employee) passes exactly for
электроника, одежда and обувь; with any other type AddProduct returns an error of
the kind ErrInvalidProductType and leaves the state behind the repository and the
counters as they were, over every repository; with a valid type the request is
handed to the repository's Create, and an error of that kind could then only be
one that the repository itself returned, which the PostgreSQL repository never
does.  Likewise the city check of CreatePVZ (role moderator) passes exactly for
Москва, Санкт-Петербург and Казань; with any other city CreatePVZ returns
ErrInvalidCity and leaves state and counters as they were; with a valid city the
pickup point is handed to the repository's Create and ErrInvalidCity is not
returned. -/
theorem C24_validation_before_storage {σ τ : Type} (prodRepo : repositories.IProductRepo σ)
    (pvzRepo : repositories.IPVZRepo τ) (newID : UUID) (now : Time) (pvzID : UUID)
    (optID : Option UUID) (registerDate : Option Time) (st : σ) (st2 : τ)
    (m : metrics.Counters) (productType city : String) :
    (ProductType.Valid productType = true ↔
      productType = "электроника" ∨ productType = "одежда" ∨ productType = "обувь") ∧
    (ProductType.Valid productType = false →
      productServiceImpl.AddProduct prodRepo newID now RoleEmployee productType pvzID st m =
        ((none, some (GoError.wrap domainerrors.ErrInvalidProductType productType)), st, m) ∧
      errors.Is (GoError.wrap domainerrors.ErrInvalidProductType productType)
        domainerrors.ErrInvalidProductType = true) ∧
    (ProductType.Valid productType = true →
      (productServiceImpl.AddProduct prodRepo newID now RoleEmployee productType pvzID st
        m).2.1 = (prodRepo.Create st ⟨newID, now, productType, pvzID⟩).2 ∧
      ∀ e, (productServiceImpl.AddProduct prodRepo newID now RoleEmployee productType pvzID st
          m).1.2 = some e → errors.Is e domainerrors.ErrInvalidProductType = true →
        ∃ e0, (prodRepo.Create st ⟨newID, now, productType, pvzID⟩).1.2 = some e0 ∧
          errors.Is e0 domainerrors.ErrInvalidProductType = true) ∧
    (∀ (run : postgresqlrepo.DbRun) (s : postgresqlrepo.Store) (e : GoError),
      (productServiceImpl.AddProduct (postgresqlrepo.NewPostgresqlProductRepository run) newID
        now RoleEmployee productType pvzID s m).1.2 = some e →
      errors.Is e domainerrors.ErrInvalidProductType = true →
      ProductType.Valid productType = false ∧
        (productServiceImpl.AddProduct (postgresqlrepo.NewPostgresqlProductRepository run)
          newID now RoleEmployee productType pvzID s m).2 = (s, m)) ∧
    (CityType.Valid city = true ↔
      city = "Москва" ∨ city = "Санкт-Петербург" ∨ city = "Казань") ∧
    (CityType.Valid city = false →
      CreatePVZ pvzRepo newID now RoleModerator city optID registerDate st2 m =
        ((none, some domainerrors.ErrInvalidCity), st2, m)) ∧
    (CityType.Valid city = true →
      (CreatePVZ pvzRepo newID now RoleModerator city optID registerDate st2 m).2.1 =
        (pvzRepo.Create st2 ⟨optID.getD newID, registerDate.getD now, city⟩).2 ∧
      ∀ e, (CreatePVZ pvzRepo newID now RoleModerator city optID registerDate st2 m).1.2 =
        some e → errors.Is e domainerrors.ErrInvalidCity = false) := by
  have hgen : ∀ {τ : Type} (repo : repositories.IProductRepo τ) (s : τ),
      ProductType.Valid productType = true →
      (productServiceImpl.AddProduct repo newID now RoleEmployee productType pvzID s
        m).2.1 = (repo.Create s ⟨newID, now, productType, pvzID⟩).2 ∧
      ∀ e, (productServiceImpl.AddProduct repo newID now RoleEmployee productType pvzID s
          m).1.2 = some e → errors.Is e domainerrors.ErrInvalidProductType = true →
        ∃ e0, (repo.Create s ⟨newID, now, productType, pvzID⟩).1.2 = some e0 ∧
          errors.Is e0 domainerrors.ErrInvalidProductType = true := by
    intro τ repo s hv
    rcases hc : repo.Create s ⟨newID, now, productType, pvzID⟩ with ⟨⟨product, _ | err⟩, st1⟩
    · rw [AddProduct_of_success repo newID now productType pvzID s st1 m product hv hc]
      exact ⟨rfl, fun e he => by simp at he⟩
    · rw [AddProduct_of_error repo newID now productType pvzID s st1 m product err hv hc]
      refine ⟨rfl, ?_⟩
      intro e he hIs
      simp only [Option.some.injEq] at he
      by_cases hu : errors.Is err databaseerrors.ErrUnexpected = true
      · rw [if_pos hu] at he
        subst he
        exact absurd hIs (by decide)
      · rw [if_neg hu] at he
        subst he
        exact ⟨_, rfl, hIs⟩
  have hbad : ProductType.Valid productType = false →
      ∀ {τ : Type} (repo : repositories.IProductRepo τ) (s : τ),
      productServiceImpl.AddProduct repo newID now RoleEmployee productType pvzID s m =
        ((none, some (GoError.wrap domainerrors.ErrInvalidProductType productType)), s, m) := by
    intro hv τ repo s
    simp only [productServiceImpl.AddProduct, hv]
    rw [if_neg (by decide)]
    simp
  have hmod : (RoleModerator == RoleEmployee) = false := by decide
  refine ⟨ProductType_Valid_iff productType, ?_, hgen prodRepo st, ?_,
    CityType_Valid_iff city, ?_, ?_⟩
  · intro hv
    exact ⟨hbad hv prodRepo st, by simp [errors.Is]⟩
  · intro run s e he hIs
    cases hv : ProductType.Valid productType with
    | false =>
      refine ⟨rfl, ?_⟩
      rw [hbad hv]
    | true =>
      exfalso
      obtain ⟨e0, he0, hIs0⟩ := (hgen (postgresqlrepo.NewPostgresqlProductRepository run) s
        hv).2 e he hIs
      rcases postgresqlrepo.Create_errors run s _ e0 he0 with rfl | rfl
      · exact absurd hIs0 (by decide)
      · exact absurd hIs0 (by decide)
  · intro hv
    simp [CreatePVZ, hmod, hv]
  · intro hv
    have key : ∀ pvz : PVZ,
        (match pvzRepo.Create st2 pvz with
          | (some err, st1) =>
            if errors.Is err databaseerrors.ErrUniqueViolation = true then
              ((none, some domainerrors.ErrPVZAlreadyExists), st1, m)
            else if errors.Is err databaseerrors.ErrUnexpected = true then
              ((none, some domainerrors.ErrUnexpected), st1, m)
            else ((some pvz, none), st1, { m with PVZCreated := m.PVZCreated + 1 })
          | (none, st1) =>
            ((some pvz, none), st1, { m with PVZCreated := m.PVZCreated + 1 }) :
          (Option PVZ × Option GoError) × τ × metrics.Counters).2.1 =
          (pvzRepo.Create st2 pvz).2 ∧
        ∀ e, (match pvzRepo.Create st2 pvz with
          | (some err, st1) =>
            if errors.Is err databaseerrors.ErrUniqueViolation = true then
              ((none, some domainerrors.ErrPVZAlreadyExists), st1, m)
            else if errors.Is err databaseerrors.ErrUnexpected = true then
              ((none, some domainerrors.ErrUnexpected), st1, m)
            else ((some pvz, none), st1, { m with PVZCreated := m.PVZCreated + 1 })
          | (none, st1) =>
            ((some pvz, none), st1, { m with PVZCreated := m.PVZCreated + 1 }) :
          (Option PVZ × Option GoError) × τ × metrics.Counters).1.2 = some e →
          errors.Is e domainerrors.ErrInvalidCity = false := by
      intro pvz
      rcases hc : pvzRepo.Create st2 pvz with ⟨_ | err, st1⟩
      · simp
      · by_cases hu : errors.Is err databaseerrors.ErrUniqueViolation = true
        · simp only [hu, if_true]
          refine ⟨by trivial, fun e he => ?_⟩
          cases he
          decide
        · by_cases hx : errors.Is err databaseerrors.ErrUnexpected = true
          · simp only [hu, hx, if_true, if_false]
            refine ⟨by trivial, fun e he => ?_⟩
            cases he
            decide
          · simp [hu, hx]
    cases optID <;> cases registerDate <;>
      simp only [CreatePVZ, hmod, hv, Option.getD, Bool.false_eq_true, if_false,
        Bool.not_true] <;> exact key _

open productServiceImpl pvzServiceImpl in
/-- Witness of C24 at the type мебель and the city Омск against the recording
doubles: both are refused and no call is recorded. -/
theorem C24_validation_before_storage_witness :
    ProductType.Valid "мебель" = false ∧ CityType.Valid "Омск" = false ∧
    productServiceImpl.AddProduct (recordingProductRepo none none) 7 3 RoleEmployee "мебель" 1
        [] zeroCounters =
      ((none, some (GoError.wrap domainerrors.ErrInvalidProductType "мебель")), [],
        zeroCounters) ∧
    CreatePVZ (recordingPVZRepo none) 7 3 RoleModerator "Омск" none none [] zeroCounters =
      ((none, some domainerrors.ErrInvalidCity), [], zeroCounters) :=
  ⟨by decide, by decide,
    ((C24_validation_before_storage (recordingProductRepo none none) (recordingPVZRepo none)
      7 3 1 none none [] [] zeroCounters "мебель" "Омск").2.1 (by decide)).1,
    (C24_validation_before_storage (recordingProductRepo none none) (recordingPVZRepo none)
      7 3 1 none none [] [] zeroCounters "мебель" "Омск").2.2.2.2.2.1 (by decide)⟩

end service

namespace service

open models

open pvzServiceImpl postgresqlrepo in
/-- Claim C25: CreatePVZ with role moderator, a valid city and the explicit
identifier of a stored pickup point returns ErrPVZAlreadyExists when the statement
reaches the database: the repository's Create returns ErrUniqueViolation, no
pickup point is returned or counted, and ErrPVZAlreadyExists is not the generic
unexpected kind.  Whatever the connection does, the call returns an error and no
pickup point, and the store, so also the city and the registration date of the
stored pickup point, and the counters are as before. -/
theorem C25_duplicate_pickup_point (run : DbRun) (ties ties2 mapOrder : Nat → Nat)
    (s : Store) (p : pvzRow) (city : String) (registerDate : Option Time) (newID : UUID)
    (now : Time) (m : metrics.Counters)
    (h0 : run.fail 0 = false) (hcity : CityType.Valid city = true) (hp : p ∈ s.pvzs) :
    CreatePVZ (NewPostgresqlPVZRepository run ties ties2 mapOrder) newID now RoleModerator city
        (some p.ID) registerDate s m =
      ((none, some domainerrors.ErrPVZAlreadyExists), s, m) ∧
    postgresqlPVZRepository.Create run s ⟨p.ID, registerDate.getD now, city⟩ =
      (some databaseerrors.ErrUniqueViolation, s) ∧
    errors.Is domainerrors.ErrPVZAlreadyExists domainerrors.ErrUnexpected = false ∧
    (∀ run2 : DbRun, ∃ e,
      CreatePVZ (NewPostgresqlPVZRepository run2 ties ties2 mapOrder) newID now RoleModerator
          city (some p.ID) registerDate s m = ((none, some e), s, m) ∧
        (e = domainerrors.ErrPVZAlreadyExists ∨ e = domainerrors.ErrUnexpected)) := by
  have hmod : (RoleModerator == RoleEmployee) = false := by decide
  have hany : ∀ d : Time, insertPVZ s (postgresqlPVZRepository.toRow ⟨p.ID, d, city⟩) = none := by
    intro d
    unfold insertPVZ
    rw [if_pos]
    rw [List.any_eq_true]
    exact ⟨p, hp, by simp [postgresqlPVZRepository.toRow]⟩
  have hrepo : ∀ d : Time, postgresqlPVZRepository.Create run s ⟨p.ID, d, city⟩ =
      (some databaseerrors.ErrUniqueViolation, s) := by
    intro d
    simp [postgresqlPVZRepository.Create, h0, hany d]
  have hsvc : ∀ run2 : DbRun, run2.fail 0 = false →
      CreatePVZ (NewPostgresqlPVZRepository run2 ties ties2 mapOrder) newID now RoleModerator
          city (some p.ID) registerDate s m =
        ((none, some domainerrors.ErrPVZAlreadyExists), s, m) := by
    intro run2 h2
    cases registerDate <;>
      simp [CreatePVZ, hmod, hcity, NewPostgresqlPVZRepository, postgresqlPVZRepository.Create,
        h2, hany, errors.Is]
  refine ⟨hsvc run h0, hrepo _, by decide, ?_⟩
  intro run2
  by_cases h2 : run2.fail 0 = true
  · refine ⟨domainerrors.ErrUnexpected, ?_, Or.inr rfl⟩
    cases registerDate <;>
      simp [CreatePVZ, hmod, hcity, NewPostgresqlPVZRepository, postgresqlPVZRepository.Create,
        h2, errors.Is]
  · exact ⟨domainerrors.ErrPVZAlreadyExists, hsvc run2 (by simpa using h2), Or.inl rfl⟩

open pvzServiceImpl postgresqlrepo in
/-- Witness of C25 on the sample store: pickup point 1 of Москва, registered at
time 0, is asked for again as a pickup point of Казань. -/
theorem C25_duplicate_pickup_point_witness :
    sampleRun.fail 0 = false ∧ CityType.Valid "Казань" = true ∧
    (⟨1, 0, "Москва"⟩ : pvzRow) ∈ sampleStore.pvzs ∧
    CreatePVZ (NewPostgresqlPVZRepository sampleRun (fun _ => 0) (fun _ => 0) (fun _ => 0)) 7 3
        RoleModerator "Казань" (some 1) none sampleStore zeroCounters =
      ((none, some domainerrors.ErrPVZAlreadyExists), sampleStore, zeroCounters) :=
  ⟨rfl, by decide, by decide,
    (C25_duplicate_pickup_point sampleRun (fun _ => 0) (fun _ => 0) (fun _ => 0) sampleStore
      ⟨1, 0, "Москва"⟩ "Казань" none 7 3 zeroCounters rfl (by decide) (by decide)).1⟩

/-! ## Errors of the repository in the hands of the services -/

/-- The translation that `CloseLastReception`, `AddProduct` and `DeleteLastProduct`
apply to an error of the repository keeps the state-conflict kinds and yields the
generic kind for the repository's unexpected kind only. -/
theorem kinds_kept (err : GoError)
    (hrepo : err = databaseerrors.ErrUnexpected ∨ err = databaseerrors.ErrNoRows ∨
      err = domainerrors.ErrOpenReceptionExists ∨ err = domainerrors.ErrNoOpenReceptions ∨
      err = domainerrors.ErrNoProductsInReception) :
    (err = domainerrors.ErrOpenReceptionExists ∨ err = domainerrors.ErrNoOpenReceptions ∨
        err = domainerrors.ErrNoProductsInReception →
      (if errors.Is err databaseerrors.ErrUnexpected = true then domainerrors.ErrUnexpected
        else err) = err) ∧
    (errors.Is (if errors.Is err databaseerrors.ErrUnexpected = true then
        domainerrors.ErrUnexpected else err) domainerrors.ErrUnexpected = true ↔
      err = databaseerrors.ErrUnexpected) := by
  rcases hrepo with rfl | rfl | rfl | rfl | rfl <;> decide

/-- The translation that `CreateReceptionIfNoOpen` applies to an error of the
repository keeps the state-conflict kinds and yields the generic kind for the
repository's unexpected kind only. -/
theorem kinds_kept_create (err : GoError)
    (hrepo : err = databaseerrors.ErrUnexpected ∨ err = databaseerrors.ErrNoRows ∨
      err = domainerrors.ErrOpenReceptionExists ∨ err = domainerrors.ErrNoOpenReceptions ∨
      err = domainerrors.ErrNoProductsInReception) :
    (err = domainerrors.ErrOpenReceptionExists ∨ err = domainerrors.ErrNoOpenReceptions ∨
        err = domainerrors.ErrNoProductsInReception →
      (if errors.Is err databaseerrors.ErrUnexpected = true then domainerrors.ErrUnexpected
        else if errors.Is err databaseerrors.ErrNoRows = true then domainerrors.ErrPVZNotFound
        else err) = err) ∧
    (errors.Is (if errors.Is err databaseerrors.ErrUnexpected = true then
        domainerrors.ErrUnexpected
        else if errors.Is err databaseerrors.ErrNoRows = true then domainerrors.ErrPVZNotFound
        else err) domainerrors.ErrUnexpected = true ↔
      err = databaseerrors.ErrUnexpected) := by
  rcases hrepo with rfl | rfl | rfl | rfl | rfl <;> decide

open receptionServiceImpl productServiceImpl in
/-- Claim C26: let the repository return the error `err`, one of the errors that
the repository methods return (ErrUnexpected and ErrNoRows of the database
package, ErrOpenReceptionExists, ErrNoOpenReceptions, ErrNoProductsInReception).
Then each of CreateReceptionIfNoOpen, CloseLastReception, AddProduct (valid type)
and DeleteLastProduct, called with role employee, returns an error and no result;
the error is `err` itself when `err` is one of the three state-conflict errors,
and it is of the generic unexpected kind exactly when `err` is the repository's
ErrUnexpected. -/
theorem C26_error_kinds_kept {σ τ : Type} (recRepo : repositories.IReceptionRepo σ)
    (prodRepo : repositories.IProductRepo τ) (err : GoError)
    (hrepo : err = databaseerrors.ErrUnexpected ∨ err = databaseerrors.ErrNoRows ∨
      err = domainerrors.ErrOpenReceptionExists ∨ err = domainerrors.ErrNoOpenReceptions ∨
      err = domainerrors.ErrNoProductsInReception) :
    (∀ (newID : UUID) (now : Time) (pvzID : UUID) (st : σ) (m : metrics.Counters),
      (recRepo.CreateIfNoOpen st ⟨newID, now, pvzID, ReceptionStatusInProgress⟩).1 = some err →
      ∃ e, (CreateReceptionIfNoOpen recRepo newID now RoleEmployee pvzID st m).1 =
          (none, some e) ∧
        (err = domainerrors.ErrOpenReceptionExists ∨ err = domainerrors.ErrNoOpenReceptions ∨
          err = domainerrors.ErrNoProductsInReception → e = err) ∧
        (errors.Is e domainerrors.ErrUnexpected = true ↔ err = databaseerrors.ErrUnexpected)) ∧
    (∀ (pvzID : UUID) (st : σ), (recRepo.CloseLast st pvzID).1.2 = some err →
      ∃ e, (CloseLastReception recRepo RoleEmployee pvzID st).1 = (none, some e) ∧
        (err = domainerrors.ErrOpenReceptionExists ∨ err = domainerrors.ErrNoOpenReceptions ∨
          err = domainerrors.ErrNoProductsInReception → e = err) ∧
        (errors.Is e domainerrors.ErrUnexpected = true ↔ err = databaseerrors.ErrUnexpected)) ∧
    (∀ (newID : UUID) (now : Time) (productType : String) (pvzID : UUID) (st : τ)
        (m : metrics.Counters), ProductType.Valid productType = true →
      (prodRepo.Create st ⟨newID, now, productType, pvzID⟩).1.2 = some err →
      ∃ e, (productServiceImpl.AddProduct prodRepo newID now RoleEmployee productType pvzID st
          m).1 = (none, some e) ∧
        (err = domainerrors.ErrOpenReceptionExists ∨ err = domainerrors.ErrNoOpenReceptions ∨
          err = domainerrors.ErrNoProductsInReception → e = err) ∧
        (errors.Is e domainerrors.ErrUnexpected = true ↔ err = databaseerrors.ErrUnexpected)) ∧
    (∀ (pvzID : UUID) (st : τ), (prodRepo.DeleteLast st pvzID).1 = some err →
      ∃ e, (DeleteLastProduct prodRepo RoleEmployee pvzID st).1 = some e ∧
        (err = domainerrors.ErrOpenReceptionExists ∨ err = domainerrors.ErrNoOpenReceptions ∨
          err = domainerrors.ErrNoProductsInReception → e = err) ∧
        (errors.Is e domainerrors.ErrUnexpected = true ↔ err = databaseerrors.ErrUnexpected)) := by
  refine ⟨?_, ?_, ?_, ?_⟩
  · intro newID now pvzID st m h
    rcases hc : recRepo.CreateIfNoOpen st ⟨newID, now, pvzID, ReceptionStatusInProgress⟩ with
      ⟨e0, st1⟩
    rw [hc] at h
    simp only at h
    subst h
    rw [CreateReceptionIfNoOpen_of_error recRepo newID now pvzID st st1 m err hc]
    exact ⟨_, rfl, kinds_kept_create err hrepo⟩
  · intro pvzID st h
    rcases hc : recRepo.CloseLast st pvzID with ⟨⟨r, e0⟩, st1⟩
    rw [hc] at h
    simp only at h
    subst h
    rw [CloseLastReception_of_error recRepo pvzID st st1 r err hc]
    exact ⟨_, rfl, kinds_kept err hrepo⟩
  · intro newID now productType pvzID st m hv h
    rcases hc : prodRepo.Create st ⟨newID, now, productType, pvzID⟩ with ⟨⟨r, e0⟩, st1⟩
    rw [hc] at h
    simp only at h
    subst h
    rw [AddProduct_of_error prodRepo newID now productType pvzID st st1 m r err hv hc]
    exact ⟨_, rfl, kinds_kept err hrepo⟩
  · intro pvzID st h
    rcases hc : prodRepo.DeleteLast st pvzID with ⟨e0, st1⟩
    rw [hc] at h
    simp only at h
    subst h
    rw [DeleteLastProduct_of_error prodRepo pvzID st st1 err hc]
    exact ⟨_, rfl, kinds_kept err hrepo⟩

open receptionServiceImpl productServiceImpl in
/-- Witness of C26 with the error ErrNoOpenReceptions from the recording double of
the reception repository. -/
theorem C26_error_kinds_kept_witness :
    (domainerrors.ErrNoOpenReceptions = databaseerrors.ErrUnexpected ∨
      domainerrors.ErrNoOpenReceptions = databaseerrors.ErrNoRows ∨
      domainerrors.ErrNoOpenReceptions = domainerrors.ErrOpenReceptionExists ∨
      domainerrors.ErrNoOpenReceptions = domainerrors.ErrNoOpenReceptions ∨
      domainerrors.ErrNoOpenReceptions = domainerrors.ErrNoProductsInReception) ∧
    ((recordingReceptionRepo none (some domainerrors.ErrNoOpenReceptions)).CloseLast [] 1).1.2 =
      some domainerrors.ErrNoOpenReceptions ∧
    ∃ e, (CloseLastReception (recordingReceptionRepo none (some domainerrors.ErrNoOpenReceptions))
        RoleEmployee 1 []).1 = (none, some e) ∧
      (domainerrors.ErrNoOpenReceptions = domainerrors.ErrOpenReceptionExists ∨
          domainerrors.ErrNoOpenReceptions = domainerrors.ErrNoOpenReceptions ∨
          domainerrors.ErrNoOpenReceptions = domainerrors.ErrNoProductsInReception →
        e = domainerrors.ErrNoOpenReceptions) ∧
      (errors.Is e domainerrors.ErrUnexpected = true ↔
        domainerrors.ErrNoOpenReceptions = databaseerrors.ErrUnexpected) :=
  ⟨by decide, rfl,
    (C26_error_kinds_kept (recordingReceptionRepo none (some domainerrors.ErrNoOpenReceptions))
      (recordingProductRepo none (some domainerrors.ErrNoOpenReceptions))
      domainerrors.ErrNoOpenReceptions (by decide)).2.1 1 [] rfl⟩

end service

namespace postgresqlrepo

/-! ## Calls addressed to one pickup point leave the others alone -/

theorem closeFor_PVZID (P : UUID) (r : receptionRow) : (closeFor P r).PVZID = r.PVZID := by
  unfold closeFor setClose
  split <;> rfl

/-- The update of `CloseLast` leaves the receptions of other pickup points as
they are. -/
theorem closeFor_of_other (P Q : UUID) (hPQ : Q ≠ P) (r : receptionRow)
    (h : r.PVZID = Q) : closeFor P r = r := by
  unfold closeFor
  rw [if_neg]
  simp [isOpenFor, h, hPQ]

/-- A product owned by a reception of one pickup point belongs to no other, by
the primary key of `receptions`. -/
theorem not_productsAt_of_owner (s : Store) (hkeys : s.keysUnique) (P Q : UUID) (hPQ : Q ≠ P)
    (o : receptionRow) (ho : o ∈ s.receptions) (hoP : o.PVZID = P) (rid : UUID)
    (hrid : o.ID = rid) :
    s.receptions.any (fun r => r.ID == rid && r.PVZID == Q) = false := by
  rw [List.any_eq_false]
  intro r hr hc
  simp only [Bool.and_eq_true, beq_iff_eq] at hc
  have heq : r = o := List.inj_on_of_nodup_map hkeys.2.1 hr ho (by rw [hc.1, hrid])
  rw [heq, hoP] at hc
  exact hPQ hc.2.symm

/-- Claim C27: a call of CreateIfNoOpen, CloseLast, product Create or DeleteLast
addressed to pickup point P, whatever it returns and whatever the connection
does, leaves the pickup points as they are and, for every other pickup point Q,
the receptions of Q and the products owned by receptions of Q, in a store that
keeps its primary keys. -/
theorem C27_other_pickup_points_untouched (run : DbRun) (op : Op) (s : Store) (P Q : UUID)
    (hkeys : s.keysUnique) (hop : op.pvzID = some P) (hPQ : Q ≠ P) :
    (op.apply run s).pvzs = s.pvzs ∧
    receptionsAt (op.apply run s) Q = receptionsAt s Q ∧
    productsAt (op.apply run s) Q = productsAt s Q := by
  cases op with
  | receptionCreateIfNoOpen reception =>
    simp only [Op.pvzID, Option.some.injEq] at hop
    rcases CreateIfNoOpen_outcome run s reception with ⟨e, he⟩ | ⟨he, -, -, -⟩
    · simp only [Op.apply, he, and_self]
    · simp only [Op.apply, he, receptionsAt, productsAt, true_and]
      have hrow : ((postgresqlReceptionRepository.toRow reception).PVZID == Q) = false := by
        simp only [postgresqlReceptionRepository.toRow, hop]
        simpa using fun h : P = Q => hPQ h.symm
      constructor
      · rw [List.filter_append]
        simp [hrow]
      · apply List.filter_congr
        intro x _
        rw [List.any_append]
        simp [hrow]
  | receptionCloseLast pvzID =>
    simp only [Op.pvzID, Option.some.injEq] at hop
    subst hop
    rcases CloseLast_outcome run s pvzID with ⟨e, he⟩ | ⟨row, he, -, -⟩
    · simp only [Op.apply, he, and_self]
    · simp only [Op.apply, he, receptionsAt, productsAt, true_and]
      constructor
      · rw [List.filter_map]
        have h1 : ((fun r : receptionRow => r.PVZID == Q) ∘ closeFor pvzID) =
            fun r => r.PVZID == Q := by
          funext r
          simp [closeFor_PVZID]
        rw [h1]
        conv_rhs => rw [← List.map_id (s.receptions.filter (fun r => r.PVZID == Q))]
        apply List.map_congr_left
        intro r hr
        have hq := (List.mem_filter.mp hr).2
        exact closeFor_of_other pvzID Q hPQ r (by simpa using hq)
      · apply List.filter_congr
        intro x _
        rw [List.any_map]
        congr 1
        funext r
        simp [closeFor_PVZID, closeFor_ID]
  | productCreate product =>
    simp only [Op.pvzID, Option.some.injEq] at hop
    rcases Create_outcome run s product with ⟨e, he⟩ | ⟨id, hg, he, -⟩
    · simp only [Op.apply, he, and_self]
    · simp only [Op.apply, he, receptionsAt, productsAt, true_and]
      obtain ⟨o, ho, hopen, hoid, -⟩ := getOpenReceptionID_ok run 1 s product.PVZID id hg
      have hoP : o.PVZID = P := by
        rw [← hop]
        exact ((isOpenFor_iff _ o).mp hopen).1
      rw [List.filter_append]
      have hnew := not_productsAt_of_owner s hkeys P Q hPQ o ho hoP id hoid
      simp [postgresqlProductRepository.newRow, hnew]
  | productDeleteLast pvzID =>
    simp only [Op.pvzID, Option.some.injEq] at hop
    subst hop
    rcases DeleteLast_outcome run s pvzID with ⟨e, he⟩ | ⟨id, hg, he, -⟩
    · simp only [Op.apply, he, and_self]
    · simp only [Op.apply, he, receptionsAt, productsAt, true_and]
      obtain ⟨o, ho, hopen, hoid, -⟩ := getOpenReceptionID_ok run 1 s pvzID id hg
      have hoP : o.PVZID = pvzID := ((isOpenFor_iff _ o).mp hopen).1
      by_cases hp : s.products.filter (fun p => p.ReceptionID == id) = []
      · rw [deleteLastRows_of_nil _ _ _ hp]
      · obtain ⟨last, hm, hrid, -, hd⟩ :=
          deleteLastRows_of_ne_nil (run.pick 2) s.products id hp
        rw [hd, List.filter_filter]
        apply List.filter_congr
        intro x hx
        by_cases hb : s.receptions.any (fun r => r.ID == x.ReceptionID && r.PVZID == Q) = true
        · have hne : x.ID ≠ last.ID := by
            intro hc
            have hxl : x = last := List.inj_on_of_nodup_map hkeys.2.2 hx hm hc
            have hnew := not_productsAt_of_owner s hkeys pvzID Q hPQ o ho hoP x.ReceptionID
              (by rw [hxl, hrid, hoid])
            rw [hnew] at hb
            exact absurd hb (by simp)
          simp [hb, hne]
        · simp [hb]
  | pvzCreate pvz => simp [Op.pvzID] at hop

/-- Witness of C27 on the sample store: opening a reception at pickup point 2
leaves the two receptions and the four products of pickup point 1 as they are. -/
theorem C27_other_pickup_points_untouched_witness :
    sampleStore.keysUnique ∧
    (Op.receptionCreateIfNoOpen ⟨20, 6, 2, "in_progress"⟩).pvzID = some 2 ∧ (1 : UUID) ≠ 2 ∧
    ((Op.receptionCreateIfNoOpen ⟨20, 6, 2, "in_progress"⟩).apply sampleRun sampleStore).receptions
      = sampleStore.receptions ++ [⟨20, 6, 2, "in_progress"⟩] ∧
    receptionsAt ((Op.receptionCreateIfNoOpen ⟨20, 6, 2, "in_progress"⟩).apply sampleRun
      sampleStore) 1 = [⟨10, 5, 1, "close"⟩, ⟨11, 8, 1, "in_progress"⟩] ∧
    productsAt ((Op.receptionCreateIfNoOpen ⟨20, 6, 2, "in_progress"⟩).apply sampleRun
      sampleStore) 1 = sampleStore.products :=
  ⟨by decide, rfl, by decide, by decide,
    (C27_other_pickup_points_untouched sampleRun
      (Op.receptionCreateIfNoOpen ⟨20, 6, 2, "in_progress"⟩) sampleStore 2 1 (by decide) rfl
      (by decide)).2.1.trans (by decide),
    (C27_other_pickup_points_untouched sampleRun
      (Op.receptionCreateIfNoOpen ⟨20, 6, 2, "in_progress"⟩) sampleStore 2 1 (by decide) rfl
      (by decide)).2.2.trans (by decide)⟩

end postgresqlrepo

namespace postgresqlrepo

/-! ## Two calls of `CreateIfNoOpen` at once -/

open postgresqlReceptionRepository in
/-- A call that takes its five round trips with no other call in between does what
the method `CreateIfNoOpen` does: the same store is left and the same error
returned. -/
theorem runSchedule_alone (run : DbRun) (s : Store) (reception : models.Reception) :
    (runSchedule [0, 0, 0, 0, 0] s [CreateIfNoOpenCall.start run reception]).1 =
      (CreateIfNoOpen run s reception).2 ∧
    (runSchedule [0, 0, 0, 0, 0] s [CreateIfNoOpenCall.start run reception]).2.map
        (fun c => c.returned) = [some (CreateIfNoOpen run s reception).1] := by
  unfold CreateIfNoOpen
  by_cases h0 : run.fail 0 = true
  · simp [runSchedule, stepAt, CreateIfNoOpenCall.step, CreateIfNoOpenCall.start, h0]
  by_cases h1 : run.fail 1 = true
  · simp [runSchedule, stepAt, CreateIfNoOpenCall.step, CreateIfNoOpenCall.start, h0, h1]
  by_cases hp : s.pvzs.any (fun p => p.ID == reception.PVZID) = true
  swap
  · simp [runSchedule, stepAt, CreateIfNoOpenCall.step, CreateIfNoOpenCall.start, h0, h1, hp]
  by_cases h2 : run.fail 2 = true
  · simp [runSchedule, stepAt, CreateIfNoOpenCall.step, CreateIfNoOpenCall.start, h0, h1, hp,
      h2]
  by_cases ho : s.receptions.any (isOpenFor reception.PVZID) = true
  · simp [runSchedule, stepAt, CreateIfNoOpenCall.step, CreateIfNoOpenCall.start, h0, h1, hp,
      h2, ho]
  by_cases h3 : run.fail 3 = true
  · simp [runSchedule, stepAt, CreateIfNoOpenCall.step, CreateIfNoOpenCall.start, h0, h1, hp,
      h2, ho, h3]
  cases hi : insertReception s (toRow reception) with
  | none =>
    simp [runSchedule, stepAt, CreateIfNoOpenCall.step, CreateIfNoOpenCall.start, h0, h1, hp,
      h2, ho, h3, hi]
  | some s1 =>
    by_cases h4 : run.fail 4 = true
    · simp [runSchedule, stepAt, CreateIfNoOpenCall.step, CreateIfNoOpenCall.start, h0, h1, hp,
        h2, ho, h3, hi, h4]
    · simp [runSchedule, stepAt, CreateIfNoOpenCall.step, CreateIfNoOpenCall.start, h0, h1, hp,
        h2, ho, h3, hi, h4]

open postgresqlReceptionRepository in
/-- The race in general: a stored pickup point without an open reception, two
calls of `CreateIfNoOpen` for it with different free keys on working
connections, round trips in turn.  Both calls return nil and both rows are
committed. -/
theorem runSchedule_race (runA runB : DbRun) (s : Store) (a b : models.Reception)
    (hA : runA.ok) (hB : runB.ok) (hP : b.PVZID = a.PVZID)
    (hpvz : s.pvzs.any (fun p => p.ID == a.PVZID) = true)
    (hno : s.receptions.any (isOpenFor a.PVZID) = false)
    (hfa : s.receptions.any (fun r => r.ID == a.ID) = false)
    (hfb : s.receptions.any (fun r => r.ID == b.ID) = false) (hab : a.ID ≠ b.ID) :
    (runSchedule [0, 1, 0, 1, 0, 1, 0, 1, 0, 1] s
      [CreateIfNoOpenCall.start runA a, CreateIfNoOpenCall.start runB b]).1 =
      ⟨s.pvzs, s.receptions ++ [toRow a, toRow b], s.products⟩ ∧
    (runSchedule [0, 1, 0, 1, 0, 1, 0, 1, 0, 1] s
      [CreateIfNoOpenCall.start runA a, CreateIfNoOpenCall.start runB b]).2.map
        (fun c => c.returned) = [some none, some none] := by
  have hia : insertReception s (toRow a) =
      some ⟨s.pvzs, s.receptions ++ [toRow a], s.products⟩ := by
    unfold insertReception
    rw [if_neg (by simpa [toRow] using hfa), if_neg (by simpa [toRow] using hpvz)]
  have hib0 : insertReception s (toRow b) =
      some ⟨s.pvzs, s.receptions ++ [toRow b], s.products⟩ := by
    unfold insertReception
    rw [if_neg (by simpa [toRow] using hfb), if_neg (by simpa [toRow, hP] using hpvz)]
  have hib : insertReception ⟨s.pvzs, s.receptions ++ [toRow a], s.products⟩ (toRow b) =
      some ⟨s.pvzs, s.receptions ++ [toRow a, toRow b], s.products⟩ := by
    unfold insertReception
    have h1 : (s.receptions ++ [toRow a]).any (fun r => r.ID == (toRow b).ID) = false := by
      rw [List.any_append, show s.receptions.any (fun r => r.ID == (toRow b).ID) = false from
        by simpa [toRow] using hfb]
      simpa [toRow] using hab
    simp only [h1, Bool.false_eq_true, if_false]
    rw [if_neg (by simpa [toRow, hP] using hpvz)]
    simp
  simp [runSchedule, stepAt, CreateIfNoOpenCall.step, CreateIfNoOpenCall.start, hA 0, hA 1,
    hA 2, hA 3, hA 4, hB 0, hB 1, hB 2, hB 3, hB 4, hpvz, hno, hP, hia, hib0, hib]

/-- Claim C28, which the code does not meet: pickup point 1 has no reception, and
two calls of CreateIfNoOpen for it, with the receptions 20 and 21, take their round
trips in turn.  Both make the open-reception check before either inserts, both
find no open reception, both insert and commit, and both return nil: pickup point
1 ends with two receptions in_progress and invariant I1 is broken.  When the
second call starts after the first has committed, it returns
ErrOpenReceptionExists. -/
theorem C28_concurrent_opens_both_succeed :
    openReceptions sampleFiveStore 1 = [] ∧ sampleFiveStore.keysUnique ∧
    (runSchedule [0, 1, 0, 1, 0, 1, 0, 1, 0, 1] sampleFiveStore sampleCalls).2.map
        (fun c => c.returned) = [some none, some none] ∧
    (runSchedule [0, 1, 0, 1, 0, 1, 0, 1, 0, 1] sampleFiveStore sampleCalls).1.receptions =
      [⟨20, 6, 1, "in_progress"⟩, ⟨21, 7, 1, "in_progress"⟩] ∧
    (openReceptions (runSchedule [0, 1, 0, 1, 0, 1, 0, 1, 0, 1] sampleFiveStore
      sampleCalls).1 1).length = 2 ∧
    ¬ I1 (runSchedule [0, 1, 0, 1, 0, 1, 0, 1, 0, 1] sampleFiveStore sampleCalls).1 ∧
    (runSchedule [0, 0, 0, 0, 0, 1, 1, 1, 1, 1] sampleFiveStore sampleCalls).2.map
        (fun c => c.returned) =
      [some none, some (some domainerrors.ErrOpenReceptionExists)] := by
  refine ⟨by decide, by decide, by decide, by decide, by decide, ?_, by decide⟩
  intro h
  exact absurd (h 1) (by decide)

end postgresqlrepo

namespace postgresqlrepo
open postgresqlPVZRepository (listedMaps listedRow enterPVZ enterReception enterProduct
  appendReception appendProduct deref assemble listedToModel)

/-! ## The products of the listed receptions -/

theorem enterPVZ_receptionMap (m : listedMaps) (row : listedPVZRow) :
    (enterPVZ m row).receptionMap = m.receptionMap := by
  unfold enterPVZ
  split <;> rfl

/-- What `enterReception` does to `receptionMap`: nothing when the key is there,
else it appends the reception of the row with empty, non-nil `Products`. -/
theorem enterReception_receptionMap (m m2 : listedMaps) (row : listedPVZRow) (rid : UUID)
    (h : enterReception m row rid = some m2) :
    (m.receptionMap.any (fun e => e.1 == rid) = true ∧ m2.receptionMap = m.receptionMap) ∨
    (m.receptionMap.any (fun e => e.1 == rid) = false ∧
      ∃ date status, m2.receptionMap =
        m.receptionMap ++ [(rid, ⟨⟨rid, date, row.ID, status⟩, some []⟩)]) := by
  unfold enterReception at h
  by_cases hk : m.receptionMap.any (fun e => e.1 == rid) = true
  · rw [if_pos hk] at h
    cases h
    exact Or.inl ⟨hk, rfl⟩
  · rw [if_neg hk] at h
    right
    refine ⟨Bool.eq_false_iff.mpr hk, ?_⟩
    cases hd : row.ReceptionDate with
    | none => simp [hd] at h
    | some date =>
      cases hs : row.ReceptionStatus with
      | none => simp [hd, hs] at h
      | some status =>
        simp only [hd, hs, Option.some.injEq] at h
        exact ⟨date, status, by rw [← h]⟩

/-- What `enterProduct` does to `receptionMap`: nothing when the row has no
product, else it appends the product of the row to the entry of its reception. -/
theorem enterProduct_receptionMap (m m2 : listedMaps) (row : listedPVZRow) (rid : UUID)
    (h : enterProduct m row rid = some m2) :
    (row.ProductID = none ∧ m2 = m) ∨
    (∃ pid date type, row.ProductID = some pid ∧ row.ProductDate = some date ∧
      row.ProductType = some type ∧
      m2.receptionMap = m.receptionMap.map (appendProduct rid ⟨pid, date, type, rid⟩)) := by
  unfold enterProduct at h
  cases hp : row.ProductID with
  | none =>
    simp only [hp, Option.some.injEq] at h
    exact Or.inl ⟨rfl, h.symm⟩
  | some pid =>
    right
    cases hd : row.ProductDate with
    | none => simp [hp, hd] at h
    | some date =>
      cases ht : row.ProductType with
      | none => simp [hp, hd, ht] at h
      | some type =>
        simp only [hp, hd, ht, Option.some.injEq] at h
        exact ⟨pid, date, type, rfl, rfl, rfl, by rw [← h]⟩

/-- The products of the rows of one reception, with one more row. -/
theorem products_append_singleton (pre : List listedPVZRow) (row : listedPVZRow) (k : UUID) :
    ((pre ++ [row]).filter (fun r => r.ReceptionID == some k)).filterMap listedPVZRow.product =
      (pre.filter (fun r => r.ReceptionID == some k)).filterMap listedPVZRow.product ++
        (if row.ReceptionID = some k then row.product.toList else []) := by
  rw [List.filter_append, List.filterMap_append]
  congr 1
  by_cases h : row.ReceptionID = some k
  · simp only [h, if_true]
    simp only [List.filter_cons, h, beq_self_eq_true, if_true, List.filter_nil]
    cases hp : row.product <;> simp [hp]
  · simp only [h, if_false]
    have hb : (row.ReceptionID == some k) = false := by simpa using h
    simp only [List.filter_cons, hb, Bool.false_eq_true, if_false, List.filter_nil,
      List.filterMap_nil]

/-- One pass of the loop body of `listedToModel` keeps the `Products` of every
entry of `receptionMap` equal to the products of the rows of that reception. -/
theorem listedProducts_step {pre : List listedPVZRow} {m0 : listedMaps}
    (inv : listedInv pre m0)
    (ih : ∀ x ∈ m0.receptionMap, x.2.Products =
      some ((pre.filter (fun r => r.ReceptionID == some x.1)).filterMap listedPVZRow.product))
    (row : listedPVZRow) (m : listedMaps) (hs : listedRow m0 row = some m) :
    ∀ x ∈ m.receptionMap, x.2.Products =
      some (((pre ++ [row]).filter (fun r => r.ReceptionID == some x.1)).filterMap
        listedPVZRow.product) := by
  unfold listedRow at hs
  cases hrid : row.ReceptionID with
  | none =>
    rw [hrid] at hs
    simp only [Option.some.injEq] at hs
    subst hs
    intro x hx
    rw [enterPVZ_receptionMap] at hx
    rw [products_append_singleton, ih x hx, hrid]
    simp
  | some rid =>
    rw [hrid] at hs
    simp only at hs
    cases h2 : enterReception (enterPVZ m0 row) row rid with
    | none => rw [h2] at hs; cases hs
    | some m2 =>
      rw [h2] at hs
      simp only at hs
      have hA : ∀ x ∈ m2.receptionMap, x.2.Products =
          some ((pre.filter (fun r => r.ReceptionID == some x.1)).filterMap
            listedPVZRow.product) := by
        rcases enterReception_receptionMap _ _ _ _ h2 with ⟨-, heq⟩ | ⟨hk, date, status, heq⟩
        · intro x hx
          rw [heq, enterPVZ_receptionMap] at hx
          exact ih x hx
        · intro x hx
          rw [heq, enterPVZ_receptionMap] at hx
          rcases List.mem_append.mp hx with hx | hx
          · exact ih x hx
          · simp only [List.mem_singleton] at hx
            subst hx
            rw [enterPVZ_receptionMap, inv.reception_any rid] at hk
            have hnil : pre.filter (fun r => r.ReceptionID == some rid) = [] := by
              rw [List.filter_eq_nil_iff]
              intro r hr hc
              rw [List.any_eq_false] at hk
              exact hk r hr hc
            simp [hnil]
      rcases enterProduct_receptionMap _ _ _ _ hs with ⟨hnone, heq⟩ |
        ⟨pid, date, type, hpid, hdate, htype, heq⟩
      · subst heq
        intro x hx
        have hprod : row.product = none := by
          simp [listedPVZRow.product, hrid, hnone]
        rw [products_append_singleton, hA x hx, hprod]
        simp
      · have hprod : row.product = some ⟨pid, date, type, rid⟩ := by
          simp [listedPVZRow.product, hrid, hpid, hdate, htype]
        intro x hx
        rw [heq] at hx
        obtain ⟨y, hy, hxy⟩ := List.mem_map.mp hx
        have hyP := hA y hy
        rw [products_append_singleton, hrid, hprod]
        unfold appendProduct at hxy
        by_cases hk : y.1 = rid
        · have hb : (y.1 == rid) = true := by simpa using hk
          rw [if_pos hb] at hxy
          subst hxy
          simp only [hyP, Option.getD_some, hk, if_true, Option.toList_some]
        · have hb : ¬ (y.1 == rid) = true := by simpa using hk
          rw [if_neg hb] at hxy
          subst hxy
          have hne : ¬ (some rid = some y.1) := by
            intro hc
            exact hk (Option.some.inj hc).symm
          rw [hyP, if_neg hne]
          simp

/-- Once the rows are consumed, every entry of `receptionMap` holds the products
of the rows of its reception, in row order. -/
theorem listedProducts_of_foldlM (rows : List listedPVZRow) :
    ∀ m : listedMaps, rows.foldlM listedRow ⟨[], []⟩ = some m →
      ∀ x ∈ m.receptionMap, x.2.Products =
        some ((rows.filter (fun r => r.ReceptionID == some x.1)).filterMap
          listedPVZRow.product) := by
  induction rows using List.reverseRecOn with
  | nil =>
    intro m hm
    simp only [List.foldlM_nil] at hm
    cases hm
    intro x hx
    simp at hx
  | append_singleton pre row ih =>
    intro m hm
    obtain ⟨m0, h0, hstep⟩ := (foldlM_listedRow_snoc pre row _ m).mp hm
    exact listedProducts_step (listedInv_of_foldlM pre m0 h0) (ih m0 h0) row m hstep

end postgresqlrepo

namespace postgresqlrepo
open postgresqlPVZRepository (listedMaps listedRow enterPVZ enterReception enterProduct
  appendReception appendProduct deref assemble listedToModel)

theorem length_filterMap_eq {α β : Type} (f : α → Option β) (l : List α) :
    (l.filterMap f).length = (l.filter (fun a => (f a).isSome)).length := by
  induction l with
  | nil => rfl
  | cons a t ih =>
    cases h : f a with
    | none => simp [List.filterMap_cons, List.filter_cons, h, ih]
    | some b => simp [List.filterMap_cons, List.filter_cons, h, ih]

/-- The product built from a row scanned from the query carries the product id of
the row, and there is one exactly when the row has a product id. -/
theorem product_of_scanned (a : listedPVZRow) (h : a.scanned = true) (rid : UUID)
    (hr : a.ReceptionID = some rid) :
    a.product.map (fun p => p.ID) = a.ProductID ∧
    a.product.isSome = a.ProductID.isSome ∧
    ∀ p, a.product = some p → p.ReceptionID = rid := by
  unfold listedPVZRow.scanned at h
  simp only [Bool.and_eq_true, Bool.or_eq_true] at h
  cases hp : a.ProductID with
  | none => simp [listedPVZRow.product, hr, hp]
  | some pid =>
    have h2 := h.2
    rw [hp] at h2
    simp only [Option.isNone_some, Bool.false_eq_true, false_or] at h2
    obtain ⟨d, hd⟩ := Option.isSome_iff_exists.mp h2.1
    obtain ⟨ty, hty⟩ := Option.isSome_iff_exists.mp h2.2
    simp only [listedPVZRow.product, hr, hp, hd, hty, Option.map_some', Option.isSome_some,
      Option.some.injEq, true_and]
    intro p hp2
    rw [← hp2]

/-- Claim C29: over any rows filled by `StructScan`, `listedToModel` returns a
result in which the `Products` of every reception are non-nil and are the
products built from the rows that carry the id of that reception and a product
id, one per such row in row order, each with the product id, date and type of its
row and with `ReceptionID` the id of that reception; a reception whose rows carry
no product has an empty list. -/
theorem C29_products_of_reception (mapOrder : Nat → Nat) (rows : List listedPVZRow)
    (hscan : ∀ row ∈ rows, row.scanned = true) :
    ∃ result, listedToModel mapOrder rows = some result ∧
      ∀ e ∈ result, ∃ l, e.Receptions = some l ∧ ∀ rc ∈ l, ∃ ps, rc.Products = some ps ∧
        ps = (rows.filter (fun r => r.ReceptionID == some rc.Reception.ID)).filterMap
          listedPVZRow.product ∧
        ps.map (fun p => p.ID) =
          (rows.filter (fun r => r.ReceptionID == some rc.Reception.ID)).filterMap
            listedPVZRow.ProductID ∧
        (∀ p ∈ ps, p.ReceptionID = rc.Reception.ID) ∧
        ps.length = (rows.filter
          (fun r => r.ReceptionID == some rc.Reception.ID && r.ProductID.isSome)).length ∧
        ((∀ row ∈ rows, row.ReceptionID = some rc.Reception.ID → row.ProductID = none) →
          ps = []) := by
  obtain ⟨m, hm⟩ := foldlM_listedRow_isSome rows hscan ⟨[], []⟩
  have inv := listedInv_of_foldlM rows m hm
  have hP := listedProducts_of_foldlM rows m hm
  refine ⟨(shuffle mapOrder m.pvzMap).map (assemble m), by simp [listedToModel, hm], ?_⟩
  intro e he
  obtain ⟨e0, -, rfl⟩ := List.mem_map.mp he
  refine ⟨_, rfl, ?_⟩
  intro rc hrc
  obtain ⟨rid0, -, hderef⟩ := List.mem_filterMap.mp hrc
  unfold deref at hderef
  cases hf : m.receptionMap.find? (fun e => e.1 == rid0) with
  | none => rw [hf] at hderef; cases hderef
  | some x =>
    rw [hf] at hderef
    simp only [Option.map_some', Option.some.injEq] at hderef
    subst hderef
    have hx := List.mem_of_find?_eq_some hf
    have hkey := inv.recKeys x hx
    have hprod := hP x hx
    rw [hkey] at hprod
    have hrows : ∀ a ∈ rows.filter (fun r => r.ReceptionID == some x.2.Reception.ID),
        a.scanned = true ∧ a.ReceptionID = some x.2.Reception.ID := by
      intro a ha
      have h1 := List.mem_filter.mp ha
      exact ⟨hscan a h1.1, by simpa using h1.2⟩
    refine ⟨_, hprod, rfl, ?_, ?_, ?_, ?_⟩
    · rw [List.map_filterMap]
      apply List.filterMap_congr
      intro a ha
      exact (product_of_scanned a (hrows a ha).1 _ (hrows a ha).2).1
    · intro p hp
      obtain ⟨a, ha, hap⟩ := List.mem_filterMap.mp hp
      exact (product_of_scanned a (hrows a ha).1 _ (hrows a ha).2).2.2 p hap
    · rw [length_filterMap_eq, List.filter_filter]
      congr 1
      apply List.filter_congr
      intro a ha
      by_cases hra : a.ReceptionID = some x.2.Reception.ID
      · have h1 := (product_of_scanned a (hscan a ha) _ hra).2.1
        simp [h1, hra]
      · have hb : (a.ReceptionID == some x.2.Reception.ID) = false := by simpa using hra
        simp [hb]
    · intro hnone
      rw [List.filterMap_eq_nil_iff]
      intro a ha
      have h1 := (product_of_scanned a (hrows a ha).1 _ (hrows a ha).2).2.1
      rw [hnone a (List.mem_filter.mp ha).1 (hrows a ha).2] at h1
      simpa using h1

/-- Witness of C29 on the sample rows: reception 11 gets the products 101 and 102
in row order, reception 10 the product 100. -/
theorem C29_products_of_reception_witness :
    (∀ row ∈ sampleListedRows, row.scanned = true) ∧
    (∃ result, listedToModel (fun _ => 0) sampleListedRows = some result ∧
      ∀ e ∈ result, ∃ l, e.Receptions = some l ∧ ∀ rc ∈ l, ∃ ps, rc.Products = some ps ∧
        ps = (sampleListedRows.filter
          (fun r => r.ReceptionID == some rc.Reception.ID)).filterMap listedPVZRow.product) ∧
    (listedToModel (fun _ => 0) sampleListedRows).map (fun result => result.map (fun e =>
      e.Receptions.map (fun l => l.map (fun rc =>
        (rc.Reception.ID, rc.Products.map (fun ps => ps.map (fun p => p.ID))))))) =
      some [some [], some [(11, some [101, 102]), (10, some [100])]] :=
  ⟨by decide,
    (C29_products_of_reception (fun _ => 0) sampleListedRows (by decide)).imp
      (fun _ h => ⟨h.1, fun e he => (h.2 e he).imp (fun _ hl => ⟨hl.1, fun rc hrc =>
        (hl.2 rc hrc).imp (fun _ hp => ⟨hp.1, hp.2.1⟩)⟩)⟩),
    by decide⟩

end postgresqlrepo

namespace postgresqlrepo
open postgresqlPVZRepository (listedMaps listedRow enterPVZ enterReception enterProduct
  appendReception appendProduct deref assemble listedToModel)

/-! ## The page and the date filter -/

/-- A result of `List` comes from `listedToModel` over rows of the query. -/
theorem List_result (run : DbRun) (ties ties2 mapOrder : Nat → Nat) (s : Store)
    (filter : models.PVZFilter) (result : List models.PVZWithReceptions)
    (h : (postgresqlPVZRepository.List run ties ties2 mapOrder s filter).1.1 = some result) :
    ∃ rawRows, listedToModel mapOrder rawRows = some result ∧
      (∀ row ∈ rawRows, row ∈ listQuery ties ties2 s filter.PageSize.toNat
        (wrapInt64 ((filter.Page - 1) * filter.PageSize)).toNat filter.StartDate
        filter.EndDate) ∧
      (run.fail 2 = false → rawRows = listQuery ties ties2 s filter.PageSize.toNat
        (wrapInt64 ((filter.Page - 1) * filter.PageSize)).toNat filter.StartDate
        filter.EndDate) := by
  unfold postgresqlPVZRepository.List at h
  simp only [] at h
  split at h
  · cases h
  split at h
  · cases h
  split at h
  · cases h
  split at h
  · cases h
  rename_i result0 hmodel
  simp only [Option.some.injEq] at h
  subst h
  refine ⟨_, hmodel, fun row hrow => mem_rawRows _ _ _ row hrow, ?_⟩
  intro h2
  simp [h2]

/-- Claim C30: the page is cut before the date filter.  With any filter, so with
every filter that has a date bound, every pickup point that `List` returns is one
of `paginated_pvz`, the pickup points that `Page` and `PageSize` select from all
stored pickup points, and it is among the pickup points that `List` returns for
the same page, the same order of the pickup points of equal registration date and
no date bound; the result holds at most `PageSize` pickup points.  In the sample
store the first page of size 1 holds pickup point 2, which has no
reception: with the lower bound 6 that page comes back empty, while pickup point
1 with its reception of time 8 is on the second page. -/
theorem C30_page_cut_before_date_filter (run : DbRun) (ties ties2 mapOrder : Nat → Nat)
    (s : Store) (filter : models.PVZFilter) :
    (∀ result,
      (postgresqlPVZRepository.List run ties ties2 mapOrder s filter).1.1 = some result →
      (∀ e ∈ result, e.PVZ.ID ∈ paginatedPVZ ties s filter.PageSize.toNat
        (wrapInt64 ((filter.Page - 1) * filter.PageSize)).toNat) ∧
      result.length ≤ filter.PageSize.toNat ∧
      ∀ (run2 : DbRun) (ties3 mapOrder2 : Nat → Nat) (result2 : List models.PVZWithReceptions),
        run2.fail 2 = false →
        (postgresqlPVZRepository.List run2 ties ties3 mapOrder2 s
          ⟨none, none, filter.Page, filter.PageSize⟩).1.1 = some result2 →
        ∀ e ∈ result, e.PVZ.ID ∈ result2.map (fun e2 => e2.PVZ.ID)) ∧
    (postgresqlPVZRepository.List sampleRun (fun _ => 0) (fun _ => 0) (fun _ => 0) sampleStore
      sampleNarrowFilter).1 = (some [], none) ∧
    ((postgresqlPVZRepository.List sampleRun (fun _ => 0) (fun _ => 0) (fun _ => 0) sampleStore
      ⟨none, none, 1, 1⟩).1.1.map (fun result => result.map (fun e => e.PVZ.ID))) = some [2] ∧
    ((postgresqlPVZRepository.List sampleRun (fun _ => 0) (fun _ => 0) (fun _ => 0) sampleStore
      ⟨some 6, none, 2, 1⟩).1.1.map (fun result => result.map (fun e => e.PVZ.ID))) =
      some [1] := by
  refine ⟨?_, by decide, by decide, by decide⟩
  intro result hres
  obtain ⟨rawRows, hmodel, hsub, -⟩ := List_result run ties ties2 mapOrder s filter result hres
  have hpage : ∀ e ∈ result, e.PVZ.ID ∈ paginatedPVZ ties s filter.PageSize.toNat
      (wrapInt64 ((filter.Page - 1) * filter.PageSize)).toNat := by
    intro e he
    obtain ⟨⟨row, hrow, hpvz⟩, -⟩ := listedToModel_mem mapOrder rawRows result hmodel e he
    obtain ⟨p, -, r, pr, h1, h2, -⟩ := mem_joinedRows s _ filter.StartDate filter.EndDate row
      ((mem_orderByDesc _ _ _ row).mp (hsub row hrow))
    rw [← hpvz, h1]
    exact h2
  have hlen : result.length ≤ filter.PageSize.toNat := by
    obtain ⟨result1, hres1, hnd, -⟩ := listedToModel_ids mapOrder rawRows
      (fun row hrow => listQuery_scanned _ _ _ _ _ _ _ row (hsub row hrow))
    rw [hmodel] at hres1
    simp only [Option.some.injEq] at hres1
    subst hres1
    have hsubset : result.map (fun e => e.PVZ.ID) ⊆ paginatedPVZ ties s filter.PageSize.toNat
        (wrapInt64 ((filter.Page - 1) * filter.PageSize)).toNat := by
      intro id hid
      obtain ⟨e, he, rfl⟩ := List.mem_map.mp hid
      exact hpage e he
    have h1 := (List.subperm_of_subset hnd hsubset).length_le
    rw [List.length_map, paginatedPVZ_length] at h1
    exact le_trans h1 (Nat.min_le_left _ _)
  refine ⟨hpage, hlen, ?_⟩
  intro run2 ties3 mapOrder2 result2 hf2 hres2 e he
  obtain ⟨rawRows2, hmodel2, -, heq2⟩ := List_result run2 ties ties3 mapOrder2 s
    ⟨none, none, filter.Page, filter.PageSize⟩ result2 hres2
  have heq := heq2 hf2
  subst heq
  obtain ⟨result3, hres3, -, hmem⟩ := listedToModel_ids mapOrder2 _
    (listQuery_scanned ties ties3 s filter.PageSize.toNat
      (wrapInt64 ((filter.Page - 1) * filter.PageSize)).toNat none none)
  rw [hmodel2] at hres3
  simp only [Option.some.injEq] at hres3
  subst hres3
  rw [hmem]
  have hid := hpage e he
  obtain ⟨p, hp, hpid⟩ := paginatedPVZ_stored _ _ _ _ _ hid
  obtain ⟨row, hrow, hrid⟩ := joinedRows_undated s _ p hp (hpid ▸ hid)
  exact ⟨row, (mem_orderByDesc _ _ _ row).mpr hrow, hrid.trans hpid⟩

/-- Witness of C30 on the sample store with the lower bound 6 and pages of ten:
the one pickup point returned is on the page. -/
theorem C30_page_cut_before_date_filter_witness :
    (∀ result, (postgresqlPVZRepository.List sampleRun (fun _ => 0) (fun _ => 0) (fun _ => 0)
        sampleStore sampleDatedFilter).1.1 = some result →
      ∀ e ∈ result, e.PVZ.ID ∈ paginatedPVZ (fun _ => 0) sampleStore 10 0) ∧
    paginatedPVZ (fun _ => 0) sampleStore 10 0 = [2, 1] :=
  ⟨fun result hr =>
      ((C30_page_cut_before_date_filter sampleRun (fun _ => 0) (fun _ => 0) (fun _ => 0)
        sampleStore sampleDatedFilter).1 result hr).1,
    by decide⟩

end postgresqlrepo

namespace postgresqlrepo

/-- When no two pickup points share a registration date, `ORDER BY
registration_date DESC` leaves the engine no choice: `paginated_pvz` is the same
whatever the order `ties`. -/
theorem paginatedPVZ_of_distinct_dates (ties ties3 : Nat → Nat) (s : Store)
    (limit offset : Nat) (hd : (s.pvzs.map pvzRow.RegistrationDate).Nodup) :
    paginatedPVZ ties s limit offset = paginatedPVZ ties3 s limit offset := by
  have key : orderByDesc (fun a b : pvzRow => decide (b.RegistrationDate ≤ a.RegistrationDate))
      ties s.pvzs =
      orderByDesc (fun a b : pvzRow => decide (b.RegistrationDate ≤ a.RegistrationDate))
        ties3 s.pvzs := by
    have hs1 := orderByDesc_registration_sorted ties s.pvzs
    have hs2 := orderByDesc_registration_sorted ties3 s.pvzs
    have hp1 : (orderByDesc (fun a b : pvzRow =>
        decide (b.RegistrationDate ≤ a.RegistrationDate)) ties s.pvzs).Perm s.pvzs :=
      (List.perm_insertionSort _ _).trans (shuffle_perm ties s.pvzs)
    have hp2 : (orderByDesc (fun a b : pvzRow =>
        decide (b.RegistrationDate ≤ a.RegistrationDate)) ties3 s.pvzs).Perm s.pvzs :=
      (List.perm_insertionSort _ _).trans (shuffle_perm ties3 s.pvzs)
    have hdates : (orderByDesc (fun a b : pvzRow =>
        decide (b.RegistrationDate ≤ a.RegistrationDate)) ties s.pvzs).map
          pvzRow.RegistrationDate =
        (orderByDesc (fun a b : pvzRow =>
          decide (b.RegistrationDate ≤ a.RegistrationDate)) ties3 s.pvzs).map
            pvzRow.RegistrationDate := by
      refine List.eq_of_perm_of_sorted ((hp1.trans hp2.symm).map _)
        (r := fun x y : Time => y ≤ x) ?_ ?_
      · exact List.pairwise_map.mpr hs1
      · exact List.pairwise_map.mpr hs2
    apply List.ext_getElem
    · exact hp1.length_eq.trans hp2.length_eq.symm
    · intro i h1 h2
      apply List.inj_on_of_nodup_map hd (hp1.mem_iff.mp (List.getElem_mem _))
        (hp2.mem_iff.mp (List.getElem_mem _))
      have h3 := congrArg (fun l => l[i]?) hdates
      simp only [List.getElem?_map] at h3
      rw [List.getElem?_eq_getElem h1, List.getElem?_eq_getElem h2] at h3
      simpa using h3
  unfold paginatedPVZ
  rw [key]

end postgresqlrepo

end PvzService
